import Mathlib

/-!
# STU messaging backend: authentication and dialog core

A shallow embedding of the Go services under `internal/security`, `internal/auth`,
`internal/adminauth` and `internal/dialogs`, and the properties proved about it.

Conventions of the embedding

* A Go `[]byte` is a `List Nat` (every element below 256), a Go `string` is a Lean `String`
  and `[]byte(s)` is its UTF-8 encoding (`bytesOf`).
* `uuid.UUID` is a natural number, `uuid.Nil` is `0`.
* `time.Time` and `time.Duration` are integers (nanoseconds).  Every clock read of one call
  (`time.Now()` in Go, `NOW()` in SQL) observes the same instant, the argument `now`.
* A PostgreSQL table is the list of its rows in storage order; `SELECT ... LIMIT 1` returns the
  first matching row, an `UPDATE ... WHERE` rewrites every matching row.  Statements do not fail
  for reasons outside the data (no connection errors).
* Values drawn from the environment (`crypto/rand`, identifiers generated by the database or by
  `uuid.New()`) are arguments of the operation that draws them.
* A Go result `(v, err)` is an `Except Error v`, paired with the state the call leaves behind.
-/

set_option linter.unusedVariables false

namespace Stu

/-! ## Basic types -/

/-- Go `[]byte`. -/
abbrev Bytes := List Nat

/-- Go `uuid.UUID`; `uuid.Nil` is `0`. -/
abbrev UUID := Nat

/-- Go `time.Time`, in nanoseconds. -/
abbrev Time := Int

/-- Go `time.Duration`, in nanoseconds. -/
abbrev Duration := Int

/-- UTF-8 encoding of one code point. -/
def utf8EncodeChar (c : Char) : Bytes :=
  let v := c.toNat
  if v ≤ 0x7f then [v]
  else if v ≤ 0x7ff then [0xc0 ||| (v >>> 6), 0x80 ||| (v &&& 0x3f)]
  else if v ≤ 0xffff then
    [0xe0 ||| (v >>> 12), 0x80 ||| ((v >>> 6) &&& 0x3f), 0x80 ||| (v &&& 0x3f)]
  else
    [0xf0 ||| (v >>> 18), 0x80 ||| ((v >>> 12) &&& 0x3f), 0x80 ||| ((v >>> 6) &&& 0x3f),
      0x80 ||| (v &&& 0x3f)]

/-- Go `[]byte(s)`: the bytes of a string. -/
def bytesOf (s : String) : Bytes := s.toList.flatMap utf8EncodeChar

/-! ## `encoding/base64` (the standard library encoder used by the token mint) -/

namespace base64

/-- Alphabet of `base64.URLEncoding`. -/
def encodeURL : List Char :=
  "ABCDEFGHIJKLMNOPQRSTUVWXYZabcdefghijklmnopqrstuvwxyz0123456789-_".toList

/-- Alphabet of `base64.StdEncoding`. -/
def encodeStd : List Char :=
  "ABCDEFGHIJKLMNOPQRSTUVWXYZabcdefghijklmnopqrstuvwxyz0123456789+/".toList

/-- One output character: `enc.encode[val & 0x3F]`. -/
def sextet (alphabet : List Char) (val : Nat) : Char := alphabet.getD (val % 64) 'A'

/-- Body of `(*Encoding).Encode` with `padChar = NoPadding`: full 3-byte groups give four
characters, a remainder of two bytes gives three, a remainder of one byte gives two. -/
def encodeRaw (alphabet : List Char) : Bytes → List Char
  | a :: b :: c :: rest =>
    let val := (a <<< 16) ||| (b <<< 8) ||| c
    sextet alphabet (val >>> 18) :: sextet alphabet (val >>> 12) :: sextet alphabet (val >>> 6)
      :: sextet alphabet val :: encodeRaw alphabet rest
  | [a, b] =>
    let val := (a <<< 16) ||| (b <<< 8)
    [sextet alphabet (val >>> 18), sextet alphabet (val >>> 12), sextet alphabet (val >>> 6)]
  | [a] =>
    let val := a <<< 16
    [sextet alphabet (val >>> 18), sextet alphabet (val >>> 12)]
  | [] => []

/-- Go `base64.RawURLEncoding.EncodeToString`. -/
def RawURLEncoding (src : Bytes) : String := String.mk (encodeRaw encodeURL src)

/-- Go `base64.RawStdEncoding.EncodeToString`. -/
def RawStdEncoding (src : Bytes) : String := String.mk (encodeRaw encodeStd src)

end base64

/-! ## `crypto/sha256` (FIPS 180-4) -/

namespace sha256

/-- Reduction to a 32-bit word. -/
def w32 (n : Nat) : Nat := n % 4294967296

/-- Rotate a 32-bit word right. -/
def rotr (x n : Nat) : Nat := w32 ((x >>> n) ||| (x <<< (32 - n)))

def ch (x y z : Nat) : Nat := (x &&& y) ^^^ ((4294967295 - x) &&& z)

def maj (x y z : Nat) : Nat := (x &&& y) ^^^ (x &&& z) ^^^ (y &&& z)

def bsig0 (x : Nat) : Nat := rotr x 2 ^^^ rotr x 13 ^^^ rotr x 22

def bsig1 (x : Nat) : Nat := rotr x 6 ^^^ rotr x 11 ^^^ rotr x 25

def ssig0 (x : Nat) : Nat := rotr x 7 ^^^ rotr x 18 ^^^ (x >>> 3)

def ssig1 (x : Nat) : Nat := rotr x 17 ^^^ rotr x 19 ^^^ (x >>> 10)

/-- Round constants. -/
def K : List Nat := [
  0x428a2f98, 0x71374491, 0xb5c0fbcf, 0xe9b5dba5, 0x3956c25b, 0x59f111f1, 0x923f82a4, 0xab1c5ed5,
  0xd807aa98, 0x12835b01, 0x243185be, 0x550c7dc3, 0x72be5d74, 0x80deb1fe, 0x9bdc06a7, 0xc19bf174,
  0xe49b69c1, 0xefbe4786, 0x0fc19dc6, 0x240ca1cc, 0x2de92c6f, 0x4a7484aa, 0x5cb0a9dc, 0x76f988da,
  0x983e5152, 0xa831c66d, 0xb00327c8, 0xbf597fc7, 0xc6e00bf3, 0xd5a79147, 0x06ca6351, 0x14292967,
  0x27b70a85, 0x2e1b2138, 0x4d2c6dfc, 0x53380d13, 0x650a7354, 0x766a0abb, 0x81c2c92e, 0x92722c85,
  0xa2bfe8a1, 0xa81a664b, 0xc24b8b70, 0xc76c51a3, 0xd192e819, 0xd6990624, 0xf40e3585, 0x106aa070,
  0x19a4c116, 0x1e376c08, 0x2748774c, 0x34b0bcb5, 0x391c0cb3, 0x4ed8aa4a, 0x5b9cca4f, 0x682e6ff3,
  0x748f82ee, 0x78a5636f, 0x84c87814, 0x8cc70208, 0x90befffa, 0xa4506ceb, 0xbef9a3f7, 0xc67178f2]

/-- Padding: a `0x80` byte, zero bytes up to 56 modulo 64, the bit length on eight bytes. -/
def pad (msg : Bytes) : Bytes :=
  let l := msg.length
  msg ++ [128] ++ List.replicate ((119 - l % 64) % 64) 0 ++
    (List.range 8).map (fun i => ((8 * l) >>> (8 * (7 - i))) % 256)

/-- Big-endian 32-bit words of a byte string. -/
def toWords : Bytes → List Nat
  | a :: b :: c :: d :: rest => (a * 16777216 + b * 65536 + c * 256 + d) :: toWords rest
  | _ => []

/-- Message schedule of one block (sixty-four words). -/
def schedule (blk : List Nat) : List Nat :=
  ((List.range 48).foldl (fun (w : List Nat) _ =>
    w32 (ssig1 (w.getD 1 0) + w.getD 6 0 + ssig0 (w.getD 14 0) + w.getD 15 0) :: w)
    blk.reverse).reverse

/-- The eight working variables. -/
structure Vars where
  a : Nat
  b : Nat
  c : Nat
  d : Nat
  e : Nat
  f : Nat
  g : Nat
  h : Nat

/-- One round, for the pair (round constant, schedule word). -/
def round (s : Vars) (kw : Nat × Nat) : Vars :=
  let t1 := s.h + bsig1 s.e + ch s.e s.f s.g + kw.1 + kw.2
  let t2 := bsig0 s.a + maj s.a s.b s.c
  ⟨w32 (t1 + t2), s.a, s.b, s.c, w32 (s.d + t1), s.e, s.f, s.g⟩

/-- Compression of one block into the chaining value. -/
def compress (h : Vars) (blk : List Nat) : Vars :=
  let r := (K.zip (schedule blk)).foldl round h
  ⟨w32 (h.a + r.a), w32 (h.b + r.b), w32 (h.c + r.c), w32 (h.d + r.d),
   w32 (h.e + r.e), w32 (h.f + r.f), w32 (h.g + r.g), w32 (h.h + r.h)⟩

/-- The first `n` sixteen-word blocks. -/
def blocks : Nat → List Nat → List (List Nat)
  | 0, _ => []
  | n + 1, ws => ws.take 16 :: blocks n (ws.drop 16)

/-- Big-endian bytes of a 32-bit word. -/
def wordBytes (w : Nat) : Bytes := [w / 16777216 % 256, w / 65536 % 256, w / 256 % 256, w % 256]

/-- Go `sha256.Sum256(data)`, as the byte slice `sum[:]`. -/
def Sum256 (data : Bytes) : Bytes :=
  let p := pad data
  let r := (blocks (p.length / 64) (toWords p)).foldl compress
    ⟨0x6a09e667, 0xbb67ae85, 0x3c6ef372, 0xa54ff53a, 0x510e527f, 0x9b05688c, 0x1f83d9ab,
     0x5be0cd19⟩
  wordBytes r.a ++ wordBytes r.b ++ wordBytes r.c ++ wordBytes r.d ++
  wordBytes r.e ++ wordBytes r.f ++ wordBytes r.g ++ wordBytes r.h

end sha256

/-! ## Errors -/

/-- The error values of the packages `auth`, `adminauth` and `dialogs`. -/
inductive Error
  /-- Value `auth.ErrInvalidCredentials`. -/
  | ErrInvalidCredentials
  /-- Value `auth.ErrInactive`. -/
  | ErrInactive
  /-- Value `auth.ErrRefreshReuse`. -/
  | ErrRefreshReuse
  /-- Value `auth.ErrSessionRevoked`. -/
  | ErrSessionRevoked
  /-- Value `auth.ErrBanned`. -/
  | ErrBanned
  /-- Value `auth.ErrUserExists`. -/
  | ErrUserExists
  /-- Value `auth.ErrUserNotFound`. -/
  | ErrUserNotFound
  /-- Value `auth.ErrInvalidCode`. -/
  | ErrInvalidCode
  /-- Value `auth.ErrSessionNotFound`. -/
  | ErrSessionNotFound
  /-- Value `adminauth.ErrNotAdmin`. -/
  | ErrNotAdmin
  /-- Value `adminauth.ErrInvalidStep`. -/
  | ErrInvalidStep
  /-- Value `adminauth.ErrInvalidCode`. -/
  | ErrAdminInvalidCode
  /-- Value `adminauth.ErrSessionExpired`. -/
  | ErrSessionExpired
  /-- Value `pgx.ErrNoRows`, returned unwrapped by `adminauth` lookups. -/
  | ErrNoRows
  /-- Value `dialogs.ErrForbidden`. -/
  | ErrForbidden
  /-- Value `dialogs.ErrNotMember`. -/
  | ErrNotMember
  /-- Value `dialogs.ErrDialogExist`. -/
  | ErrDialogExist
  /-- Value `dialogs.ErrDialogNotFound`. -/
  | ErrDialogNotFound
  /-- An error built in place by `fmt.Errorf` or `errors.New`, with its message. -/
  | msg (text : String)
  deriving DecidableEq, Repr

/-! ## `internal/security/token.go` -/

namespace security

/-- Go `security.GenerateOpaqueToken`.  `raw` is what `rand.Read` wrote into the 32-byte
buffer, `none` when `rand.Read` returned an error. -/
def GenerateOpaqueToken (raw : Option Bytes) : Except Error (String × Bytes) :=
  match raw with
  | none => .error (.msg "crypto/rand")
  | some raw =>
    let token := base64.RawURLEncoding raw
    let hashSum := sha256.Sum256 (bytesOf token)
    .ok (token, hashSum)

end security

/-! ## Tables (`users`, `verification_codes`, `devices`, `sessions`, `admin_auth_sessions`) -/

namespace auth

/-- Go `auth.Config`. -/
structure Config where
  AccessTokenTTL : Duration
  RefreshTokenTTL : Duration
  VerificationCodeTTL : Duration
  deriving DecidableEq, Repr

/-- Go `auth.User`. -/
structure User where
  ID : UUID
  Email : String
  PasswordHash : Bytes
  IsActive : Bool
  IsAdmin : Bool
  BannedAt : Option Time
  BanReason : Option String
  AdminTOTPSecret : Option String
  CreatedAt : Time
  deriving DecidableEq, Repr

/-- The Go zero value `User{}`. -/
def User.zero : User := ⟨0, "", [], false, false, none, none, none, 0⟩

/-- A row of `users`: the columns read into `User`, and `is_deleted`. -/
structure UserRow extends User where
  is_deleted : Bool
  deriving DecidableEq, Repr

/-- A row of `verification_codes`. -/
structure VerificationCode where
  ID : UUID
  UserID : UUID
  CodeHash : Bytes
  ExpiresAt : Time
  ConsumedAt : Option Time
  CreatedAt : Time
  deriving DecidableEq, Repr

/-- A row of `devices`. -/
structure Device where
  ID : UUID
  UserID : UUID
  Name : String
  Platform : String
  LastSeen : Time
  deriving DecidableEq, Repr

/-- A row of `sessions`: the nine columns of Go `auth.Session` (a NULL
`last_refresh_token_hash` is `none`), then `user_agent`, `ip` and `rotated_at`. -/
structure Session where
  ID : UUID
  UserID : UUID
  DeviceID : UUID
  RefreshTokenHash : Bytes
  LastRefreshTokenHash : Option Bytes
  ExpiresAt : Time
  RevokedAt : Option Time
  RevokedReason : String
  AccessTokenHash : Bytes
  UserAgent : String
  IP : String
  RotatedAt : Option Time
  deriving DecidableEq, Repr

end auth

namespace adminauth

/-- A row of `admin_auth_sessions`. -/
structure Row where
  id : UUID
  user_id : UUID
  session_token : String
  state : String
  totp_verified : Bool
  email_code : Option String
  email_expires_at : Option Time
  expires_at : Time
  deriving DecidableEq, Repr

/-- Go `adminauth.Session`. -/
structure Session where
  ID : UUID
  UserID : UUID
  Token : String
  State : String
  TotpVerified : Bool
  EmailCode : String
  EmailExpires : Option Time
  ExpiresAt : Time
  deriving DecidableEq, Repr

end adminauth

/-- The database behind the `pgxpool.Pool` shared by the auth and admin-auth repositories. -/
structure DB where
  users : List auth.UserRow
  verification_codes : List auth.VerificationCode
  devices : List auth.Device
  sessions : List auth.Session
  admin_auth_sessions : List adminauth.Row
  deriving DecidableEq, Repr

/-! ## `internal/auth/repository.go` (`pgRepository`) -/

namespace auth

/-- Modelled from the spec: the unique index on `users.email` ("unique normalised email"),
whose declaration is not part of the sources: an insert violates it when a row, deleted or
not, already holds the e-mail. -/
def emailTaken (db : DB) (email : String) : Bool :=
  db.users.any (fun r => decide (r.Email = email))

/-- Go `pgRepository.CreateUser`: the insert fails with SQLSTATE 23505 when the e-mail is
taken.  `newID` is the identifier the database generates. -/
def CreateUser (db : DB) (now : Time) (newID : UUID) (email : String) (passwordHash : Bytes) :
    Except Error User × DB :=
  if emailTaken db email then (.error .ErrUserExists, db)
  else
    let u : User := ⟨newID, email, passwordHash, false, false, none, none, none, now⟩
    (.ok { User.zero with ID := u.ID, Email := u.Email, PasswordHash := u.PasswordHash,
                          IsActive := u.IsActive, CreatedAt := u.CreatedAt },
     { db with users := db.users ++ [{ toUser := u, is_deleted := false }] })

/-- Go `pgRepository.ActivateUser`. -/
def ActivateUser (db : DB) (userID : UUID) : DB :=
  { db with users := db.users.map (fun r =>
      if r.ID = userID then { r with IsActive := true } else r) }

/-- Go `pgRepository.GetUserByEmail`. -/
def GetUserByEmail (db : DB) (email : String) : Except Error User :=
  match db.users.find? (fun r => decide (r.Email = email ∧ r.is_deleted = false)) with
  | some r => .ok r.toUser
  | none => .error .ErrUserNotFound

/-- Go `pgRepository.GetUserByID`. -/
def GetUserByID (db : DB) (id : UUID) : Except Error User :=
  match db.users.find? (fun r => decide (r.ID = id ∧ r.is_deleted = false)) with
  | some r => .ok r.toUser
  | none => .error .ErrUserNotFound

/-- Go `pgRepository.SaveVerificationCode`. -/
def SaveVerificationCode (db : DB) (now : Time) (newID : UUID) (userID : UUID)
    (codeHash : Bytes) (expiresAt : Time) : DB :=
  { db with verification_codes :=
      db.verification_codes ++ [⟨newID, userID, codeHash, expiresAt, none, now⟩] }

/-- The row that `ORDER BY vc.created_at DESC LIMIT 1` keeps. -/
def newestCode : List (VerificationCode × UserRow) → Option (VerificationCode × UserRow)
  | [] => none
  | p :: rest =>
    match newestCode rest with
    | none => some p
    | some q => if p.1.CreatedAt < q.1.CreatedAt then some q else some p

/-- Go `pgRepository.ValidateVerificationCode`.  The query reads only `id`, `email`,
`password_hash`, `is_active` and `created_at` of the user: every other field of the returned
`User` keeps its zero value. -/
def ValidateVerificationCode (db : DB) (now : Time) (email : String) (codeHash : Bytes) :
    Except Error User × DB :=
  let joined := db.verification_codes.flatMap (fun vc =>
    (db.users.filter (fun u => decide (u.ID = vc.UserID))).map (fun u => (vc, u)))
  let rows := joined.filter (fun p =>
    decide (p.2.Email = email ∧ p.1.CodeHash = codeHash ∧ p.1.ConsumedAt = none
      ∧ now < p.1.ExpiresAt))
  match newestCode rows with
  | none => (.error .ErrInvalidCode, db)
  | some (vc, u) =>
    (.ok { User.zero with ID := u.ID, Email := u.Email, PasswordHash := u.PasswordHash,
                          IsActive := u.IsActive, CreatedAt := u.CreatedAt },
     { db with verification_codes := db.verification_codes.map (fun r =>
         if r.ID = vc.ID then { r with ConsumedAt := some now } else r) })

/-- Go `pgRepository.CreateDevice`; `newID` is the identifier the database generates. -/
def CreateDevice (db : DB) (now : Time) (newID : UUID) (userID : UUID) (name platform : String) :
    UUID × DB :=
  (newID, { db with devices := db.devices ++ [⟨newID, userID, name, platform, now⟩] })

/-- Go `pgRepository.CreateSession`; `newID` is the identifier the database generates. -/
def CreateSession (db : DB) (newID : UUID) (userID deviceID : UUID)
    (accessTokenHash refreshTokenHash : Bytes) (expiresAt : Time) (userAgent ip : String) :
    UUID × DB :=
  (newID, { db with sessions := db.sessions ++
      [{ ID := newID, UserID := userID, DeviceID := deviceID,
         RefreshTokenHash := refreshTokenHash, LastRefreshTokenHash := none,
         ExpiresAt := expiresAt, RevokedAt := none, RevokedReason := "",
         AccessTokenHash := accessTokenHash, UserAgent := userAgent, IP := ip,
         RotatedAt := none }] })

/-- Go `pgRepository.GetSessionByRefresh`: the session whose current refresh hash matches, or
else the one whose previous refresh hash matches (flagged `true`). -/
def GetSessionByRefresh (db : DB) (refreshHash : Bytes) : Except Error (Session × Bool) :=
  match db.sessions.find? (fun s => decide (s.RefreshTokenHash = refreshHash)) with
  | some s => .ok (s, false)
  | none =>
    match db.sessions.find? (fun s => decide (s.LastRefreshTokenHash = some refreshHash)) with
    | some s => .ok (s, true)
    | none => .error .ErrSessionNotFound

/-- Go `pgRepository.UpdateSessionTokens`. -/
def UpdateSessionTokens (db : DB) (now : Time) (sessionID : UUID)
    (newAccessHash newRefreshHash : Bytes) (expiresAt : Time) : DB :=
  { db with sessions := db.sessions.map (fun s =>
      if s.ID = sessionID then
        { s with LastRefreshTokenHash := some s.RefreshTokenHash,
                 RefreshTokenHash := newRefreshHash,
                 AccessTokenHash := newAccessHash,
                 ExpiresAt := expiresAt,
                 RotatedAt := some now }
      else s) }

/-- Go `pgRepository.RevokeSession`. -/
def RevokeSession (db : DB) (now : Time) (sessionID : UUID) (reason : String) : DB :=
  { db with sessions := db.sessions.map (fun s =>
      if s.ID = sessionID then { s with RevokedAt := some now, RevokedReason := reason }
      else s) }

/-- Go `pgRepository.RevokeUserSessions`. -/
def RevokeUserSessions (db : DB) (now : Time) (userID : UUID) (reason : String) : DB :=
  { db with sessions := db.sessions.map (fun s =>
      if s.UserID = userID ∧ s.RevokedAt = none then
        { s with RevokedAt := some now, RevokedReason := reason }
      else s) }

/-- Go `pgRepository.ValidateAccessToken`. -/
def ValidateAccessToken (db : DB) (now : Time) (accessHash : Bytes) : Except Error Session :=
  match db.sessions.find? (fun s =>
      decide (s.AccessTokenHash = accessHash ∧ s.RevokedAt = none)) with
  | none => .error .ErrSessionNotFound
  | some s => if s.ExpiresAt < now then .error (.msg "session expired") else .ok s

end auth

/-! ## `internal/auth/service.go` -/

namespace auth

/-- A call on the `auth.Repository` interface, with the arguments handed to the store. -/
inductive RepoCall
  | CreateUser (email : String) (passwordHash : Bytes)
  | ActivateUser (userID : UUID)
  | GetUserByEmail (email : String)
  | GetUserByID (id : UUID)
  | SaveVerificationCode (userID : UUID) (codeHash : Bytes) (expiresAt : Time)
  | ValidateVerificationCode (email : String) (codeHash : Bytes)
  | CreateDevice (userID : UUID) (name platform : String)
  | CreateSession (userID deviceID : UUID) (accessTokenHash refreshTokenHash : Bytes)
      (expiresAt : Time) (userAgent ip : String)
  | GetSessionByRefresh (refreshHash : Bytes)
  | UpdateSessionTokens (sessionID : UUID) (newAccessHash newRefreshHash : Bytes)
      (expiresAt : Time)
  | RevokeSession (sessionID : UUID) (reason : String)
  | RevokeUserSessions (userID : UUID) (reason : String)
  | ValidateAccessToken (accessHash : Bytes)
  deriving DecidableEq, Repr

/-- Go `auth.Service` with the state it works on: the database behind `repo`, the
configuration, the two ban-detail fields, and (as a record, not used by the code) the calls
made on the repository so far. -/
structure Service where
  repo : DB
  config : Config
  banReason : Option String
  banAt : Option Time
  calls : List RepoCall
  deriving DecidableEq, Repr

/-- The values one session issuance draws: the identifiers generated by the database for the
device and the session rows, and the two reads of `crypto/rand`. -/
structure Draws where
  deviceID : UUID
  sessionID : UUID
  rawAccess : Option Bytes
  rawRefresh : Option Bytes
  deriving DecidableEq, Repr

/-- Go `deviceNameOrDefault`. -/
def deviceNameOrDefault (name : String) : String :=
  if name = "" then "unknown-device" else name

/-- Go `hashCode`. -/
def hashCode (code : String) : Bytes := sha256.Sum256 (bytesOf code)

/-- Go `Service.issueSession`. -/
def Service.issueSession (s : Service) (now : Time) (d : Draws) (user : User)
    (deviceName platform userAgent ip : String) :
    Except Error (UUID × UUID × String × String) × Service :=
  let dev := CreateDevice s.repo now d.deviceID user.ID (deviceNameOrDefault deviceName) platform
  let deviceID := dev.1
  let s1 : Service := { s with
    repo := dev.2
    calls := s.calls ++ [.CreateDevice user.ID (deviceNameOrDefault deviceName) platform] }
  match security.GenerateOpaqueToken d.rawAccess with
  | .error err => (.error err, s1)
  | .ok (accessToken, accessHash) =>
    match security.GenerateOpaqueToken d.rawRefresh with
    | .error err => (.error err, s1)
    | .ok (refreshToken, refreshHash) =>
      let expiresAt := now + s.config.RefreshTokenTTL
      (.ok (user.ID, deviceID, accessToken, refreshToken),
       { s1 with
         repo := (CreateSession s1.repo d.sessionID user.ID deviceID accessHash refreshHash
           expiresAt userAgent ip).2
         calls := s1.calls ++ [.CreateSession user.ID deviceID accessHash refreshHash
           expiresAt userAgent ip] })

/-- Go `Service.Verify`. -/
def Service.Verify (s : Service) (now : Time) (d : Draws)
    (email code deviceName platform userAgent ip : String) :
    Except Error (UUID × UUID × String × String) × Service :=
  let codeHash := hashCode code
  let r := ValidateVerificationCode s.repo now email codeHash
  let s1 : Service := { s with
    repo := r.2
    calls := s.calls ++ [.ValidateVerificationCode email codeHash] }
  match r.1 with
  | .error err => (.error err, s1)
  | .ok user =>
    if user.BannedAt ≠ none then
      (.error .ErrBanned, { s1 with banReason := user.BanReason, banAt := user.BannedAt })
    else
      let s2 : Service := { s1 with
        repo := ActivateUser s1.repo user.ID
        calls := s1.calls ++ [.ActivateUser user.ID] }
      s2.issueSession now d user deviceName platform userAgent ip

/-- Go `Service.Login`.  `CheckPassword` is `security.CheckPassword` (bcrypt). -/
def Service.Login (CheckPassword : Bytes → String → Bool) (s : Service) (now : Time)
    (d : Draws) (email password deviceName platform userAgent ip : String) :
    Except Error (UUID × UUID × String × String) × Service :=
  let s1 : Service := { s with calls := s.calls ++ [.GetUserByEmail email] }
  match GetUserByEmail s.repo email with
  | .error err => (.error err, s1)
  | .ok user =>
    if !user.IsActive then (.error .ErrInactive, s1)
    else if user.BannedAt ≠ none then
      (.error .ErrBanned, { s1 with banReason := user.BanReason, banAt := user.BannedAt })
    else if !CheckPassword user.PasswordHash password then (.error .ErrInvalidCredentials, s1)
    else s1.issueSession now d user deviceName platform userAgent ip

/-- Go `Service.Refresh`.  `rawAccess` and `rawRefresh` are the two reads of `crypto/rand`. -/
def Service.Refresh (s : Service) (now : Time) (rawAccess rawRefresh : Option Bytes)
    (refreshToken userAgent ip : String) : Except Error (String × String) × Service :=
  let refreshHash := sha256.Sum256 (bytesOf refreshToken)
  let s1 : Service := { s with calls := s.calls ++ [.GetSessionByRefresh refreshHash] }
  match GetSessionByRefresh s.repo refreshHash with
  | .error err => (.error err, s1)
  | .ok (session, matchedPrev) =>
    if session.RevokedAt ≠ none then (.error .ErrSessionRevoked, s1)
    else if matchedPrev then
      (.error .ErrRefreshReuse,
       { s1 with
         repo := RevokeSession s1.repo now session.ID "refresh_reuse"
         calls := s1.calls ++ [.RevokeSession session.ID "refresh_reuse"] })
    else if session.ExpiresAt < now then (.error (.msg "refresh expired"), s1)
    else
      match security.GenerateOpaqueToken rawAccess with
      | .error err => (.error err, s1)
      | .ok (newAccess, newAccessHash) =>
        match security.GenerateOpaqueToken rawRefresh with
        | .error err => (.error err, s1)
        | .ok (newRefresh, newRefreshHash) =>
          let expiresAt := now + s.config.RefreshTokenTTL
          (.ok (newAccess, newRefresh),
           { s1 with
             repo := UpdateSessionTokens s1.repo now session.ID newAccessHash newRefreshHash
               expiresAt
             calls := s1.calls ++ [.UpdateSessionTokens session.ID newAccessHash
               newRefreshHash expiresAt] })

/-- Go `Service.Logout`. -/
def Service.Logout (s : Service) (now : Time) (refreshToken : String) :
    Option Error × Service :=
  let refreshHash := sha256.Sum256 (bytesOf refreshToken)
  let s1 : Service := { s with calls := s.calls ++ [.GetSessionByRefresh refreshHash] }
  match GetSessionByRefresh s.repo refreshHash with
  | .error err => (some err, s1)
  | .ok (session, matchedPrev) =>
    if matchedPrev then (some .ErrRefreshReuse, s1)
    else
      (none, { s1 with
        repo := RevokeSession s1.repo now session.ID "logout"
        calls := s1.calls ++ [.RevokeSession session.ID "logout"] })

/-- Go `Service.LogoutAll`. -/
def Service.LogoutAll (s : Service) (now : Time) (refreshToken : String) :
    Option Error × Service :=
  let refreshHash := sha256.Sum256 (bytesOf refreshToken)
  let s1 : Service := { s with calls := s.calls ++ [.GetSessionByRefresh refreshHash] }
  match GetSessionByRefresh s.repo refreshHash with
  | .error err => (some err, s1)
  | .ok (session, _) =>
    (none, { s1 with
      repo := RevokeUserSessions s1.repo now session.UserID "logout_all"
      calls := s1.calls ++ [.RevokeUserSessions session.UserID "logout_all"] })

/-- Go `Service.SetBanInfo`. -/
def Service.SetBanInfo (s : Service) (reason : Option String) (at_ : Option Time) : Service :=
  { s with banReason := reason, banAt := at_ }

/-- Go `Service.IssueSessionForUser`. -/
def Service.IssueSessionForUser (s : Service) (now : Time) (d : Draws) (user : User)
    (deviceName platform userAgent ip : String) :
    Except Error (UUID × UUID × String × String) × Service :=
  if user.BannedAt ≠ none then
    (.error .ErrBanned, { s with banReason := user.BanReason, banAt := user.BannedAt })
  else s.issueSession now d user deviceName platform userAgent ip

/-! ## `internal/auth/access_validator.go` and `internal/auth/middleware.go` -/

/-- Go `uuid.UUID.String`: thirty-two lower-case hexadecimal digits in groups 8-4-4-4-12. -/
def uuidString (u : UUID) : String :=
  let hex : Nat → Nat → List Char := fun start n =>
    (List.range n).map (fun i =>
      "0123456789abcdef".toList.getD ((u >>> (4 * (31 - (start + i)))) % 16) '0')
  String.mk (hex 0 8 ++ '-' :: hex 8 4 ++ '-' :: hex 12 4 ++ '-' :: hex 16 4 ++ '-' :: hex 20 12)

/-- Go `auth.SessionInfo`. -/
structure SessionInfo where
  UserID : String
  DeviceID : String
  IsAdmin : Bool
  Banned : Bool
  BanReason : Option String
  BanAt : Option Time
  deriving DecidableEq, Repr

/-- The Go zero value `SessionInfo{}`. -/
def SessionInfo.zero : SessionInfo := ⟨"", "", false, false, none, none⟩

/-- Go `AccessValidatorImpl.ValidateAccessToken`, over the database behind `v.repo`; the
second component is the returned `error` (`none` for `nil`). -/
def AccessValidatorImpl.ValidateAccessToken (repo : DB) (now : Time) (hash : Bytes) :
    SessionInfo × Option Error :=
  match auth.ValidateAccessToken repo now hash with
  | .error err => (SessionInfo.zero, some err)
  | .ok s =>
    if s.ExpiresAt < now then (SessionInfo.zero, some .ErrSessionNotFound)
    else
      match GetUserByID repo s.UserID with
      | .error err => (SessionInfo.zero, some err)
      | .ok user =>
        if user.BannedAt ≠ none then
          ({ UserID := uuidString s.UserID, DeviceID := uuidString s.DeviceID, IsAdmin := false,
             Banned := true, BanReason := user.BanReason, BanAt := user.BannedAt },
           some .ErrBanned)
        else
          ({ UserID := uuidString s.UserID, DeviceID := uuidString s.DeviceID,
             IsAdmin := user.IsAdmin, Banned := false, BanReason := user.BanReason,
             BanAt := user.BannedAt }, none)

/-- Go `unicode.IsSpace`. -/
def isSpace (c : Char) : Bool :=
  let v := c.toNat
  decide (v ∈ [0x09, 0x0a, 0x0b, 0x0c, 0x0d, 0x20, 0x85, 0xa0, 0x1680, 0x2028, 0x2029, 0x202f,
    0x205f, 0x3000] ∨ (0x2000 ≤ v ∧ v ≤ 0x200a))

/-- Go `strings.TrimSpace`. -/
def TrimSpace (s : String) : String :=
  String.mk ((s.toList.dropWhile isSpace).reverse.dropWhile isSpace).reverse

/-- What `AuthMiddleware` answers. -/
inductive Outcome
  /-- Answer `http.Error(w, text, status)`. -/
  | httpError (text : String) (status : Nat)
  /-- The 403 JSON body for a banned user. -/
  | banned (reason : Option String) (banned_at : Option Time)
  /-- The next handler runs, with the user, the device, the ban flag and the admin flag in
  the request context. -/
  | next (userID deviceID : String) (banned admin : Bool)
  deriving DecidableEq, Repr

/-- Go `AuthMiddleware`, for a request whose `Authorization` header is `authz`; `validator` is
the `AccessValidator` the middleware was built with. -/
def AuthMiddleware (validator : Bytes → SessionInfo × Option Error) (authz : String) : Outcome :=
  if authz = "" ∨ ¬ ("Bearer ".toList.isPrefixOf authz.toList) then
    .httpError "missing token" 401
  else
    let token := TrimSpace (String.mk (authz.toList.drop 6))
    if token = "" then .httpError "missing token" 401
    else
      let hash := sha256.Sum256 (bytesOf token)
      let r := validator hash
      match r.2 with
      | some err =>
        if err = .ErrBanned then .banned r.1.BanReason r.1.BanAt
        else .httpError "invalid token" 401
      | none => .next r.1.UserID r.1.DeviceID r.1.Banned r.1.IsAdmin

end auth

/-! ## `internal/adminauth` -/

namespace adminauth

/-- Go `pgRepository.CreateSession` of `adminauth`: the row stores the unpadded standard
base64 of the token hash.  `raw` is the read of `crypto/rand`, `newID` the generated id. -/
def CreateSession (db : DB) (now : Time) (newID : UUID) (raw : Option Bytes) (userID : UUID)
    (ttl : Duration) : Except Error Session × DB :=
  match security.GenerateOpaqueToken raw with
  | .error err => (.error err, db)
  | .ok (token, hash) =>
    let hashStr := base64.RawStdEncoding hash
    let expires := now + ttl
    (.ok { ID := newID, UserID := userID, Token := token, State := "password_ok",
           TotpVerified := false, EmailCode := "", EmailExpires := none, ExpiresAt := expires },
     { db with admin_auth_sessions := db.admin_auth_sessions ++
        [{ id := newID, user_id := userID, session_token := hashStr, state := "password_ok",
           totp_verified := false, email_code := none, email_expires_at := none,
           expires_at := expires }] })

/-- Go `pgRepository.GetByToken` of `adminauth`. -/
def GetByToken (db : DB) (token : String) : Except Error Session :=
  let hashStr := base64.RawStdEncoding (sha256.Sum256 (bytesOf token))
  match db.admin_auth_sessions.find? (fun r => decide (r.session_token = hashStr)) with
  | none => .error .ErrNoRows
  | some r =>
    .ok { ID := r.id, UserID := r.user_id, Token := token, State := r.state,
          TotpVerified := r.totp_verified, EmailCode := r.email_code.getD "",
          EmailExpires := r.email_expires_at, ExpiresAt := r.expires_at }

/-- Go `pgRepository.MarkTotpVerified`. -/
def MarkTotpVerified (db : DB) (token : String) : DB :=
  let hashStr := base64.RawStdEncoding (sha256.Sum256 (bytesOf token))
  { db with admin_auth_sessions := db.admin_auth_sessions.map (fun r =>
      if r.session_token = hashStr then { r with totp_verified := true, state := "totp_ok" }
      else r) }

/-- Go `pgRepository.SetEmailCode`. -/
def SetEmailCode (db : DB) (token code : String) (expires : Time) : DB :=
  let hashStr := base64.RawStdEncoding (sha256.Sum256 (bytesOf token))
  { db with admin_auth_sessions := db.admin_auth_sessions.map (fun r =>
      if r.session_token = hashStr then
        { r with email_code := some code, email_expires_at := some expires }
      else r) }

/-- Go `pgRepository.DeleteSession` of `adminauth`. -/
def DeleteSession (db : DB) (token : String) : DB :=
  let hashStr := base64.RawStdEncoding (sha256.Sum256 (bytesOf token))
  { db with admin_auth_sessions :=
      db.admin_auth_sessions.filter (fun r => decide (r.session_token ≠ hashStr)) }

/-- Go `pgRepository.SetTOTPSecret`. -/
def SetTOTPSecret (db : DB) (userID : UUID) (secret : String) : DB :=
  { db with users := db.users.map (fun r =>
      if r.ID = userID then { r with AdminTOTPSecret := some secret } else r) }

/-- Go `adminauth.authTokens`. -/
structure authTokens where
  UserID : UUID
  DeviceID : UUID
  AccessToken : String
  RefreshToken : String
  deriving DecidableEq, Repr

/-- Go `adminauth.Service.Login`.  The admin service works on the state of the `auth.Service` it
holds (`authSvc`), whose database is also the one behind `authRepo` and `adminRepo`. -/
def Login (CheckPassword : Bytes → String → Bool) (s : auth.Service) (now : Time)
    (newID : UUID) (raw : Option Bytes)
    (email password deviceName platform userAgent ip : String) :
    Except Error String × auth.Service :=
  let s1 : auth.Service := { s with calls := s.calls ++ [.GetUserByEmail email] }
  match auth.GetUserByEmail s.repo email with
  | .error err => (.error err, s1)
  | .ok user =>
    if !user.IsAdmin then (.error .ErrNotAdmin, s1)
    else if user.BannedAt ≠ none then
      (.error .ErrBanned, s1.SetBanInfo user.BanReason user.BannedAt)
    else if !CheckPassword user.PasswordHash password then (.error .ErrInvalidCredentials, s1)
    else
      let r := CreateSession s1.repo now newID raw user.ID (15 * 60 * 1000000000)
      match r.1 with
      | .error err => (.error err, { s1 with repo := r.2 })
      | .ok session => (.ok session.Token, { s1 with repo := r.2 })

/-- Go `adminauth.Service.VerifyEmail`. -/
def VerifyEmail (s : auth.Service) (now : Time) (d : auth.Draws)
    (token code deviceName platform userAgent ip : String) :
    Except Error authTokens × auth.Service :=
  match GetByToken s.repo token with
  | .error err => (.error err, s)
  | .ok sess =>
    if sess.ExpiresAt < now then (.error .ErrSessionExpired, s)
    else if !sess.TotpVerified then (.error .ErrInvalidStep, s)
    else if decide (sess.EmailCode = "") ||
        (match sess.EmailExpires with
         | none => true
         | some e => decide (e < now)) then (.error .ErrAdminInvalidCode, s)
    else if sess.EmailCode ≠ code then (.error .ErrAdminInvalidCode, s)
    else
      let s1 : auth.Service := { s with calls := s.calls ++ [.GetUserByID sess.UserID] }
      match auth.GetUserByID s.repo sess.UserID with
      | .error err => (.error err, s1)
      | .ok user =>
        if user.BannedAt ≠ none then
          (.error .ErrBanned, s1.SetBanInfo user.BanReason user.BannedAt)
        else
          let r := s1.IssueSessionForUser now d user deviceName platform userAgent ip
          match r.1 with
          | .error err => (.error err, r.2)
          | .ok (uid, deviceID, access, refresh) =>
            (.ok ⟨uid, deviceID, access, refresh⟩,
             { r.2 with repo := DeleteSession r.2.repo token })

end adminauth

/-! ## Uniqueness of the stored token hashes

Tokens are fresh 256-bit random values, and the data model has at most one session row for a
given refresh hash.  The predicates below state this for a database; they are hypotheses of the
results on rotation. -/

namespace auth

/-- The refresh hashes a session row holds: the current one and, after a rotation, the
previous one. -/
def refreshHashes (s : Session) : List Bytes :=
  s.RefreshTokenHash :: s.LastRefreshTokenHash.toList

/-- The primary key of `sessions`: no two rows share an `id`. -/
abbrev IDsUnique (db : DB) : Prop := (db.sessions.map (fun s => s.ID)).Nodup

/-- No refresh hash, current or previous, occurs twice in `sessions`. -/
abbrev RefreshHashesUnique (db : DB) : Prop := (db.sessions.flatMap refreshHashes).Nodup

/-- The refresh hash `h` occurs nowhere in `sessions`. -/
abbrev RefreshHashFresh (db : DB) (h : Bytes) : Prop := h ∉ db.sessions.flatMap refreshHashes

/-- No access hash occurs twice in `sessions`. -/
abbrev AccessHashesUnique (db : DB) : Prop :=
  (db.sessions.map (fun s => s.AccessTokenHash)).Nodup

/-- The access hash `h` occurs nowhere in `sessions`. -/
abbrev AccessHashFresh (db : DB) (h : Bytes) : Prop :=
  h ∉ db.sessions.map (fun s => s.AccessTokenHash)

/-- The row a rotation writes in place of `x`. -/
def rotated (x : Session) (now : Time) (newAccessHash newRefreshHash : Bytes) (expiresAt : Time) :
    Session :=
  { x with LastRefreshTokenHash := some x.RefreshTokenHash,
           RefreshTokenHash := newRefreshHash,
           AccessTokenHash := newAccessHash,
           ExpiresAt := expiresAt,
           RotatedAt := some now }

/-- The row a revocation writes in place of `x`. -/
def revoked (x : Session) (now : Time) (reason : String) : Session :=
  { x with RevokedAt := some now, RevokedReason := reason }

end auth

deriving instance DecidableEq for Except

/-! ## Example data -/

namespace auth

/-- An example session row: live at instant 10, with refresh token `"R0"` and access token
`"A0"`. -/
def exSession : Session :=
  { ID := 1, UserID := 7, DeviceID := 3,
    RefreshTokenHash := sha256.Sum256 (bytesOf "R0"),
    LastRefreshTokenHash := none, ExpiresAt := 1000, RevokedAt := none, RevokedReason := "",
    AccessTokenHash := sha256.Sum256 (bytesOf "A0"), UserAgent := "ua", IP := "ip",
    RotatedAt := none }

/-- An example user row: active, not an administrator, not banned. -/
def exUser : UserRow :=
  { ID := 7, Email := "alice@x.test", PasswordHash := [1, 2, 3], IsActive := true,
    IsAdmin := false, BannedAt := none, BanReason := none, AdminTOTPSecret := none,
    CreatedAt := 0, is_deleted := false }

/-- An example service state: one user with one session. -/
def exService : Service :=
  { repo := { users := [exUser], verification_codes := [], devices := [],
              sessions := [exSession], admin_auth_sessions := [] },
    config := ⟨900, 3600, 900⟩, banReason := none, banAt := none, calls := [] }

/-- An example read of `crypto/rand`: thirty-two bytes, all equal to `n`. -/
def exRaw (n : Nat) : Option Bytes := some (List.replicate 32 n)

/-- The token minted from `exRaw n`. -/
def exToken (n : Nat) : String := base64.RawURLEncoding (List.replicate 32 n)

/-- The example state after `Refresh("R0")` at instant 10. -/
def exService1 : Service := (exService.Refresh 10 (exRaw 1) (exRaw 2) "R0" "ua" "ip").2

/-- The example state after a second rotation, `Refresh(exToken 2)` at instant 20. -/
def exService2 : Service := (exService1.Refresh 20 (exRaw 3) (exRaw 4) (exToken 2) "ua" "ip").2

/-- An example banned user: registered, not yet verified (inactive), banned at instant 5. -/
def exBannedUser : UserRow :=
  { ID := 8, Email := "bob@x.test", PasswordHash := [4, 5, 6], IsActive := false,
    IsAdmin := false, BannedAt := some 5, BanReason := some "spam", AdminTOTPSecret := none,
    CreatedAt := 0, is_deleted := false }

/-- An example banned administrator, active. -/
def exBannedAdmin : UserRow :=
  { ID := 9, Email := "root@x.test", PasswordHash := [7, 8, 9], IsActive := true,
    IsAdmin := true, BannedAt := some 6, BanReason := none, AdminTOTPSecret := some "K",
    CreatedAt := 0, is_deleted := false }

/-- A live session of the banned administrator, with refresh token `"RB"` and access token
`"AB"`. -/
def exBannedSession : Session :=
  { ID := 2, UserID := 9, DeviceID := 4,
    RefreshTokenHash := sha256.Sum256 (bytesOf "RB"),
    LastRefreshTokenHash := none, ExpiresAt := 1000, RevokedAt := none, RevokedReason := "",
    AccessTokenHash := sha256.Sum256 (bytesOf "AB"), UserAgent := "ua", IP := "ip",
    RotatedAt := none }

/-- An example state with the two banned users: an unconsumed verification code `"123456"` of
the first, a live session of the second and an admin-auth session (token `"S"`) of the second
that has passed TOTP and holds the e-mail code `"654321"`. -/
def exBannedService : Service :=
  { repo := { users := [exBannedUser, exBannedAdmin],
              verification_codes := [⟨5, 8, hashCode "123456", 500, none, 1⟩],
              devices := [],
              sessions := [exBannedSession],
              admin_auth_sessions :=
                [{ id := 6, user_id := 9,
                   session_token := base64.RawStdEncoding (sha256.Sum256 (bytesOf "S")),
                   state := "totp_ok", totp_verified := true, email_code := some "654321",
                   email_expires_at := some 600, expires_at := 900 }] },
    config := ⟨900, 3600, 900⟩, banReason := none, banAt := none, calls := [] }

/-- Example draws for one session issuance. -/
def exDraws : Draws := ⟨11, 12, exRaw 7, exRaw 8⟩

/-- An example password check: the password is `"pw"`. -/
def exCheckPassword (hash : Bytes) (password : String) : Bool := password == "pw"

end auth

/-! ## `internal/dialogs/repository.go` (`pgRepository`)

The tables `dialogs`, `dialog_members`, `messages`, `message_deliveries` and `message_reads`.
The `Members` query is the one statement given an outcome from outside the data: the argument
`membersErr` is the error it returns, if any. -/

namespace dialogs

/-- A row of `dialogs`. -/
structure DialogRow where
  id : UUID
  kind : String
  is_encrypted : Bool
  title : Option String
  created_at : Time
  updated_at : Time
  deriving DecidableEq, Repr

/-- A row of `dialog_members`. -/
structure MemberRow where
  dialog_id : UUID
  user_id : UUID
  role : String
  deriving DecidableEq, Repr

/-- A row of `messages`. -/
structure MessageRow where
  id : Int
  dialog_id : UUID
  sender_id : UUID
  cipher_text : Bytes
  created_at : Time
  deriving DecidableEq, Repr

/-- A row of `message_deliveries` (`stamp` is `delivered_at`) or of `message_reads` (`stamp` is
`read_at`); the primary key is `(message_id, user_id)`. -/
structure ReceiptRow where
  message_id : Int
  user_id : UUID
  stamp : Time
  deriving DecidableEq, Repr

/-- The dialog tables, and the last value of the sequence behind `messages.id`. -/
structure Store where
  dialogs : List DialogRow
  dialog_members : List MemberRow
  messages : List MessageRow
  message_seq : Int
  message_deliveries : List ReceiptRow
  message_reads : List ReceiptRow
  deriving DecidableEq, Repr

/-- The empty database. -/
def Store.empty : Store := ⟨[], [], [], 0, [], []⟩

/-- Go `dialogs.Message`. -/
structure Message where
  ID : Int
  SenderID : UUID
  DialogID : UUID
  Text : String
  CreatedAt : Time
  DeliveredToMe : Bool
  ReadByMe : Bool
  DeliveredPeer : Bool
  ReadPeer : Bool
  deriving DecidableEq, Repr

/-- The Go zero value `Message{}`. -/
def Message.zero : Message := ⟨0, 0, 0, "", 0, false, false, false, false⟩

/-- Go `pgRepository.CheckMember`. -/
def CheckMember (st : Store) (dialogID userID : UUID) : Bool :=
  st.dialog_members.any (fun m => decide (m.dialog_id = dialogID ∧ m.user_id = userID))

/-- Go `pgRepository.CreateDirect`: one transaction inserting the dialog row and the two member
rows.  `dialogID` is the value of `uuid.New()`. -/
def CreateDirect (st : Store) (now : Time) (dialogID : UUID) (initiator peer : UUID) :
    UUID × Store :=
  (dialogID,
   { st with
     dialogs := st.dialogs ++ [⟨dialogID, "direct", true, none, now, now⟩]
     dialog_members := st.dialog_members ++
       [⟨dialogID, initiator, "member"⟩, ⟨dialogID, peer, "member"⟩] })

/-- Go `pgRepository.GetOrCreateDirect`: the first direct dialog that has a member row for
`initiator` and one for `peer`, with `ErrDialogExist`; a new dialog when there is none. -/
def GetOrCreateDirect (st : Store) (now : Time) (newID : UUID) (initiator peer : UUID) :
    (UUID × Option Error) × Store :=
  match st.dialogs.find? (fun d =>
      decide (d.kind = "direct") && CheckMember st d.id initiator && CheckMember st d.id peer) with
  | some d => ((d.id, some .ErrDialogExist), st)
  | none =>
    let r := CreateDirect st now newID initiator peer
    ((r.1, none), r.2)

/-- Go `pgRepository.Members`; `membersErr` is the error of the query, if it fails. -/
def Members (st : Store) (membersErr : Option Error) (dialogID : UUID) :
    Except Error (List UUID) :=
  match membersErr with
  | some err => .error err
  | none =>
    .ok ((st.dialog_members.filter (fun m => decide (m.dialog_id = dialogID))).map
      (fun m => m.user_id))

/-- Go `pgRepository.SaveMessage`: the identifier is the next value of the sequence. -/
def SaveMessage (st : Store) (now : Time) (dialogID sender : UUID) (text : String) :
    (Int × Time) × Store :=
  ((st.message_seq + 1, now),
   { st with
     messages := st.messages ++ [⟨st.message_seq + 1, dialogID, sender, bytesOf text, now⟩]
     message_seq := st.message_seq + 1 })

/-- Modelled from the spec: the composite primary key `(message_id, user_id)` of the two
receipt tables, whose declarations are not part of the sources. -/
def receiptKey (r : ReceiptRow) : Int × UUID := (r.message_id, r.user_id)

/-- The statement `INSERT ... ON CONFLICT DO NOTHING` on a receipt table: a row whose key is
already in the table is not inserted. -/
def insertReceipt (rows : List ReceiptRow) (now : Time) (messageID : Int) (userID : UUID) :
    List ReceiptRow :=
  if rows.any (fun r => decide (receiptKey r = (messageID, userID))) then rows
  else rows ++ [⟨messageID, userID, now⟩]

/-- Go `pgRepository.MarkDelivered`. -/
def MarkDelivered (st : Store) (now : Time) (dialogID userID : UUID) (messageID : Int) : Store :=
  { st with message_deliveries := insertReceipt st.message_deliveries now messageID userID }

/-- Go `pgRepository.MarkRead`. -/
def MarkRead (st : Store) (now : Time) (dialogID userID : UUID) (messageID : Int) : Store :=
  { st with message_reads := insertReceipt st.message_reads now messageID userID }

end dialogs

/-! ## `internal/realtime/publisher.go` -/

namespace realtime

/-- Go `realtime.event`, before JSON encoding (`Type_` is the field `Type`); an omitted field
is `""`, `0` or `none`. -/
structure event where
  Type_ : String
  DialogID : String
  MessageID : Int
  SenderID : String
  Text : String
  CreatedAt : Option Time
  UserID : String
  deriving DecidableEq, Repr

/-- What has been published on Redis: the pairs (channel, payload), oldest first. -/
abbrev Bus := List (String × event)

/-- Go `channelForUser`. -/
def channelForUser (userID : UUID) : String := "user:" ++ auth.uuidString userID

/-- The loop of `PublishMessage`: the sender is skipped, the first failing `Publish` ends the
loop with its error.  `publishErr ch` is the error of `rdb.Publish` on channel `ch`, if any. -/
def publishToOthers (publishErr : String → Option Error) (payload : event) (sender : UUID) :
    List UUID → Bus → Option Error × Bus
  | [], bus => (none, bus)
  | m :: rest, bus =>
    if m = sender then publishToOthers publishErr payload sender rest bus
    else
      match publishErr (channelForUser m) with
      | some err => (some err, bus)
      | none => publishToOthers publishErr payload sender rest (bus ++ [(channelForUser m, payload)])

/-- The loop of `PublishDelivery` and `PublishRead`: every member is addressed. -/
def publishToAll (publishErr : String → Option Error) (payload : event) :
    List UUID → Bus → Option Error × Bus
  | [], bus => (none, bus)
  | m :: rest, bus =>
    match publishErr (channelForUser m) with
    | some err => (some err, bus)
    | none => publishToAll publishErr payload rest (bus ++ [(channelForUser m, payload)])

/-- Go `RedisPublisher.PublishMessage`. -/
def PublishMessage (publishErr : String → Option Error) (bus : Bus) (msg : dialogs.Message)
    (members : List UUID) : Option Error × Bus :=
  publishToOthers publishErr
    { Type_ := "message.new", DialogID := auth.uuidString msg.DialogID, MessageID := msg.ID,
      SenderID := auth.uuidString msg.SenderID, Text := msg.Text,
      CreatedAt := some msg.CreatedAt, UserID := "" }
    msg.SenderID members bus

/-- Go `RedisPublisher.PublishDelivery`. -/
def PublishDelivery (publishErr : String → Option Error) (bus : Bus) (dialogID userID : UUID)
    (messageID : Int) (members : List UUID) : Option Error × Bus :=
  publishToAll publishErr
    { Type_ := "message.delivered", DialogID := auth.uuidString dialogID,
      MessageID := messageID, SenderID := "", Text := "", CreatedAt := none,
      UserID := auth.uuidString userID }
    members bus

/-- Go `RedisPublisher.PublishRead`. -/
def PublishRead (publishErr : String → Option Error) (bus : Bus) (dialogID userID : UUID)
    (messageID : Int) (members : List UUID) : Option Error × Bus :=
  publishToAll publishErr
    { Type_ := "message.read", DialogID := auth.uuidString dialogID,
      MessageID := messageID, SenderID := "", Text := "", CreatedAt := none,
      UserID := auth.uuidString userID }
    members bus

end realtime

/-! ## `internal/dialogs/service.go` -/

namespace dialogs

/-- Go `dialogs.Service` with the state it works on: the database behind `repo`, the user
lookup, whether a publisher is set (`s.publisher != nil`, a `RedisPublisher`), and what has
been published so far. -/
structure Service where
  repo : Store
  userFetcher : String → Except Error auth.User
  publisher : Bool
  bus : realtime.Bus

/-- The peer of `CreateDirect`: the target parsed as an identifier, or else looked up as an
e-mail address.  `Parse` is `uuid.Parse`. -/
def resolvePeer (Parse : String → Option UUID) (userFetcher : String → Except Error auth.User)
    (targetEmailOrID : String) : Except Error UUID :=
  match Parse targetEmailOrID with
  | some id => .ok id
  | none =>
    match userFetcher targetEmailOrID with
    | .error err => .error err
    | .ok user => .ok user.ID

/-- Go `Service.CreateDirect`.  `newID` is the value `uuid.New()` takes if a dialog is
created. -/
def Service.CreateDirect (Parse : String → Option UUID) (s : Service) (now : Time) (newID : UUID)
    (currentUser : UUID) (targetEmailOrID : String) : Except Error UUID × Service :=
  match resolvePeer Parse s.userFetcher targetEmailOrID with
  | .error err => (.error err, s)
  | .ok peerID =>
    if peerID = 0 ∨ peerID = currentUser then (.error (.msg "invalid peer"), s)
    else
      let r := GetOrCreateDirect s.repo now newID currentUser peerID
      match r.1.snd with
      | some err =>
        if err = .ErrDialogExist then (.ok r.1.fst, { s with repo := r.2 })
        else (.error err, { s with repo := r.2 })
      | none => (.ok r.1.fst, { s with repo := r.2 })

/-- Go `Service.SendMessage`. -/
def Service.SendMessage (s : Service) (now : Time) (membersErr : Option Error)
    (publishErr : String → Option Error) (currentUser dialogID : UUID) (text : String) :
    Except Error Message × Service :=
  if !CheckMember s.repo dialogID currentUser then (.error .ErrForbidden, s)
  else
    let r := SaveMessage s.repo now dialogID currentUser text
    let msg : Message :=
      { ID := r.1.fst, DialogID := dialogID, SenderID := currentUser, Text := text,
        CreatedAt := r.1.snd, DeliveredToMe := false, ReadByMe := false,
        DeliveredPeer := false, ReadPeer := false }
    let s1 : Service := { s with repo := r.2 }
    if s.publisher then
      match Members s1.repo membersErr dialogID with
      | .ok members =>
        (.ok msg, { s1 with bus := (realtime.PublishMessage publishErr s1.bus msg members).2 })
      | .error _ => (.ok msg, s1)
    else (.ok msg, s1)

/-- Go `Service.MarkDelivered`. -/
def Service.MarkDelivered (s : Service) (now : Time) (membersErr : Option Error)
    (publishErr : String → Option Error) (currentUser dialogID : UUID) (messageID : Int) :
    Option Error × Service :=
  if !CheckMember s.repo dialogID currentUser then (some .ErrForbidden, s)
  else
    let s1 : Service := { s with repo := dialogs.MarkDelivered s.repo now dialogID currentUser messageID }
    if s.publisher then
      match Members s1.repo membersErr dialogID with
      | .ok members =>
        (none, { s1 with bus :=
          (realtime.PublishDelivery publishErr s1.bus dialogID currentUser messageID members).2 })
      | .error _ => (none, s1)
    else (none, s1)

/-- Go `Service.MarkRead`. -/
def Service.MarkRead (s : Service) (now : Time) (membersErr : Option Error)
    (publishErr : String → Option Error) (currentUser dialogID : UUID) (messageID : Int) :
    Option Error × Service :=
  if !CheckMember s.repo dialogID currentUser then (some .ErrForbidden, s)
  else
    let s1 : Service := { s with repo := dialogs.MarkRead s.repo now dialogID currentUser messageID }
    if s.publisher then
      match Members s1.repo membersErr dialogID with
      | .ok members =>
        (none, { s1 with bus :=
          (realtime.PublishRead publishErr s1.bus dialogID currentUser messageID members).2 })
      | .error _ => (none, s1)
    else (none, s1)

/-- The databases the service operations reach from the empty one.  An identifier drawn by
`uuid.New()` is one no dialog carries yet. -/
inductive Reachable : Store → Prop
  | empty : Reachable Store.empty
  | createDirect (Parse : String → Option UUID) (s : Service) (now : Time) (newID : UUID)
      (currentUser : UUID) (targetEmailOrID : String) :
      Reachable s.repo → (∀ d ∈ s.repo.dialogs, d.id ≠ newID) →
      Reachable (s.CreateDirect Parse now newID currentUser targetEmailOrID).2.repo
  | sendMessage (s : Service) (now : Time) (membersErr : Option Error)
      (publishErr : String → Option Error) (currentUser dialogID : UUID) (text : String) :
      Reachable s.repo →
      Reachable (s.SendMessage now membersErr publishErr currentUser dialogID text).2.repo
  | markDelivered (s : Service) (now : Time) (membersErr : Option Error)
      (publishErr : String → Option Error) (currentUser dialogID : UUID) (messageID : Int) :
      Reachable s.repo →
      Reachable (s.MarkDelivered now membersErr publishErr currentUser dialogID messageID).2.repo
  | markRead (s : Service) (now : Time) (membersErr : Option Error)
      (publishErr : String → Option Error) (currentUser dialogID : UUID) (messageID : Int) :
      Reachable s.repo →
      Reachable (s.MarkRead now membersErr publishErr currentUser dialogID messageID).2.repo

/-- One call `CreateDirect(current, target)` of a sequence, with the instant and the value of
`uuid.New()` it would use. -/
structure DirectCall where
  currentUser : UUID
  target : String
  now : Time
  newID : UUID

/-- The calls of a list, run one after the other: the results, and the final state. -/
def runDirect (Parse : String → Option UUID) :
    Service → List DirectCall → List (Except Error UUID) × Service
  | s, [] => ([], s)
  | s, c :: rest =>
    let r := s.CreateDirect Parse c.now c.newID c.currentUser c.target
    let rs := runDirect Parse r.2 rest
    (r.1 :: rs.1, rs.2)

end dialogs

/-! ## The direct-dialog invariant, and example data for dialogs -/

namespace dialogs

/-- The row `CreateDirect` inserts into `dialogs`. -/
def directRow (now : Time) (dialogID : UUID) : DialogRow :=
  ⟨dialogID, "direct", true, none, now, now⟩

/-- The lookup predicate of `GetOrCreateDirect`. -/
def isDirectOf (st : Store) (a b : UUID) (d : DialogRow) : Bool :=
  decide (d.kind = "direct") && CheckMember st d.id a && CheckMember st d.id b

/-- The invariant of the dialog tables: dialog identifiers are distinct, every member row
belongs to a dialog, every dialog is direct, and two distinct users share at most one
dialog. -/
structure DirectInvariant (st : Store) : Prop where
  ids : (st.dialogs.map (fun d => d.id)).Nodup
  owned : ∀ m ∈ st.dialog_members, ∃ d ∈ st.dialogs, d.id = m.dialog_id
  direct : ∀ d ∈ st.dialogs, d.kind = "direct"
  unique : ∀ d1 ∈ st.dialogs, ∀ d2 ∈ st.dialogs, ∀ a b : UUID, a ≠ b →
    CheckMember st d1.id a = true → CheckMember st d1.id b = true →
    CheckMember st d2.id a = true → CheckMember st d2.id b = true → d1 = d2

/-- The call `c` is `CreateDirect(A, B)` or `CreateDirect(B, A)`: its target resolves to the
other user. -/
def IsCallBetween (Parse : String → Option UUID) (userFetcher : String → Except Error auth.User)
    (A B : UUID) (c : DirectCall) : Prop :=
  (c.currentUser = A ∧ resolvePeer Parse userFetcher c.target = .ok B) ∨
  (c.currentUser = B ∧ resolvePeer Parse userFetcher c.target = .ok A)

/-- An example `uuid.Parse`, reading the targets `"1"` to `"4"`. -/
def exParse (t : String) : Option UUID :=
  if t = "1" then some 1 else if t = "2" then some 2 else if t = "3" then some 3
  else if t = "4" then some 4 else none

/-- An example service on the empty database, with no publisher and a user lookup that knows
nobody. -/
def exEmpty : Service :=
  { repo := Store.empty, userFetcher := fun _ => .error .ErrUserNotFound, publisher := false,
    bus := [] }

/-- The example state after users 3 and 4 have opened a dialog (identifier 50). -/
def exDialogs : Service := (exEmpty.CreateDirect exParse 1 50 3 "4").2

/-- Two further example calls between users 1 and 2, one in each order. -/
def exCalls : List DirectCall := [⟨2, "1", 20, 101⟩, ⟨1, "2", 30, 102⟩]

end dialogs

/-! ## `encoding/base32` and the rest of `internal/adminauth/service.go` -/

namespace base32

/-- Alphabet of `base32.StdEncoding`. -/
def encodeStd : List Char := "ABCDEFGHIJKLMNOPQRSTUVWXYZ234567".toList

/-- One output character: `enc.encode[b & 31]`. -/
def quintet (val : Nat) : Char := encodeStd.getD (val % 32) 'A'

/-- Body of `(*Encoding).Encode` with `padChar = NoPadding`: a full 5-byte group gives eight
characters, a remainder of four, three, two, one bytes gives seven, five, four, two. -/
def encodeRaw : Bytes → List Char
  | a :: b :: c :: d :: e :: rest =>
    let val := (a <<< 32) ||| (b <<< 24) ||| (c <<< 16) ||| (d <<< 8) ||| e
    quintet (val >>> 35) :: quintet (val >>> 30) :: quintet (val >>> 25) :: quintet (val >>> 20)
      :: quintet (val >>> 15) :: quintet (val >>> 10) :: quintet (val >>> 5) :: quintet val
      :: encodeRaw rest
  | [a, b, c, d] =>
    let val := (a <<< 32) ||| (b <<< 24) ||| (c <<< 16) ||| (d <<< 8)
    [quintet (val >>> 35), quintet (val >>> 30), quintet (val >>> 25), quintet (val >>> 20),
      quintet (val >>> 15), quintet (val >>> 10), quintet (val >>> 5)]
  | [a, b, c] =>
    let val := (a <<< 32) ||| (b <<< 24) ||| (c <<< 16)
    [quintet (val >>> 35), quintet (val >>> 30), quintet (val >>> 25), quintet (val >>> 20),
      quintet (val >>> 15)]
  | [a, b] =>
    let val := (a <<< 32) ||| (b <<< 24)
    [quintet (val >>> 35), quintet (val >>> 30), quintet (val >>> 25), quintet (val >>> 20)]
  | [a] =>
    let val := a <<< 32
    [quintet (val >>> 35), quintet (val >>> 30)]
  | [] => []

/-- Go `base32.StdEncoding.WithPadding(base32.NoPadding).EncodeToString`. -/
def NoPadding (src : Bytes) : String := String.mk (encodeRaw src)

end base32

namespace adminauth

/-- Go `fmt.Sprintf("%06d", n)` for a non-negative `n`. -/
def sprintf06d (n : Nat) : String :=
  let ds := Nat.toDigits 10 n
  String.mk (List.replicate (6 - ds.length) '0' ++ ds)

/-- Go `generateCode` of `adminauth`.  `raw` is the 3-byte buffer after `rand.Read` (whose
error the code ignores). -/
def generateCode (raw : Bytes) : String :=
  let sum := sha256.Sum256 raw
  let n := (sum.getD 0 0 <<< 16) ||| (sum.getD 1 0 <<< 8) ||| sum.getD 2 0
  sprintf06d (n % 1000000)

/-- Go `adminauth.Service.InitTOTP`.  `raw` is the read of the 10 secret bytes from
`crypto/rand` (`none` when the read fails). -/
def InitTOTP (s : auth.Service) (now : Time) (raw : Option Bytes) (token : String) :
    Except Error String × auth.Service :=
  match GetByToken s.repo token with
  | .error err => (.error err, s)
  | .ok sess =>
    if sess.ExpiresAt < now then (.error .ErrSessionExpired, s)
    else
      let s1 : auth.Service := { s with calls := s.calls ++ [.GetUserByID sess.UserID] }
      match auth.GetUserByID s.repo sess.UserID with
      | .error err => (.error err, s1)
      | .ok user =>
        if user.AdminTOTPSecret ≠ none ∧ user.AdminTOTPSecret ≠ some "" then
          (.ok (user.AdminTOTPSecret.getD ""), s1)
        else
          match raw with
          | none => (.error (.msg "crypto/rand"), s1)
          | some secretBytes =>
            let secret := base32.NoPadding secretBytes
            (.ok secret, { s1 with repo := SetTOTPSecret s1.repo user.ID secret })

/-- Go `adminauth.Service.VerifyTOTP`.  `Validate` is `totp.Validate` of the library
`github.com/pquerna/otp` at the instant of the call, `raw` the buffer that `generateCode` reads
from `crypto/rand`, and `mailer` the `SendAdminCode` of the configured mailer, if any: its error
is only logged. -/
def VerifyTOTP (Validate : String → String → Bool)
    (mailer : Option (String → String → Option Error)) (s : auth.Service) (now : Time)
    (raw : Bytes) (token code : String) : Except Error String × auth.Service :=
  match GetByToken s.repo token with
  | .error err => (.error err, s)
  | .ok sess =>
    if sess.ExpiresAt < now then (.error .ErrSessionExpired, s)
    else
      let s1 : auth.Service := { s with calls := s.calls ++ [.GetUserByID sess.UserID] }
      match auth.GetUserByID s.repo sess.UserID with
      | .error err => (.error err, s1)
      | .ok user =>
        if user.AdminTOTPSecret = none ∨ user.AdminTOTPSecret = some "" then
          (.error .ErrInvalidStep, s1)
        else if !Validate code (user.AdminTOTPSecret.getD "") then
          (.error .ErrAdminInvalidCode, s1)
        else
          let db1 := MarkTotpVerified s1.repo token
          let emailCode := generateCode raw
          let exp := now + 10 * 60 * 1000000000
          let db2 := SetEmailCode db1 token emailCode exp
          let logged : Option Error :=
            match mailer with
            | some SendAdminCode => SendAdminCode user.Email emailCode
            | none => none
          (.ok "email_code_sent", { s1 with repo := db2 })

/-- Go `adminauth.Service.Logout`. -/
def Logout (s : auth.Service) (now : Time) (refresh : String) : Option Error × auth.Service :=
  s.Logout now refresh

end adminauth

/-! ## `ListMessages` (`internal/dialogs/repository.go`, `internal/dialogs/service.go`) -/

namespace dialogs

/-- One step of the UTF-8 decoder: the characters read so far (newest first), the code point
being assembled and the number of continuation bytes it still lacks. -/
def utf8Step (acc : List Char × Nat × Nat) (b : Nat) : List Char × Nat × Nat :=
  match acc with
  | (out, cp, need) =>
    if need = 0 then
      if b < 0x80 then (Char.ofNat b :: out, 0, 0)
      else if b < 0xe0 then (out, b &&& 0x1f, 1)
      else if b < 0xf0 then (out, b &&& 0x0f, 2)
      else (out, b &&& 0x07, 3)
    else
      let cp1 := (cp <<< 6) ||| (b &&& 0x3f)
      if need = 1 then (Char.ofNat cp1 :: out, 0, 0) else (out, cp1, need - 1)

/-- PostgreSQL `convert_from(cipher_text, 'UTF8')` on the bytes `SaveMessage` stores, which are
the UTF-8 encoding of a string. -/
def convertFromUTF8 (b : Bytes) : String :=
  String.mk (b.foldl utf8Step ([], 0, 0)).1.reverse

/-- Go `pgRepository.ListMessages`: the `limit` newest messages of the dialog below `before`,
newest first, each with the receipt flags of the caller and of the first other member (of the
caller again when the dialog has no other member). -/
def ListMessages (st : Store) (dialogID userID : UUID) (limit : Int) (before : Int) :
    List Message :=
  let limit := if limit ≤ 0 ∨ limit > 100 then 50 else limit
  let other_member := (st.dialog_members.find? (fun m =>
    decide (m.dialog_id = dialogID ∧ m.user_id ≠ userID))).map (fun m => m.user_id)
  let peer := other_member.getD userID
  let filtered := ((st.messages.filter (fun m =>
    decide (m.dialog_id = dialogID ∧ (before = 0 ∨ m.id < before)))).insertionSort
      (fun a b => b.id ≤ a.id)).take limit.toNat
  (filtered.insertionSort (fun a b => b.id ≤ a.id)).map (fun m =>
    { ID := m.id, SenderID := m.sender_id, DialogID := m.dialog_id,
      Text := convertFromUTF8 m.cipher_text, CreatedAt := m.created_at,
      DeliveredToMe := st.message_deliveries.any (fun d =>
        decide (d.message_id = m.id ∧ d.user_id = userID)),
      ReadByMe := st.message_reads.any (fun r =>
        decide (r.message_id = m.id ∧ r.user_id = userID)),
      DeliveredPeer := st.message_deliveries.any (fun d =>
        decide (d.message_id = m.id ∧ d.user_id = peer)),
      ReadPeer := st.message_reads.any (fun r =>
        decide (r.message_id = m.id ∧ r.user_id = peer)) })

/-- Go `Service.ListMessages`. -/
def Service.ListMessages (s : Service) (currentUser dialogID : UUID) (limit : Int)
    (before : Int) : Except Error (List Message) × Service :=
  if !CheckMember s.repo dialogID currentUser then (.error .ErrForbidden, s)
  else (.ok (dialogs.ListMessages s.repo dialogID currentUser limit before), s)

/-- No publish call fails. -/
def noFault : String → Option Error := fun _ => none

/-- The example state with a publisher: users 3 and 4 share dialog 50. -/
def exChat : Service := { exDialogs with publisher := true }

/-- The example state after users 1 and 2 have opened dialog 60 as well, and user 3 has sent
the message `"hi"` (identifier 1) in dialog 50. -/
def exTwoDialogs : Service :=
  ((exChat.CreateDirect exParse 2 60 1 "2").2.SendMessage 3 none noFault 3 50 "hi").2

end dialogs

namespace dialogs

/-- The receipt invariant: the user of every receipt, in the delivery set or the read set, is a
member of the dialog that contains the message of the receipt. -/
def ReceiptsOfMembers (st : Store) : Prop :=
  ∀ r ∈ st.message_deliveries ++ st.message_reads, ∀ msg ∈ st.messages,
    msg.id = r.message_id → CheckMember st msg.dialog_id r.user_id = true

end dialogs

/-! ## Example data for the admin flow -/

namespace adminauth

/-- An example administrator: active, not banned, with no TOTP secret yet. -/
def exAdmin : auth.UserRow :=
  { ID := 5, Email := "carol@x.test", PasswordHash := [1, 1, 1], IsActive := true,
    IsAdmin := true, BannedAt := none, BanReason := none, AdminTOTPSecret := none,
    CreatedAt := 0, is_deleted := false }

/-- An example state with the administrator alone. -/
def exAdminStart : auth.Service :=
  { repo := { users := [exAdmin], verification_codes := [], devices := [], sessions := [],
              admin_auth_sessions := [] },
    config := ⟨900, 3600, 900⟩, banReason := none, banAt := none, calls := [] }

/-- The example state after the administrator's `Login` at instant 100: an admin-auth session
with token `auth.exToken 5`, open for fifteen minutes. -/
def exAdminLoggedIn : auth.Service :=
  (Login auth.exCheckPassword exAdminStart 100 21 (auth.exRaw 5) "carol@x.test" "pw"
    "" "" "ua" "ip").2

/-- An example `totp.Validate`: the code of the instant is `"111111"`. -/
def exValidate (code secret : String) : Bool := code == "111111"

/-- The example state after `InitTOTP` at instant 200. -/
def exAdminWithSecret : auth.Service :=
  (InitTOTP exAdminLoggedIn 200 (some [1, 2, 3, 4, 5, 6, 7, 8, 9, 10]) (auth.exToken 5)).2

/-- The example state after `VerifyTOTP` with the right code at instant 300. -/
def exAdminTotpOk : auth.Service :=
  (VerifyTOTP exValidate none exAdminWithSecret 300 [1, 2, 3] (auth.exToken 5) "111111").2

/-- An instant after the end of the example admin-auth session. -/
def exLate : Time := 100 + 15 * 60 * 1000000000 + 1

end adminauth

namespace auth

/-- A second session of the example user, logged out at instant 4, with refresh token
`"R1"`. -/
def exRevokedSession : Session :=
  { ID := 3, UserID := 7, DeviceID := 5,
    RefreshTokenHash := sha256.Sum256 (bytesOf "R1"),
    LastRefreshTokenHash := none, ExpiresAt := 1000, RevokedAt := some 4,
    RevokedReason := "logout",
    AccessTokenHash := sha256.Sum256 (bytesOf "A1"), UserAgent := "ua", IP := "ip",
    RotatedAt := none }

/-- A third session of the example user, live, rotated once: the current refresh token is
`"R2"`, the previous one `"R2old"`. -/
def exRotatedSession : Session :=
  { ID := 4, UserID := 7, DeviceID := 6,
    RefreshTokenHash := sha256.Sum256 (bytesOf "R2"),
    LastRefreshTokenHash := some (sha256.Sum256 (bytesOf "R2old")), ExpiresAt := 1000,
    RevokedAt := none, RevokedReason := "",
    AccessTokenHash := sha256.Sum256 (bytesOf "A2"), UserAgent := "ua", IP := "ip",
    RotatedAt := some 2 }

/-- An example state with three sessions of user 7 and one of user 9. -/
def exManySessions : Service :=
  { repo := { users := [exUser, exBannedAdmin], verification_codes := [], devices := [],
              sessions := [exSession, exRevokedSession, exBannedSession, exRotatedSession],
              admin_auth_sessions := [] },
    config := ⟨900, 3600, 900⟩, banReason := none, banAt := none, calls := [] }

end auth

/-! ## `Service.Register` (`internal/auth/service.go`), and `Refresh` in its two store accesses -/

set_option linter.dupNamespace false in
/-- Go `error.Error()`: the message of an error value. -/
def Error.Error : Error → String
  | .ErrInvalidCredentials => "invalid credentials"
  | .ErrInactive => "account not verified"
  | .ErrRefreshReuse => "refresh token reused and session revoked"
  | .ErrSessionRevoked => "session revoked"
  | .ErrBanned => "banned"
  | .ErrUserExists => "user already exists"
  | .ErrUserNotFound => "user not found"
  | .ErrInvalidCode => "invalid verification code"
  | .ErrSessionNotFound => "session not found"
  | .ErrNotAdmin => "not_admin"
  | .ErrInvalidStep => "invalid_step"
  | .ErrAdminInvalidCode => "invalid_code"
  | .ErrSessionExpired => "session_expired"
  | .ErrNoRows => "no rows in result set"
  | .ErrForbidden => "forbidden"
  | .ErrNotMember => "not a dialog member"
  | .ErrDialogExist => "dialog already exists"
  | .ErrDialogNotFound => "dialog not found"
  | .msg text => text

/-- Go `fmt.Errorf(what + ": %w", err)`. -/
def Errorf (what : String) (err : Error) : Error := .msg (what ++ ": " ++ err.Error)

namespace auth

/-- Go `generateCode` of `auth`: six decimal digits from three random bytes, and their hash.
`raw` is the read of `crypto/rand` (`none` when it fails). -/
def generateCode (raw : Option Bytes) : Except Error (String × Bytes) :=
  match raw with
  | none => .error (.msg "crypto/rand")
  | some b =>
    let code := (b.getD 0 0 <<< 16) ||| (b.getD 1 0 <<< 8) ||| b.getD 2 0
    let codeStr := adminauth.sprintf06d (code % 1000000)
    .ok (codeStr, hashCode codeStr)

/-- Go `Service.Register`.  `HashPassword` is `security.HashPassword` (bcrypt),
`SendVerification` the method of the `CodeSender` the service was built with, `newID` and
`codeID` the identifiers the database generates for the user row and the code row, `raw` the
read of `crypto/rand` in `generateCode`.  The identifier returned with an error is
`uuid.Nil`. -/
def Service.Register (HashPassword : String → Except Error Bytes)
    (SendVerification : String → String → Option Error) (s : Service) (now : Time)
    (newID codeID : UUID) (raw : Option Bytes) (email password : String) :
    Except Error UUID × Service :=
  match HashPassword password with
  | .error err => (.error (Errorf "hash password" err), s)
  | .ok passHash =>
    let r := CreateUser s.repo now newID email passHash
    let s1 : Service := { s with repo := r.2, calls := s.calls ++ [.CreateUser email passHash] }
    match r.1 with
    | .error err => (.error err, s1)
    | .ok user =>
      match generateCode raw with
      | .error err => (.error (Errorf "code generate" err), s1)
      | .ok (code, codeHash) =>
        let expiresAt := now + s.config.VerificationCodeTTL
        let s2 : Service := { s1 with
          repo := SaveVerificationCode s1.repo now codeID user.ID codeHash expiresAt
          calls := s1.calls ++ [.SaveVerificationCode user.ID codeHash expiresAt] }
        match SendVerification email code with
        | some err => (.error (Errorf "send code" err), s2)
        | none => (.ok user.ID, s2)

/-- What a `Refresh` has in hand between its lookup and its write: the session it looked up,
the new tokens with their hashes, and the new expiry. -/
structure Rotation where
  sessionID : UUID
  newAccess : String
  newAccessHash : Bytes
  newRefresh : String
  newRefreshHash : Bytes
  expiresAt : Time
  deriving DecidableEq, Repr

/-- Go `Service.Refresh` up to its last store call (lines 119 to 143): the lookup, the checks
and the two new tokens.  An error ends the call; otherwise the write is still to come. -/
def Service.RefreshLookup (s : Service) (now : Time) (rawAccess rawRefresh : Option Bytes)
    (refreshToken userAgent ip : String) : Except Error Rotation × Service :=
  let refreshHash := sha256.Sum256 (bytesOf refreshToken)
  let s1 : Service := { s with calls := s.calls ++ [.GetSessionByRefresh refreshHash] }
  match GetSessionByRefresh s.repo refreshHash with
  | .error err => (.error err, s1)
  | .ok (session, matchedPrev) =>
    if session.RevokedAt ≠ none then (.error .ErrSessionRevoked, s1)
    else if matchedPrev then
      (.error .ErrRefreshReuse,
       { s1 with
         repo := RevokeSession s1.repo now session.ID "refresh_reuse"
         calls := s1.calls ++ [.RevokeSession session.ID "refresh_reuse"] })
    else if session.ExpiresAt < now then (.error (.msg "refresh expired"), s1)
    else
      match security.GenerateOpaqueToken rawAccess with
      | .error err => (.error err, s1)
      | .ok (newAccess, newAccessHash) =>
        match security.GenerateOpaqueToken rawRefresh with
        | .error err => (.error err, s1)
        | .ok (newRefresh, newRefreshHash) =>
          (.ok ⟨session.ID, newAccess, newAccessHash, newRefresh, newRefreshHash,
             now + s.config.RefreshTokenTTL⟩, s1)

/-- The last store call of `Service.Refresh` (lines 144 to 147): `UpdateSessionTokens` on the
session looked up before, at the instant `now` of the write, and the return of the tokens. -/
def Service.RefreshWrite (s : Service) (now : Time) (p : Rotation) :
    Except Error (String × String) × Service :=
  (.ok (p.newAccess, p.newRefresh),
   { s with
     repo := UpdateSessionTokens s.repo now p.sessionID p.newAccessHash p.newRefreshHash
       p.expiresAt
     calls := s.calls ++ [.UpdateSessionTokens p.sessionID p.newAccessHash p.newRefreshHash
       p.expiresAt] })

/-- An example `security.HashPassword`: the bytes of the password. -/
def exHashPassword (password : String) : Except Error Bytes := .ok (bytesOf password)

/-- An example code sender whose mail backend is down. -/
def exSenderDown (toEmail code : String) : Option Error := some (.msg "smtp: connection refused")

/-- An example code sender that delivers. -/
def exSenderUp (toEmail code : String) : Option Error := none

/-- The example state after `Register("dave@x.test", "pw")` at instant 100 with the mail
backend down: the three random bytes give the code `"066051"`. -/
def exRegistered : Service :=
  (exService.Register exHashPassword exSenderDown 100 30 31 (some [1, 2, 3]) "dave@x.test"
    "pw").2

end auth

namespace dialogs

/-- The example state after user 3 has sent 51 messages in dialog 50, at the instants 10 to
60. -/
def exLongChat : Service :=
  (List.range 51).foldl (fun s i => (s.SendMessage (10 + i) none noFault 3 50 "m").2) exChat

end dialogs

/-! ## `internal/realtime/gateway_proxy.go` and `internal/realtime/hub.go` -/

namespace strings

/-- Go `strings.HasPrefix`. -/
def HasPrefix (s p : String) : Bool := p.toList.isPrefixOf s.toList

/-- Go `strings.TrimPrefix`. -/
def TrimPrefix (s p : String) : String :=
  if HasPrefix s p then String.mk (s.toList.drop p.toList.length) else s

end strings

namespace realtime

/-- An upgrade request as the two handlers read it: `r.Header.Get("Authorization")` and
`r.URL.Query().Get("token")`, each `""` when absent. -/
structure Request where
  Authorization : String
  token : String
  deriving DecidableEq, Repr

/-- What `GatewayWSProxy.Handle` does with a request. -/
inductive ProxyOutcome
  /-- Answer `http.Error(w, text, status)`. -/
  | httpError (text : String) (status : Nat)
  /-- The call `proxy.ServeHTTP(w, r)`: the request, with its header as the handler left it,
  goes to the hub. -/
  | proxied (r : Request)
  deriving DecidableEq, Repr

/-- The token `GatewayWSProxy.Handle` hands to the validator (lines 30 to 38), if it
validates one: a query token is first promoted into an absent `Authorization` header. -/
def GatewayWSProxy.token (r : Request) : Option String :=
  let authz := r.Authorization
  let r1 : Request :=
    if authz = "" ∧ r.token ≠ "" then { r with Authorization := "Bearer " ++ r.token } else r
  let hdr := r1.Authorization
  if strings.HasPrefix hdr "Bearer " then
    some (auth.TrimSpace (strings.TrimPrefix hdr "Bearer"))
  else none

/-- Go `GatewayWSProxy.Handle`; `validator` is the `auth.AccessValidator` of the proxy. -/
def GatewayWSProxy.Handle (validator : Bytes → auth.SessionInfo × Option Error) (r : Request) :
    ProxyOutcome :=
  let authz := r.Authorization
  let r1 : Request :=
    if authz = "" ∧ r.token ≠ "" then { r with Authorization := "Bearer " ++ r.token } else r
  let hdr := r1.Authorization
  if strings.HasPrefix hdr "Bearer " then
    let token := auth.TrimSpace (strings.TrimPrefix hdr "Bearer")
    let sum := sha256.Sum256 (bytesOf token)
    match (validator sum).2 with
    | some err =>
      if err = .ErrBanned then .httpError "\x7b\"error\":\"banned\"\x7d" 403
      else .httpError "unauthorized" 401
    | none => .proxied r1
  else .proxied r1

/-- The state of Go `realtime.Hub`: the map `conns` from user to connection (a connection is
named by a number), the connections the hub has closed, the frames written with
`conn.WriteMessage` (connection, message type, data; oldest first), and the users of the
running `subscribeUser` goroutines. -/
structure Hub where
  conns : String → Option Nat
  closed : List Nat
  written : List (Nat × Nat × Bytes)
  subscribers : List String

/-- Go `NewHub`. -/
def NewHub : Hub := ⟨fun _ => none, [], [], []⟩

/-- Go `websocket.TextMessage`. -/
def TextMessage : Nat := 1

/-- Go `userChannel`. -/
def userChannel (userID : String) : String := "user:" ++ userID

/-- Go `Hub.storeConn`. -/
def Hub.storeConn (h : Hub) (userID : String) (conn : Nat) : Hub :=
  { h with
    closed := match h.conns userID with
      | some old => h.closed ++ [old]
      | none => h.closed
    conns := fun k => if k = userID then some conn else h.conns k }

/-- Go `Hub.removeConn`. -/
def Hub.removeConn (h : Hub) (userID : String) : Hub :=
  { h with conns := fun k => if k = userID then none else h.conns k }

/-- Go `Hub.sendTo`.  The error of `WriteMessage` is dropped; a write on a connection the hub
has closed fails and writes no frame. -/
def Hub.sendTo (h : Hub) (userID : String) (payload : Bytes) : Hub :=
  match h.conns userID with
  | none => h
  | some conn =>
    if conn ∈ h.closed then h
    else { h with written := h.written ++ [(conn, TextMessage, payload)] }

/-- One turn of the loop of Go `Hub.subscribeUser`, run by a subscriber of `userID`: a
payload received on the channel goes to `sendTo`. -/
def Hub.subscribeUser (h : Hub) (userID : String) (payload : Bytes) : Hub :=
  h.sendTo userID payload

/-- A payload published on a channel: every running subscriber of the channel receives it
and forwards it. -/
def Hub.publish (h : Hub) (channel : String) (payload : Bytes) : Hub :=
  h.subscribers.foldl
    (fun h u => if userChannel u = channel then h.subscribeUser u payload else h) h

/-- What `Hub.HandleWS` answers. -/
inductive WSOutcome
  /-- Answer `http.Error(w, text, status)`. -/
  | httpError (text : String) (status : Nat)
  /-- Status 403 with the JSON body that has the single field `error` with value `banned`. -/
  | banned
  /-- The upgrade failed. -/
  | upgradeFailed
  /-- The connection is upgraded and stored for the user. -/
  | upgraded (userID : String) (conn : Nat)
  deriving DecidableEq, Repr

/-- The token `Hub.HandleWS` hands to the validator (lines 43 to 54), if any: `none` is the
answer 401 for a missing token. -/
def Hub.token (r : Request) : Option String :=
  let authz := r.Authorization
  let token := if strings.HasPrefix authz "Bearer " then
      auth.TrimSpace (strings.TrimPrefix authz "Bearer")
    else ""
  let token := if token = "" then r.token else token
  if token = "" then none else some token

/-- Go `Hub.HandleWS` up to its read loop (lines 43 to 75).  `conn` is the connection
`h.upgrader.Upgrade` returns (`none` when the upgrade fails). -/
def Hub.HandleWS (validator : Bytes → auth.SessionInfo × Option Error) (h : Hub) (r : Request)
    (conn : Option Nat) : WSOutcome × Hub :=
  let authz := r.Authorization
  let token := if strings.HasPrefix authz "Bearer " then
      auth.TrimSpace (strings.TrimPrefix authz "Bearer")
    else ""
  let token := if token = "" then r.token else token
  if token = "" then (.httpError "unauthorized" 401, h)
  else
    let hash := sha256.Sum256 (bytesOf token)
    let session := validator hash
    match session.2 with
    | some err =>
      if err = .ErrBanned then (.banned, h) else (.httpError "unauthorized" 401, h)
    | none =>
      match conn with
      | none => (.upgradeFailed, h)
      | some c =>
        let userID := session.1.UserID
        let h1 := h.storeConn userID c
        (.upgraded userID c, { h1 with subscribers := h1.subscribers ++ [userID] })

/-- The end of Go `Hub.HandleWS` (line 89), reached when the read loop of the handler that
serves `userID` has ended. -/
def Hub.HandleWS_exit (h : Hub) (userID : String) : Hub := h.removeConn userID

/-- The validator of `hub_test.go`: every token is the one of the given user. -/
def stubValidator (userID : String) (hash : Bytes) : auth.SessionInfo × Option Error :=
  ({ auth.SessionInfo.zero with UserID := userID, DeviceID := "d" }, none)

/-- The example hub after user `"u"` has upgraded once, with connection 1. -/
def exHub1 : Hub := (NewHub.HandleWS (stubValidator "u") ⟨"Bearer abc", ""⟩ (some 1)).2

/-- The example hub after user `"u"` has upgraded a second time, with connection 2. -/
def exHub2 : Hub := (exHub1.HandleWS (stubValidator "u") ⟨"Bearer abc", ""⟩ (some 2)).2

/-- The example hub after the read loop of the first connection, closed by the second
upgrade, has ended. -/
def exHub3 : Hub := exHub2.HandleWS_exit "u"

end realtime

namespace dialogs

/-- The dialogs of a database all have exactly two members, two distinct users. -/
def TwoMembers (st : Store) : Prop :=
  ∀ d ∈ st.dialogs, ∃ a b : UUID, a ≠ b ∧ Members st none d.id = .ok [a, b]

end dialogs

namespace realtime

/-- The example hub after user `"u"` has upgraded with connection 1, the read loop of that
handler has ended (the client went away), and the user has upgraded again, with
connection 2. -/
def exHub4 : Hub :=
  ((exHub1.HandleWS_exit "u").HandleWS (stubValidator "u") ⟨"Bearer abc", ""⟩ (some 2)).2

end realtime

/-! # Theorems -/

/-! ## The models of SHA-256 and base64 on published test vectors -/

set_option maxRecDepth 100000 in
/-- The model of SHA-256 on the FIPS 180-4 test vector `"abc"`. -/
theorem sha256.Sum256_abc :
    sha256.Sum256 (bytesOf "abc") =
      [0xba, 0x78, 0x16, 0xbf, 0x8f, 0x01, 0xcf, 0xea, 0x41, 0x41, 0x40, 0xde, 0x5d, 0xae, 0x22,
       0x23, 0xb0, 0x03, 0x61, 0xa3, 0x96, 0x17, 0x7a, 0x9c, 0xb4, 0x10, 0xff, 0x61, 0xf2, 0x00,
       0x15, 0xad] := by
  decide

set_option maxRecDepth 100000 in
/-- The model of SHA-256 on the two-block FIPS 180-4 test vector. -/
theorem sha256.Sum256_two_blocks :
    sha256.Sum256 (bytesOf "abcdbcdecdefdefgefghfghighijhijkijkljklmklmnlmnomnopnopq") =
      [0x24, 0x8d, 0x6a, 0x61, 0xd2, 0x06, 0x38, 0xb8, 0xe5, 0xc0, 0x26, 0x93, 0x0c, 0x3e, 0x60,
       0x39, 0xa3, 0x3c, 0xe4, 0x59, 0x64, 0xff, 0x21, 0x67, 0xf6, 0xec, 0xed, 0xd4, 0x19, 0xdb,
       0x06, 0xc1] := by
  decide

/-- The model of the base64 encoders on the RFC 4648 test vectors, without padding. -/
theorem base64.encode_examples :
    base64.RawStdEncoding (bytesOf "foobar") = "Zm9vYmFy" ∧
    base64.RawStdEncoding (bytesOf "fooba") = "Zm9vYmE" ∧
    base64.RawStdEncoding (bytesOf "foob") = "Zm9vYg" ∧
    base64.RawURLEncoding [0xfb, 0xff, 0xfe] = "-__-" := by
  decide

/-! ## The token mint (C5) -/

theorem base64.encodeRaw_length (al : List Char) (src : Bytes) :
    (base64.encodeRaw al src).length = src.length / 3 * 4 + (src.length % 3 * 8 + 5) / 6 := by
  induction src using base64.encodeRaw.induct al with
  | case1 a b c rest ih =>
    simp only [base64.encodeRaw, List.length_cons, ih]
    omega
  | case2 a b => simp [base64.encodeRaw]
  | case3 a => simp [base64.encodeRaw]
  | case4 => simp [base64.encodeRaw]

theorem base64.sextet_mem (al : List Char) (hal : al.length = 64) (v : Nat) :
    base64.sextet al v ∈ al := by
  unfold base64.sextet
  have h : v % 64 < al.length := by omega
  rw [List.getD_eq_getElem _ _ h]
  exact List.getElem_mem _

theorem base64.encodeRaw_mem (al : List Char) (hal : al.length = 64) (src : Bytes) :
    ∀ c ∈ base64.encodeRaw al src, c ∈ al := by
  induction src using base64.encodeRaw.induct al with
  | case1 a b c rest ih =>
    intro x hx
    simp only [base64.encodeRaw, List.mem_cons] at hx
    rcases hx with h | h | h | h | h
    · exact h ▸ base64.sextet_mem al hal _
    · exact h ▸ base64.sextet_mem al hal _
    · exact h ▸ base64.sextet_mem al hal _
    · exact h ▸ base64.sextet_mem al hal _
    · exact ih x h
  | case2 a b =>
    intro x hx
    simp only [base64.encodeRaw, List.mem_cons, List.mem_singleton, List.not_mem_nil, or_false] at hx
    rcases hx with h | h | h
    · exact h ▸ base64.sextet_mem al hal _
    · exact h ▸ base64.sextet_mem al hal _
    · exact h ▸ base64.sextet_mem al hal _
  | case3 a =>
    intro x hx
    simp only [base64.encodeRaw, List.mem_cons, List.mem_singleton, List.not_mem_nil, or_false] at hx
    rcases hx with h | h
    · exact h ▸ base64.sextet_mem al hal _
    · exact h ▸ base64.sextet_mem al hal _
  | case4 => intro x hx; simp [base64.encodeRaw] at hx

theorem base64.encodeURL_chars : ∀ c ∈ base64.encodeURL, c.isAlphanum = true ∨ c = '-' ∨ c = '_' := by
  decide

theorem sha256.Sum256_length (data : Bytes) : (sha256.Sum256 data).length = 32 := by
  simp [sha256.Sum256, sha256.wordBytes]

theorem base64.encodeURL_not_space : ∀ c ∈ base64.encodeURL, auth.isSpace c = false := by
  decide

theorem auth.dropWhile_isSpace_id (cs : List Char) (h : ∀ c ∈ cs, auth.isSpace c = false) :
    cs.dropWhile auth.isSpace = cs := by
  cases cs with
  | nil => rfl
  | cons c rest => simp [List.dropWhile, h c (List.mem_cons_self _ _)]

theorem auth.TrimSpace_bearer_rest (cs : List Char) (h : ∀ c ∈ cs, auth.isSpace c = false) :
    auth.TrimSpace (String.mk (' ' :: cs)) = String.mk cs := by
  have h1 : (' ' :: cs).dropWhile auth.isSpace = cs := by
    rw [List.dropWhile_cons]
    simp only [show auth.isSpace ' ' = true by decide, if_true]
    exact auth.dropWhile_isSpace_id cs h
  have h2 : cs.reverse.dropWhile auth.isSpace = cs.reverse :=
    auth.dropWhile_isSpace_id _ (fun c hc => h c (List.mem_reverse.mp hc))
  simp [auth.TrimSpace, h1, h2]

theorem auth.AuthMiddleware_bearer (validator : Bytes → auth.SessionInfo × Option Error)
    (cs : List Char) (hne : cs ≠ []) (h : ∀ c ∈ cs, auth.isSpace c = false) :
    auth.AuthMiddleware validator ("Bearer " ++ String.mk cs) =
      match (validator (sha256.Sum256 (bytesOf (String.mk cs)))).2 with
      | some err =>
        if err = .ErrBanned then
          .banned (validator (sha256.Sum256 (bytesOf (String.mk cs)))).1.BanReason
            (validator (sha256.Sum256 (bytesOf (String.mk cs)))).1.BanAt
        else .httpError "invalid token" 401
      | none =>
        .next (validator (sha256.Sum256 (bytesOf (String.mk cs)))).1.UserID
          (validator (sha256.Sum256 (bytesOf (String.mk cs)))).1.DeviceID
          (validator (sha256.Sum256 (bytesOf (String.mk cs)))).1.Banned
          (validator (sha256.Sum256 (bytesOf (String.mk cs)))).1.IsAdmin := by
  have hl : ("Bearer " ++ String.mk cs).toList = 'B' :: 'e' :: 'a' :: 'r' :: 'e' :: 'r' :: ' ' :: cs := by
    simp [String.toList, String.data_append]
  have hne1 : ("Bearer " ++ String.mk cs) ≠ "" := by
    intro h0
    have := congrArg String.toList h0
    rw [hl] at this
    simp at this
  have hne2 : String.mk cs ≠ "" := by
    intro h0
    have := congrArg String.toList h0
    simp at this
    exact hne this
  unfold auth.AuthMiddleware
  rw [hl]
  have hp : ("Bearer ".toList.isPrefixOf ('B' :: 'e' :: 'a' :: 'r' :: 'e' :: 'r' :: ' ' :: cs)) = true := by
    show (['B', 'e', 'a', 'r', 'e', 'r', ' '].isPrefixOf _) = true
    simp [List.isPrefixOf]
  simp only [hne1, hp, List.drop, auth.TrimSpace_bearer_rest cs h, hne2]
  simp

/-- C5: for every 32 random bytes, `GenerateOpaqueToken` returns a non-empty token equal to their
unpadded URL-safe base64 encoding (43 characters, each a letter, a digit, `-` or `_`) and a hash
equal to the 32-byte SHA-256 of the token's bytes; `Refresh` and `Logout` presented with the
token look the store up by that same hash, and `AuthMiddleware` presented with
`Bearer <token>` hands that same hash to the access validator. -/
theorem GenerateOpaqueToken_spec (raw : Bytes) (hraw : raw.length = 32) :
    ∃ token hash, security.GenerateOpaqueToken (some raw) = .ok (token, hash) ∧
      token ≠ "" ∧ token = base64.RawURLEncoding raw ∧ token.length = 43 ∧
      (∀ c ∈ token.toList, c.isAlphanum = true ∨ c = '-' ∨ c = '_') ∧
      hash = sha256.Sum256 (bytesOf token) ∧ hash.length = 32 ∧
      (∀ (s : auth.Service) (now : Time) (rawAccess rawRefresh : Option Bytes)
          (userAgent ip : String), ∃ rest,
        (s.Refresh now rawAccess rawRefresh token userAgent ip).2.calls =
          s.calls ++ auth.RepoCall.GetSessionByRefresh hash :: rest) ∧
      (∀ (s : auth.Service) (now : Time), ∃ rest,
        (s.Logout now token).2.calls =
          s.calls ++ auth.RepoCall.GetSessionByRefresh hash :: rest) ∧
      (∀ validator : Bytes → auth.SessionInfo × Option Error,
        auth.AuthMiddleware validator ("Bearer " ++ token) =
          match (validator hash).2 with
          | some err =>
            if err = .ErrBanned then .banned (validator hash).1.BanReason (validator hash).1.BanAt
            else .httpError "invalid token" 401
          | none =>
            .next (validator hash).1.UserID (validator hash).1.DeviceID (validator hash).1.Banned
              (validator hash).1.IsAdmin) := by
  have hlen : (base64.encodeRaw base64.encodeURL raw).length = 43 := by
    rw [base64.encodeRaw_length, hraw]
  have hmem := base64.encodeRaw_mem base64.encodeURL (by decide) raw
  have hne : base64.encodeRaw base64.encodeURL raw ≠ [] := by
    intro h0; rw [h0] at hlen; simp at hlen
  refine ⟨base64.RawURLEncoding raw, sha256.Sum256 (bytesOf (base64.RawURLEncoding raw)), rfl,
    ?_, rfl, ?_, ?_, rfl, sha256.Sum256_length _, ?_, ?_, ?_⟩
  · intro h0
    have := congrArg String.toList h0
    simp [base64.RawURLEncoding] at this
    exact hne this
  · simp [base64.RawURLEncoding, String.length, hlen]
  · intro c hc
    exact base64.encodeURL_chars c (hmem c hc)
  · intro s now rawAccess rawRefresh userAgent ip
    unfold auth.Service.Refresh
    simp only
    split
    · exact ⟨[], rfl⟩
    · split
      · exact ⟨[], rfl⟩
      · split
        · simp
        · split
          · exact ⟨[], rfl⟩
          · split
            · exact ⟨[], rfl⟩
            · split
              · exact ⟨[], rfl⟩
              · simp
  · intro s now
    unfold auth.Service.Logout
    simp only
    split
    · exact ⟨[], rfl⟩
    · split
      · exact ⟨[], rfl⟩
      · simp
  · intro validator
    exact auth.AuthMiddleware_bearer validator _ hne
      (fun c hc => base64.encodeURL_not_space c (hmem c hc))

theorem GenerateOpaqueToken_spec_witness :
    (List.range 32).length = 32 ∧
    ∃ token hash, security.GenerateOpaqueToken (some (List.range 32)) = .ok (token, hash) ∧
      token ≠ "" ∧ token = base64.RawURLEncoding (List.range 32) ∧ token.length = 43 :=
  ⟨by decide,
   let ⟨t, h, h1, h2, h3, h4, _⟩ := GenerateOpaqueToken_spec (List.range 32) (by decide)
   ⟨t, h, h1, h2, h3, h4⟩⟩

namespace auth

/-! ## Refresh rotation and reuse detection (C1, C2, C6) -/

theorem find?_unique {α : Type} (p : α → Bool) (l : List α) (x : α) (hx : x ∈ l) (hp : p x = true)
    (hu : ∀ y ∈ l, p y = true → y = x) : l.find? p = some x := by
  induction l with
  | nil => simp at hx
  | cons y t ih =>
    by_cases hy : p y = true
    · have := hu y (List.mem_cons_self _ _) hy
      subst this
      simp [List.find?, hp]
    · have hxt : x ∈ t := by
        rcases List.mem_cons.mp hx with h | h
        · exact absurd (h ▸ hp) hy
        · exact h
      simp only [List.find?, Bool.not_eq_true] at hy ⊢
      simp only [hy]
      exact ih hxt (fun z hz => hu z (List.mem_cons_of_mem _ hz))

theorem eq_of_ID_eq {db : DB} (hid : IDsUnique db) {x y : Session} (hx : x ∈ db.sessions)
    (hy : y ∈ db.sessions) (h : x.ID = y.ID) : x = y :=
  List.inj_on_of_nodup_map hid hx hy h

theorem eq_of_refreshHash {db : DB} (hu : RefreshHashesUnique db) {x y : Session}
    (hx : x ∈ db.sessions) (hy : y ∈ db.sessions) {h : Bytes} (h1 : h ∈ refreshHashes x)
    (h2 : h ∈ refreshHashes y) : x = y := by
  by_contra hne
  have hp := (List.nodup_flatMap.mp hu).2
  have hsym : Symmetric (fun a b : Session => List.Disjoint (refreshHashes a) (refreshHashes b)) :=
    fun a b hab => hab.symm
  exact (hp.forall hsym hx hy hne) h1 h2

theorem Service.Refresh_of_current {s : Service} {now : Time} {rawAccess rawRefresh : Option Bytes}
    {refreshToken userAgent ip : String} {sess : Session}
    (hf : s.repo.sessions.find? (fun x =>
        decide (x.RefreshTokenHash = sha256.Sum256 (bytesOf refreshToken))) = some sess) :
    s.Refresh now rawAccess rawRefresh refreshToken userAgent ip =
      if sess.RevokedAt ≠ none then
        (.error .ErrSessionRevoked, { s with calls := s.calls ++
          [.GetSessionByRefresh (sha256.Sum256 (bytesOf refreshToken))] })
      else if sess.ExpiresAt < now then
        (.error (.msg "refresh expired"), { s with calls := s.calls ++
          [.GetSessionByRefresh (sha256.Sum256 (bytesOf refreshToken))] })
      else
        match rawAccess, rawRefresh with
        | some a, some r =>
          (.ok (base64.RawURLEncoding a, base64.RawURLEncoding r),
           { s with
             repo := UpdateSessionTokens s.repo now sess.ID
               (sha256.Sum256 (bytesOf (base64.RawURLEncoding a)))
               (sha256.Sum256 (bytesOf (base64.RawURLEncoding r)))
               (now + s.config.RefreshTokenTTL)
             calls := s.calls ++ [.GetSessionByRefresh (sha256.Sum256 (bytesOf refreshToken)),
               .UpdateSessionTokens sess.ID (sha256.Sum256 (bytesOf (base64.RawURLEncoding a)))
                 (sha256.Sum256 (bytesOf (base64.RawURLEncoding r)))
                 (now + s.config.RefreshTokenTTL)] })
        | _, _ =>
          (.error (.msg "crypto/rand"), { s with calls := s.calls ++
            [.GetSessionByRefresh (sha256.Sum256 (bytesOf refreshToken))] }) := by
  unfold Service.Refresh GetSessionByRefresh
  simp only [hf]
  by_cases h1 : sess.RevokedAt ≠ none
  · simp [h1]
  · by_cases h2 : sess.ExpiresAt < now
    · simp [h1, h2]
    · cases rawAccess <;> cases rawRefresh <;>
        simp [h1, h2, security.GenerateOpaqueToken]

theorem Service.Refresh_of_previous {s : Service} {now : Time}
    {rawAccess rawRefresh : Option Bytes}
    {refreshToken userAgent ip : String} {sess : Session}
    (hf : s.repo.sessions.find? (fun x =>
        decide (x.RefreshTokenHash = sha256.Sum256 (bytesOf refreshToken))) = none)
    (hl : s.repo.sessions.find? (fun x =>
        decide (x.LastRefreshTokenHash = some (sha256.Sum256 (bytesOf refreshToken))))
        = some sess) :
    s.Refresh now rawAccess rawRefresh refreshToken userAgent ip =
      if sess.RevokedAt ≠ none then
        (.error .ErrSessionRevoked, { s with calls := s.calls ++
          [.GetSessionByRefresh (sha256.Sum256 (bytesOf refreshToken))] })
      else
        (.error .ErrRefreshReuse,
         { s with
           repo := RevokeSession s.repo now sess.ID "refresh_reuse"
           calls := s.calls ++ [.GetSessionByRefresh (sha256.Sum256 (bytesOf refreshToken)),
             .RevokeSession sess.ID "refresh_reuse"] }) := by
  unfold Service.Refresh GetSessionByRefresh
  simp only [hf, hl]
  by_cases h1 : sess.RevokedAt ≠ none
  · simp [h1]
  · simp [h1]

theorem Service.Refresh_of_unknown (s : Service) (now : Time)
    (rawAccess rawRefresh : Option Bytes) (refreshToken userAgent ip : String)
    (hf : s.repo.sessions.find? (fun x =>
        decide (x.RefreshTokenHash = sha256.Sum256 (bytesOf refreshToken))) = none)
    (hl : s.repo.sessions.find? (fun x =>
        decide (x.LastRefreshTokenHash = some (sha256.Sum256 (bytesOf refreshToken))))
        = none) :
    s.Refresh now rawAccess rawRefresh refreshToken userAgent ip =
      (.error .ErrSessionNotFound, { s with calls := s.calls ++
          [.GetSessionByRefresh (sha256.Sum256 (bytesOf refreshToken))] }) := by
  unfold Service.Refresh GetSessionByRefresh
  simp only [hf, hl]

theorem Service.Refresh_ok {s s1 : Service} {now : Time} {rawAccess rawRefresh : Option Bytes}
    {refreshToken userAgent ip newAccess newRefresh : String}
    (h : s.Refresh now rawAccess rawRefresh refreshToken userAgent ip
      = (.ok (newAccess, newRefresh), s1)) :
    ∃ sess a r,
      s.repo.sessions.find? (fun x =>
        decide (x.RefreshTokenHash = sha256.Sum256 (bytesOf refreshToken))) = some sess ∧
      sess.RevokedAt = none ∧ ¬ sess.ExpiresAt < now ∧
      rawAccess = some a ∧ rawRefresh = some r ∧
      newAccess = base64.RawURLEncoding a ∧ newRefresh = base64.RawURLEncoding r ∧
      s1 = { s with
        repo := UpdateSessionTokens s.repo now sess.ID (sha256.Sum256 (bytesOf newAccess))
          (sha256.Sum256 (bytesOf newRefresh)) (now + s.config.RefreshTokenTTL)
        calls := s.calls ++ [.GetSessionByRefresh (sha256.Sum256 (bytesOf refreshToken)),
          .UpdateSessionTokens sess.ID (sha256.Sum256 (bytesOf newAccess))
            (sha256.Sum256 (bytesOf newRefresh)) (now + s.config.RefreshTokenTTL)] } := by
  cases hf : s.repo.sessions.find? (fun x =>
        decide (x.RefreshTokenHash = sha256.Sum256 (bytesOf refreshToken))) with
  | none =>
    cases hl : s.repo.sessions.find? (fun x =>
        decide (x.LastRefreshTokenHash = some (sha256.Sum256 (bytesOf refreshToken)))) with
    | none => rw [Service.Refresh_of_unknown _ _ _ _ _ _ _ hf hl] at h; simp at h
    | some sess =>
      rw [Service.Refresh_of_previous hf hl] at h
      split at h <;> simp at h
  | some sess =>
    rw [Service.Refresh_of_current hf] at h
    by_cases h1 : sess.RevokedAt ≠ none
    · simp [h1] at h
    · by_cases h2 : sess.ExpiresAt < now
      · simp [h1, h2] at h
      · cases rawAccess with
        | none => simp [h1, h2] at h
        | some a =>
          cases rawRefresh with
          | none => simp [h1, h2] at h
          | some r =>
            simp only [h1, h2, if_false, Prod.mk.injEq, Except.ok.injEq] at h
            obtain ⟨⟨rfl, rfl⟩, rfl⟩ := h
            exact ⟨sess, a, r, rfl, by simpa using h1, h2, rfl, rfl, rfl, rfl, rfl⟩

theorem mem_of_find? {α : Type} {p : α → Bool} {l : List α} {x : α} (h : l.find? p = some x) :
    x ∈ l ∧ p x = true :=
  ⟨List.mem_of_find?_eq_some h, List.find?_some h⟩

theorem map_update_by_ID (l : List Session) (hid : (l.map (fun s => s.ID)).Nodup)
    (sess : Session) (hs : sess ∈ l) (F : Session → Session) :
    l.map (fun x => if x.ID = sess.ID then F x else x) =
      l.map (fun x => if x = sess then F sess else x) := by
  apply List.map_congr_left
  intro x hx
  by_cases h : x.ID = sess.ID
  · have := List.inj_on_of_nodup_map hid hx hs h
    subst this
    simp
  · have : x ≠ sess := fun h' => h (h' ▸ rfl)
    simp [h, this]

theorem mem_replace {l : List Session} {sess y z : Session} (hs : sess ∈ l) :
    z ∈ l.map (fun x => if x = sess then y else x) ↔ z = y ∨ (z ∈ l ∧ z ≠ sess) := by
  simp only [List.mem_map]
  constructor
  · rintro ⟨x, hx, rfl⟩
    by_cases h : x = sess
    · simp [h]
    · simp [h, hx]
  · rintro (rfl | ⟨hz, hne⟩)
    · exact ⟨sess, hs, by simp⟩
    · exact ⟨z, hz, by simp [hne]⟩

theorem nodup_IDs_replace {l : List Session} (hid : (l.map (fun s => s.ID)).Nodup)
    (sess y : Session) (hy : y.ID = sess.ID) :
    ((l.map (fun x => if x = sess then y else x)).map (fun s => s.ID)).Nodup := by
  rw [List.map_map]
  have : ((fun s : Session => s.ID) ∘ fun x : Session => if x = sess then y else x)
      = fun s => s.ID := by
    funext s
    simp only [Function.comp]
    split
    · next h => rw [hy, h]
    · rfl
  rw [this]
  exact hid

theorem nodup_hashes_replace {l : List Session} (hu : (l.flatMap refreshHashes).Nodup)
    (sess y : Session) (hy : (refreshHashes y).Nodup)
    (hoth : ∀ h ∈ refreshHashes y, ∀ x ∈ l, x ≠ sess → h ∉ refreshHashes x) :
    ((l.map (fun x => if x = sess then y else x)).flatMap refreshHashes).Nodup := by
  rw [List.nodup_flatMap] at hu ⊢
  refine ⟨?_, ?_⟩
  · intro z hz
    rcases List.mem_map.mp hz with ⟨x, hx, rfl⟩
    by_cases h : x = sess
    · simpa [h] using hy
    · simpa [h] using hu.1 x hx
  · rw [List.pairwise_map]
    refine hu.2.imp_of_mem ?_
    intro a b ha hb hab
    by_cases h1 : a = sess <;> by_cases h2 : b = sess
    · subst h1; subst h2
      exact absurd (List.mem_cons_self _ _) (fun h => hab h h)
    · simp only [h1, h2, if_true, if_false]
      intro h hh1 hh2
      exact hoth h hh1 b hb h2 hh2
    · simp only [h1, h2, if_true, if_false]
      intro h hh1 hh2
      exact hoth h hh2 a ha h1 hh1
    · simpa [h1, h2] using hab

theorem rotated_refreshHashes (x : Session) (now : Time) (a r : Bytes) (e : Time) :
    refreshHashes (rotated x now a r e) = [r, x.RefreshTokenHash] := rfl

theorem mem_refreshHashes_self (x : Session) : x.RefreshTokenHash ∈ refreshHashes x :=
  List.mem_cons_self _ _

theorem mem_refreshHashes_last {x : Session} {h : Bytes} (hl : x.LastRefreshTokenHash = some h) :
    h ∈ refreshHashes x := by
  simp [refreshHashes, hl]

theorem fresh_not_mem {db : DB} {h : Bytes} (hf : RefreshHashFresh db h) {x : Session}
    (hx : x ∈ db.sessions) : h ∉ refreshHashes x :=
  fun hh => hf (List.mem_flatMap.mpr ⟨x, hx, hh⟩)

/-- What a successful `Refresh` did: it found a live session by its current hash and replaced
that row by the rotated row. -/
theorem Service.Refresh_ok_sessions {s s1 : Service} {now : Time}
    {rawAccess rawRefresh : Option Bytes}
    {refreshToken userAgent ip newAccess newRefresh : String} (hid : IDsUnique s.repo)
    (h : s.Refresh now rawAccess rawRefresh refreshToken userAgent ip
      = (.ok (newAccess, newRefresh), s1)) :
    ∃ sess, sess ∈ s.repo.sessions ∧
      sess.RefreshTokenHash = sha256.Sum256 (bytesOf refreshToken) ∧
      sess.RevokedAt = none ∧ ¬ sess.ExpiresAt < now ∧
      s.repo.sessions.find? (fun x =>
        decide (x.RefreshTokenHash = sha256.Sum256 (bytesOf refreshToken))) = some sess ∧
      s1 = { s with
        repo := { s.repo with sessions := s.repo.sessions.map (fun x =>
          if x = sess then
            rotated sess now (sha256.Sum256 (bytesOf newAccess))
              (sha256.Sum256 (bytesOf newRefresh)) (now + s.config.RefreshTokenTTL)
          else x) }
        calls := s.calls ++ [.GetSessionByRefresh (sha256.Sum256 (bytesOf refreshToken)),
          .UpdateSessionTokens sess.ID (sha256.Sum256 (bytesOf newAccess))
            (sha256.Sum256 (bytesOf newRefresh)) (now + s.config.RefreshTokenTTL)] } := by
  obtain ⟨sess, a, r, hf, hrev, hexp, -, -, -, -, hs1⟩ := Service.Refresh_ok h
  have hm := mem_of_find? hf
  refine ⟨sess, hm.1, by simpa using hm.2, hrev, hexp, hf, ?_⟩
  rw [hs1]
  unfold UpdateSessionTokens
  have := map_update_by_ID s.repo.sessions hid sess hm.1 (fun x =>
    rotated x now (sha256.Sum256 (bytesOf newAccess))
      (sha256.Sum256 (bytesOf newRefresh)) (now + s.config.RefreshTokenTTL))
  simp only [rotated] at this ⊢
  rw [this]

/-- The lookups of the two refresh hashes after a row has been rotated to a fresh hash. -/
theorem lookups_after_rotation {l : List Session} (hid : (l.map (fun s => s.ID)).Nodup)
    (hu : (l.flatMap refreshHashes).Nodup) {sess : Session} (hs : sess ∈ l) (now : Time)
    (a r : Bytes) (e : Time) (hfresh : r ∉ l.flatMap refreshHashes) :
    let l1 := l.map (fun x => if x = sess then rotated sess now a r e else x)
    (l1.map (fun s => s.ID)).Nodup ∧ (l1.flatMap refreshHashes).Nodup ∧
    l1.find? (fun x => decide (x.RefreshTokenHash = sess.RefreshTokenHash)) = none ∧
    l1.find? (fun x => decide (x.LastRefreshTokenHash = some sess.RefreshTokenHash))
      = some (rotated sess now a r e) ∧
    l1.find? (fun x => decide (x.RefreshTokenHash = r)) = some (rotated sess now a r e) ∧
    (∀ g, sess.LastRefreshTokenHash = some g → g ∉ l1.flatMap refreshHashes) := by
  intro l1
  have hfr : ∀ x ∈ l, r ∉ refreshHashes x := fun x hx hh =>
    hfresh (List.mem_flatMap.mpr ⟨x, hx, hh⟩)
  have huniq : ∀ x ∈ l, ∀ h, h ∈ refreshHashes sess → h ∈ refreshHashes x → x = sess := by
    intro x hx h h1 h2
    by_contra hne
    have hsym : Symmetric (fun a b : Session =>
        List.Disjoint (refreshHashes a) (refreshHashes b)) := fun a b hab => hab.symm
    exact ((List.nodup_flatMap.mp hu).2.forall hsym hx hs hne) h2 h1
  have hne : r ≠ sess.RefreshTokenHash := fun h0 =>
    hfr sess hs (h0 ▸ mem_refreshHashes_self sess)
  have hrot_mem : rotated sess now a r e ∈ l1 := (mem_replace hs).mpr (Or.inl rfl)
  refine ⟨nodup_IDs_replace hid sess _ rfl, ?_, ?_, ?_, ?_, ?_⟩
  · apply nodup_hashes_replace hu
    · rw [rotated_refreshHashes]; simp [hne]
    · intro h hh x hx hxs
      rw [rotated_refreshHashes] at hh
      simp only [List.mem_cons, List.mem_singleton, List.not_mem_nil, or_false] at hh
      rcases hh with rfl | rfl
      · exact hfr x hx
      · exact fun h2 => hxs (huniq x hx _ (mem_refreshHashes_self sess) h2)
  · rw [List.find?_eq_none]
    intro z hz
    rcases (mem_replace hs).mp hz with rfl | ⟨hzl, hzs⟩
    · simpa [rotated] using hne
    · simp only [decide_eq_true_eq]
      intro h0
      exact hzs (huniq z hzl _ (mem_refreshHashes_self sess) (h0 ▸ mem_refreshHashes_self z))
  · apply find?_unique _ _ _ hrot_mem (by simp [rotated])
    intro z hz hp
    rcases (mem_replace hs).mp hz with rfl | ⟨hzl, hzs⟩
    · rfl
    · simp only [decide_eq_true_eq] at hp
      exact absurd (huniq z hzl _ (mem_refreshHashes_self sess) (mem_refreshHashes_last hp)) hzs
  · apply find?_unique _ _ _ hrot_mem (by simp [rotated])
    intro z hz hp
    rcases (mem_replace hs).mp hz with rfl | ⟨hzl, hzs⟩
    · rfl
    · simp only [decide_eq_true_eq] at hp
      exact absurd (hp ▸ mem_refreshHashes_self z) (hfr z hzl)
  · intro g hg hmem
    rcases List.mem_flatMap.mp hmem with ⟨z, hz, hgz⟩
    have hgs : g ∈ refreshHashes sess := mem_refreshHashes_last hg
    rcases (mem_replace hs).mp hz with rfl | ⟨hzl, hzs⟩
    · rw [rotated_refreshHashes] at hgz
      simp only [List.mem_cons, List.mem_singleton, List.not_mem_nil, or_false] at hgz
      rcases hgz with rfl | rfl
      · exact hfr sess hs hgs
      · have hnd := (List.nodup_flatMap.mp hu).1 sess hs
        simp [refreshHashes, hg] at hnd
    · exact hzs (huniq z hzl g hgs hgz)

/-- A reuse of the previous refresh token: the error, and the revocation written. -/
theorem Service.Refresh_reuse (s : Service) (now : Time) (rawAccess rawRefresh : Option Bytes)
    (refreshToken userAgent ip : String) {y : Session} (hid : IDsUnique s.repo)
    (hf : s.repo.sessions.find? (fun x =>
        decide (x.RefreshTokenHash = sha256.Sum256 (bytesOf refreshToken))) = none)
    (hl : s.repo.sessions.find? (fun x =>
        decide (x.LastRefreshTokenHash = some (sha256.Sum256 (bytesOf refreshToken))))
        = some y)
    (hrev : y.RevokedAt = none) :
    s.Refresh now rawAccess rawRefresh refreshToken userAgent ip =
      (.error .ErrRefreshReuse,
       { s with
         repo := { s.repo with sessions := s.repo.sessions.map (fun x =>
           if x = y then revoked y now "refresh_reuse" else x) }
         calls := s.calls ++ [.GetSessionByRefresh (sha256.Sum256 (bytesOf refreshToken)),
           .RevokeSession y.ID "refresh_reuse"] }) := by
  rw [Service.Refresh_of_previous hf hl]
  simp only [hrev, ne_eq, not_true_eq_false, if_false]
  unfold RevokeSession
  have := map_update_by_ID s.repo.sessions hid y (mem_of_find? hl).1 (fun x =>
    revoked x now "refresh_reuse")
  simp only [revoked] at this ⊢
  rw [this]

/-- C1: when `Refresh(R)` has just succeeded on a session and returned `(A', R')` (the store
holding no duplicate identifier or refresh hash, `R'` being fresh), that session was live, a
second `Refresh(R)` fails with `ErrRefreshReuse` and revokes exactly that session with reason
`refresh_reuse`, and a following `Refresh(R')` fails with `ErrSessionRevoked`. -/
theorem refresh_reuse_revokes_session (s s1 : Service) (now now2 now3 : Time)
    (rawAccess rawRefresh rawAccess2 rawRefresh2 rawAccess3 rawRefresh3 : Option Bytes)
    (R A' R' userAgent ip userAgent2 ip2 userAgent3 ip3 : String)
    (hid : IDsUnique s.repo) (hu : RefreshHashesUnique s.repo)
    (hfresh : RefreshHashFresh s.repo (sha256.Sum256 (bytesOf R')))
    (h : s.Refresh now rawAccess rawRefresh R userAgent ip = (.ok (A', R'), s1)) :
    ∃ sess, sess ∈ s.repo.sessions ∧ sess.RefreshTokenHash = sha256.Sum256 (bytesOf R) ∧
      sess.RevokedAt = none ∧ ¬ sess.ExpiresAt < now ∧
      (s1.Refresh now2 rawAccess2 rawRefresh2 R userAgent2 ip2).1 = .error .ErrRefreshReuse ∧
      (s1.Refresh now2 rawAccess2 rawRefresh2 R userAgent2 ip2).2.repo.sessions =
        s1.repo.sessions.map (fun x =>
          if x.ID = sess.ID then revoked x now2 "refresh_reuse" else x) ∧
      (∃ x ∈ (s1.Refresh now2 rawAccess2 rawRefresh2 R userAgent2 ip2).2.repo.sessions,
        x.ID = sess.ID ∧ x.RevokedAt = some now2 ∧ x.RevokedReason = "refresh_reuse") ∧
      ((s1.Refresh now2 rawAccess2 rawRefresh2 R userAgent2 ip2).2.Refresh now3 rawAccess3
        rawRefresh3 R' userAgent3 ip3).1 = .error .ErrSessionRevoked := by
  obtain ⟨sess, hs, hsr, hrev, hexp, -, hs1⟩ := Service.Refresh_ok_sessions hid h
  obtain ⟨hid1, hu1, hf1, hl1, hc1, -⟩ := lookups_after_rotation hid hu hs now
    (sha256.Sum256 (bytesOf A')) (sha256.Sum256 (bytesOf R'))
    (now + s.config.RefreshTokenTTL) hfresh
  rw [hsr] at hf1 hl1
  have hrepo : s1.repo.sessions = s.repo.sessions.map (fun x =>
      if x = sess then rotated sess now (sha256.Sum256 (bytesOf A'))
        (sha256.Sum256 (bytesOf R')) (now + s.config.RefreshTokenTTL) else x) := by
    rw [hs1]
  rw [← hrepo] at hid1 hu1 hf1 hl1 hc1
  have hrot_rev : (rotated sess now (sha256.Sum256 (bytesOf A'))
      (sha256.Sum256 (bytesOf R')) (now + s.config.RefreshTokenTTL)).RevokedAt = none := hrev
  have h2 := Service.Refresh_reuse s1 now2 rawAccess2 rawRefresh2 R userAgent2 ip2 hid1 hf1 hl1
    hrot_rev
  have hrm := mem_of_find? hl1
  refine ⟨sess, hs, hsr, hrev, hexp, by rw [h2], ?_, ?_, ?_⟩
  · rw [h2]
    simp only
    exact (map_update_by_ID s1.repo.sessions hid1 _ hrm.1
      (fun x => revoked x now2 "refresh_reuse")).symm
  · rw [h2]
    exact ⟨_, (mem_replace hrm.1).mpr (Or.inl rfl), rfl, rfl, rfl⟩
  · rw [h2]
    have hfind : (s1.repo.sessions.map (fun x =>
        if x = rotated sess now (sha256.Sum256 (bytesOf A'))
          (sha256.Sum256 (bytesOf R')) (now + s.config.RefreshTokenTTL)
        then revoked (rotated sess now (sha256.Sum256 (bytesOf A'))
          (sha256.Sum256 (bytesOf R')) (now + s.config.RefreshTokenTTL)) now2 "refresh_reuse"
        else x)).find? (fun x => decide (x.RefreshTokenHash = sha256.Sum256 (bytesOf R')))
        = some (revoked (rotated sess now (sha256.Sum256 (bytesOf A'))
          (sha256.Sum256 (bytesOf R')) (now + s.config.RefreshTokenTTL)) now2
            "refresh_reuse") := by
      apply find?_unique _ _ _ ((mem_replace hrm.1).mpr (Or.inl rfl)) (by simp [revoked, rotated])
      intro z hz hp
      rcases (mem_replace hrm.1).mp hz with rfl | ⟨hzl, hzs⟩
      · rfl
      · rw [hrepo] at hzl
        rcases (mem_replace hs).mp hzl with rfl | ⟨hzl0, -⟩
        · exact absurd rfl hzs
        · simp only [decide_eq_true_eq] at hp
          exact absurd (hp ▸ mem_refreshHashes_self z) (fresh_not_mem hfresh hzl0)
    rw [Service.Refresh_of_current hfind]
    simp [revoked]

/-- C2: a successful `Refresh(R)` returning `(A', R')` replaces the matched session row by the
same row with `refresh_token_hash = SHA-256(R')`, `access_token_hash = SHA-256(A')`,
`last_refresh_token_hash = SHA-256(R)` (the hash it held), `expires_at = now + RefreshTokenTTL`
and `rotated_at = now`; every other session row and every other table is unchanged. -/
theorem refresh_rotation_effect (s s1 : Service) (now : Time)
    (rawAccess rawRefresh : Option Bytes) (R A' R' userAgent ip : String)
    (hid : IDsUnique s.repo)
    (h : s.Refresh now rawAccess rawRefresh R userAgent ip = (.ok (A', R'), s1)) :
    ∃ sess, sess ∈ s.repo.sessions ∧ sess.RefreshTokenHash = sha256.Sum256 (bytesOf R) ∧
      s1.repo = { s.repo with sessions := s.repo.sessions.map (fun x =>
        if x = sess then
          { sess with RefreshTokenHash := sha256.Sum256 (bytesOf R'),
                      AccessTokenHash := sha256.Sum256 (bytesOf A'),
                      LastRefreshTokenHash := some (sha256.Sum256 (bytesOf R)),
                      ExpiresAt := now + s.config.RefreshTokenTTL,
                      RotatedAt := some now }
        else x) } := by
  obtain ⟨sess, hs, hsr, -, -, -, hs1⟩ := Service.Refresh_ok_sessions hid h
  refine ⟨sess, hs, hsr, ?_⟩
  rw [hs1]
  simp only [rotated, hsr]

theorem lookups_of_unknown {l : List Session} {h : Bytes} (hn : h ∉ l.flatMap refreshHashes) :
    l.find? (fun x => decide (x.RefreshTokenHash = h)) = none ∧
    l.find? (fun x => decide (x.LastRefreshTokenHash = some h)) = none := by
  constructor
  · rw [List.find?_eq_none]
    intro z hz hp
    simp only [decide_eq_true_eq] at hp
    exact hn (List.mem_flatMap.mpr ⟨z, hz, hp ▸ mem_refreshHashes_self z⟩)
  · rw [List.find?_eq_none]
    intro z hz hp
    simp only [decide_eq_true_eq] at hp
    exact hn (List.mem_flatMap.mpr ⟨z, hz, mem_refreshHashes_last hp⟩)

/-- C6, amended: after two rotations `R0 → R1 → R2` of a session, presenting the token rotated
away last (`R1`) fails with `ErrRefreshReuse` and revokes the session with reason
`refresh_reuse`, while presenting the older token `R0` fails with `ErrSessionNotFound` and
leaves the database unchanged. -/
theorem refresh_reuse_only_previous (s s1 s2 : Service) (now1 now2 now3 : Time)
    (rawAccess1 rawRefresh1 rawAccess2 rawRefresh2 rawAccess3 rawRefresh3 : Option Bytes)
    (R0 A1 R1 A2 R2 userAgent1 ip1 userAgent2 ip2 userAgent3 ip3 : String)
    (hid : IDsUnique s.repo) (hu : RefreshHashesUnique s.repo)
    (hfresh1 : RefreshHashFresh s.repo (sha256.Sum256 (bytesOf R1)))
    (hfresh2 : RefreshHashFresh s1.repo (sha256.Sum256 (bytesOf R2)))
    (h1 : s.Refresh now1 rawAccess1 rawRefresh1 R0 userAgent1 ip1 = (.ok (A1, R1), s1))
    (h2 : s1.Refresh now2 rawAccess2 rawRefresh2 R1 userAgent2 ip2 = (.ok (A2, R2), s2)) :
    ∃ sess, sess ∈ s.repo.sessions ∧ sess.RefreshTokenHash = sha256.Sum256 (bytesOf R0) ∧
      (∃ x ∈ s2.repo.sessions, x.ID = sess.ID ∧
        x.RefreshTokenHash = sha256.Sum256 (bytesOf R2) ∧
        x.LastRefreshTokenHash = some (sha256.Sum256 (bytesOf R1)) ∧ x.RevokedAt = none) ∧
      (s2.Refresh now3 rawAccess3 rawRefresh3 R1 userAgent3 ip3).1 = .error .ErrRefreshReuse ∧
      (s2.Refresh now3 rawAccess3 rawRefresh3 R1 userAgent3 ip3).2.repo.sessions =
        s2.repo.sessions.map (fun x =>
          if x.ID = sess.ID then revoked x now3 "refresh_reuse" else x) ∧
      (s2.Refresh now3 rawAccess3 rawRefresh3 R0 userAgent3 ip3).1
        = .error .ErrSessionNotFound ∧
      (s2.Refresh now3 rawAccess3 rawRefresh3 R0 userAgent3 ip3).2.repo = s2.repo := by
  obtain ⟨sess, hs, hsr, hrev, -, -, hs1⟩ := Service.Refresh_ok_sessions hid h1
  obtain ⟨hid1, hu1, -, -, hc1, -⟩ := lookups_after_rotation hid hu hs now1
    (sha256.Sum256 (bytesOf A1)) (sha256.Sum256 (bytesOf R1))
    (now1 + s.config.RefreshTokenTTL) hfresh1
  have hrepo1 : s1.repo.sessions = s.repo.sessions.map (fun x =>
      if x = sess then rotated sess now1 (sha256.Sum256 (bytesOf A1))
        (sha256.Sum256 (bytesOf R1)) (now1 + s.config.RefreshTokenTTL) else x) := by
    rw [hs1]
  rw [← hrepo1] at hid1 hu1 hc1
  obtain ⟨y, hy, hyr, hyrev, -, hfy, hs2⟩ := Service.Refresh_ok_sessions hid1 h2
  have hy_eq : y = rotated sess now1 (sha256.Sum256 (bytesOf A1))
      (sha256.Sum256 (bytesOf R1)) (now1 + s.config.RefreshTokenTTL) := by
    rw [hc1] at hfy
    exact (Option.some.inj hfy).symm
  obtain ⟨hid2, -, hf2, hl2, -, hdrop⟩ := lookups_after_rotation hid1 hu1 hy now2
    (sha256.Sum256 (bytesOf A2)) (sha256.Sum256 (bytesOf R2))
    (now2 + s1.config.RefreshTokenTTL) hfresh2
  have hrepo2 : s2.repo.sessions = s1.repo.sessions.map (fun x =>
      if x = y then rotated y now2 (sha256.Sum256 (bytesOf A2))
        (sha256.Sum256 (bytesOf R2)) (now2 + s1.config.RefreshTokenTTL) else x) := by
    rw [hs2]
  rw [← hrepo2] at hid2 hf2 hl2 hdrop
  rw [hyr] at hf2 hl2
  have hyID : y.ID = sess.ID := by rw [hy_eq]; rfl
  have hylast : y.LastRefreshTokenHash = some (sha256.Sum256 (bytesOf R0)) := by
    rw [hy_eq]; simp [rotated, hsr]
  have hreuse := Service.Refresh_reuse s2 now3 rawAccess3 rawRefresh3 R1 userAgent3 ip3 hid2 hf2
    hl2 hyrev
  have hrm := mem_of_find? hl2
  have hunk := lookups_of_unknown (hdrop _ hylast)
  have h0 := Service.Refresh_of_unknown s2 now3 rawAccess3 rawRefresh3 R0 userAgent3 ip3 hunk.1
    hunk.2
  refine ⟨sess, hs, hsr, ⟨_, hrm.1, hyID, rfl, by simp [rotated, hyr], hyrev⟩, by rw [hreuse],
    ?_, by rw [h0], by rw [h0]⟩
  rw [hreuse]
  simp only
  rw [← hyID]
  exact (map_update_by_ID s2.repo.sessions hid2 _ hrm.1
    (fun x => revoked x now3 "refresh_reuse")).symm

set_option maxRecDepth 100000 in
theorem refresh_reuse_revokes_session_witness :
    IDsUnique exService.repo ∧ RefreshHashesUnique exService.repo ∧
    RefreshHashFresh exService.repo (sha256.Sum256 (bytesOf (exToken 2))) ∧
    exService.Refresh 10 (exRaw 1) (exRaw 2) "R0" "ua" "ip"
      = (.ok (exToken 1, exToken 2), exService1) ∧
    (exService1.Refresh 20 (exRaw 3) (exRaw 4) "R0" "ua" "ip").1 = .error .ErrRefreshReuse ∧
    ((exService1.Refresh 20 (exRaw 3) (exRaw 4) "R0" "ua" "ip").2.Refresh 30 (exRaw 5) (exRaw 6)
      (exToken 2) "ua" "ip").1 = .error .ErrSessionRevoked :=
  have hid : IDsUnique exService.repo := by decide
  have hu : RefreshHashesUnique exService.repo := by decide
  have hfresh : RefreshHashFresh exService.repo (sha256.Sum256 (bytesOf (exToken 2))) := by
    decide
  have h : exService.Refresh 10 (exRaw 1) (exRaw 2) "R0" "ua" "ip"
      = (.ok (exToken 1, exToken 2), exService1) := by decide
  ⟨hid, hu, hfresh, h,
   (refresh_reuse_revokes_session exService exService1 10 20 30 (exRaw 1) (exRaw 2) (exRaw 3)
      (exRaw 4) (exRaw 5) (exRaw 6) "R0" (exToken 1) (exToken 2) "ua" "ip" "ua" "ip" "ua" "ip"
      hid hu hfresh h).elim
     (fun _ h => ⟨h.2.2.2.2.1, h.2.2.2.2.2.2.2⟩)⟩

set_option maxRecDepth 100000 in
theorem refresh_rotation_effect_witness :
    IDsUnique exService.repo ∧
    exService.Refresh 10 (exRaw 1) (exRaw 2) "R0" "ua" "ip"
      = (.ok (exToken 1, exToken 2), exService1) ∧
    ∃ sess, sess ∈ exService.repo.sessions ∧
      sess.RefreshTokenHash = sha256.Sum256 (bytesOf "R0") ∧
      exService1.repo = { exService.repo with sessions := exService.repo.sessions.map (fun x =>
        if x = sess then
          { sess with RefreshTokenHash := sha256.Sum256 (bytesOf (exToken 2)),
                      AccessTokenHash := sha256.Sum256 (bytesOf (exToken 1)),
                      LastRefreshTokenHash := some (sha256.Sum256 (bytesOf "R0")),
                      ExpiresAt := 10 + exService.config.RefreshTokenTTL,
                      RotatedAt := some 10 }
        else x) } :=
  have hid : IDsUnique exService.repo := by decide
  have h : exService.Refresh 10 (exRaw 1) (exRaw 2) "R0" "ua" "ip"
      = (.ok (exToken 1, exToken 2), exService1) := by decide
  ⟨hid, h,
   refresh_rotation_effect exService exService1 10 (exRaw 1) (exRaw 2) "R0" (exToken 1)
     (exToken 2) "ua" "ip" hid h⟩

set_option maxRecDepth 100000 in
/-- Counterexample to C6 as stated: after two rotations of the example session, `Refresh` with the
first token `"R0"` answers `ErrSessionNotFound`, not `ErrRefreshReuse`, and revokes nothing. -/
theorem refresh_oldest_token_not_detected :
    exService.Refresh 10 (exRaw 1) (exRaw 2) "R0" "ua" "ip"
      = (.ok (exToken 1, exToken 2), exService1) ∧
    exService1.Refresh 20 (exRaw 3) (exRaw 4) (exToken 2) "ua" "ip"
      = (.ok (exToken 3, exToken 4), exService2) ∧
    (exService2.Refresh 30 (exRaw 5) (exRaw 6) "R0" "ua" "ip").1 = .error .ErrSessionNotFound ∧
    (exService2.Refresh 30 (exRaw 5) (exRaw 6) "R0" "ua" "ip").1 ≠ .error .ErrRefreshReuse ∧
    (exService2.Refresh 30 (exRaw 5) (exRaw 6) "R0" "ua" "ip").2.repo = exService2.repo ∧
    (∀ x ∈ (exService2.Refresh 30 (exRaw 5) (exRaw 6) "R0" "ua" "ip").2.repo.sessions,
      x.RevokedAt = none) := by
  decide

set_option maxRecDepth 100000 in
theorem refresh_reuse_only_previous_witness :
    IDsUnique exService.repo ∧ RefreshHashesUnique exService.repo ∧
    RefreshHashFresh exService.repo (sha256.Sum256 (bytesOf (exToken 2))) ∧
    RefreshHashFresh exService1.repo (sha256.Sum256 (bytesOf (exToken 4))) ∧
    exService.Refresh 10 (exRaw 1) (exRaw 2) "R0" "ua" "ip"
      = (.ok (exToken 1, exToken 2), exService1) ∧
    exService1.Refresh 20 (exRaw 3) (exRaw 4) (exToken 2) "ua" "ip"
      = (.ok (exToken 3, exToken 4), exService2) ∧
    (exService2.Refresh 30 (exRaw 5) (exRaw 6) (exToken 2) "ua" "ip").1
      = .error .ErrRefreshReuse ∧
    (exService2.Refresh 30 (exRaw 5) (exRaw 6) "R0" "ua" "ip").1
      = .error .ErrSessionNotFound :=
  have hid : IDsUnique exService.repo := by decide
  have hu : RefreshHashesUnique exService.repo := by decide
  have hfresh1 : RefreshHashFresh exService.repo (sha256.Sum256 (bytesOf (exToken 2))) := by
    decide
  have hfresh2 : RefreshHashFresh exService1.repo (sha256.Sum256 (bytesOf (exToken 4))) := by
    decide
  have h1 : exService.Refresh 10 (exRaw 1) (exRaw 2) "R0" "ua" "ip"
      = (.ok (exToken 1, exToken 2), exService1) := by decide
  have h2 : exService1.Refresh 20 (exRaw 3) (exRaw 4) (exToken 2) "ua" "ip"
      = (.ok (exToken 3, exToken 4), exService2) := by decide
  ⟨hid, hu, hfresh1, hfresh2, h1, h2,
   (refresh_reuse_only_previous exService exService1 exService2 10 20 30 (exRaw 1) (exRaw 2)
      (exRaw 3) (exRaw 4) (exRaw 5) (exRaw 6) "R0" (exToken 1) (exToken 2) (exToken 3)
      (exToken 4) "ua" "ip" "ua" "ip" "ua" "ip" hid hu hfresh1 hfresh2 h1 h2).elim
     (fun _ h => ⟨h.2.2.2.1, h.2.2.2.2.2.1⟩)⟩

/-! ## Access validation (C3, C7) -/

theorem AccessValidatorImpl.validate_of_none {repo : DB} {hash : Bytes} (now : Time)
    (hf : repo.sessions.find? (fun s =>
      decide (s.AccessTokenHash = hash ∧ s.RevokedAt = none)) = none) :
    AccessValidatorImpl.ValidateAccessToken repo now hash
      = (SessionInfo.zero, some .ErrSessionNotFound) := by
  unfold AccessValidatorImpl.ValidateAccessToken auth.ValidateAccessToken
  simp only [hf]

theorem AccessValidatorImpl.validate_of_some {repo : DB} {hash : Bytes} (now : Time)
    {x : Session} {u : User}
    (hf : repo.sessions.find? (fun s =>
      decide (s.AccessTokenHash = hash ∧ s.RevokedAt = none)) = some x)
    (hu : GetUserByID repo x.UserID = .ok u) :
    AccessValidatorImpl.ValidateAccessToken repo now hash =
      if x.ExpiresAt < now then (SessionInfo.zero, some (.msg "session expired"))
      else if u.BannedAt ≠ none then
        ({ UserID := uuidString x.UserID, DeviceID := uuidString x.DeviceID, IsAdmin := false,
           Banned := true, BanReason := u.BanReason, BanAt := u.BannedAt }, some .ErrBanned)
      else
        ({ UserID := uuidString x.UserID, DeviceID := uuidString x.DeviceID,
           IsAdmin := u.IsAdmin, Banned := false, BanReason := u.BanReason,
           BanAt := u.BannedAt }, none) := by
  unfold AccessValidatorImpl.ValidateAccessToken auth.ValidateAccessToken
  simp only [hf]
  by_cases h1 : x.ExpiresAt < now
  · simp [h1]
  · by_cases h2 : u.BannedAt ≠ none
    · simp [h1, hu, h2]
    · simp [h1, hu, h2]

theorem eq_of_accessHash {l : List Session}
    (hau : (l.map (fun s => s.AccessTokenHash)).Nodup) {x y : Session} (hx : x ∈ l) (hy : y ∈ l)
    (h : x.AccessTokenHash = y.AccessTokenHash) : x = y :=
  List.inj_on_of_nodup_map hau hx hy h

/-- The access lookup of a session's own hash, when no other row carries that hash. -/
theorem find_access_of_mem {l : List Session} {sess : Session} (hs : sess ∈ l)
    (huniq : ∀ z ∈ l, z.AccessTokenHash = sess.AccessTokenHash → z = sess) :
    l.find? (fun s => decide (s.AccessTokenHash = sess.AccessTokenHash ∧ s.RevokedAt = none))
      = if sess.RevokedAt = none then some sess else none := by
  by_cases hr : sess.RevokedAt = none
  · simp only [hr, if_true]
    apply find?_unique _ _ _ hs (by simp [hr])
    intro z hz hp
    simp only [decide_eq_true_eq] at hp
    exact huniq z hz hp.1
  · simp only [hr, if_false]
    rw [List.find?_eq_none]
    intro z hz hp
    simp only [decide_eq_true_eq] at hp
    exact hr (huniq z hz hp.1 ▸ hp.2)

/-- C7, amended: for a session whose user exists and is not banned (no other session carrying
its access hash), access validation of its access-token hash at time `now` succeeds if and only
if its `revoked_at` is null and its `expires_at` is not earlier than `now`. -/
theorem access_validation_iff_live (db : DB) (now : Time) (sess : Session) (u : User)
    (hs : sess ∈ db.sessions) (hau : AccessHashesUnique db)
    (hu : GetUserByID db sess.UserID = .ok u) (hnb : u.BannedAt = none) :
    (AccessValidatorImpl.ValidateAccessToken db now sess.AccessTokenHash).2 = none ↔
      (sess.RevokedAt = none ∧ now ≤ sess.ExpiresAt) := by
  have hf := find_access_of_mem hs (fun z hz h => eq_of_accessHash hau hz hs h)
  by_cases hr : sess.RevokedAt = none
  · rw [if_pos hr] at hf
    rw [AccessValidatorImpl.validate_of_some now hf hu]
    by_cases he : sess.ExpiresAt < now
    · simp [he, hr]
    · simp [he, hr, hnb, not_lt.mp he]
  · rw [if_neg hr] at hf
    rw [AccessValidatorImpl.validate_of_none now hf]
    simp [hr]

set_option maxRecDepth 100000 in
/-- Counterexample to C7 as stated: at the very instant `expires_at` the session still
validates, although `expires_at` is not strictly later than `now`. -/
theorem access_validation_at_expiry_instant :
    exSession ∈ exService.repo.sessions ∧
    GetUserByID exService.repo exSession.UserID = .ok exUser.toUser ∧
    exUser.BannedAt = none ∧ exSession.RevokedAt = none ∧ exSession.ExpiresAt = 1000 ∧
    (AccessValidatorImpl.ValidateAccessToken exService.repo 1000 exSession.AccessTokenHash).2
      = none ∧
    ¬ ((AccessValidatorImpl.ValidateAccessToken exService.repo 1000
          exSession.AccessTokenHash).2 = none ↔
        (exSession.RevokedAt = none ∧ (1000 : Time) < exSession.ExpiresAt)) := by
  decide

set_option maxRecDepth 100000 in
theorem access_validation_iff_live_witness :
    exSession ∈ exService.repo.sessions ∧ AccessHashesUnique exService.repo ∧
    GetUserByID exService.repo exSession.UserID = .ok exUser.toUser ∧
    exUser.BannedAt = none ∧
    ((AccessValidatorImpl.ValidateAccessToken exService.repo 1000 exSession.AccessTokenHash).2
        = none ↔ (exSession.RevokedAt = none ∧ (1000 : Time) ≤ exSession.ExpiresAt)) :=
  have hs : exSession ∈ exService.repo.sessions := by decide
  have hau : AccessHashesUnique exService.repo := by decide
  have hu : GetUserByID exService.repo exSession.UserID = .ok exUser.toUser := by decide
  ⟨hs, hau, hu, rfl, access_validation_iff_live exService.repo 1000 exSession exUser.toUser hs hau
    hu rfl⟩

theorem GetUserByID_sessions_irrelevant (db : DB) (l : List Session) (id : UUID) :
    GetUserByID { db with sessions := l } id = GetUserByID db id := rfl

/-- C3: when `Refresh` succeeds on a session (access hashes in the store being distinct and the
new access token fresh), the access hash the session carried, which validated before the
rotation, is refused afterwards at every instant with `ErrSessionNotFound`, while the hash of
the newly returned access token validates for as long as the new `expires_at` has not passed,
the user being present and not banned. -/
theorem old_access_token_stops_validating (s s1 : Service) (now : Time)
    (rawAccess rawRefresh : Option Bytes) (R A' R' userAgent ip : String)
    (hid : IDsUnique s.repo) (hau : AccessHashesUnique s.repo)
    (hfresh : AccessHashFresh s.repo (sha256.Sum256 (bytesOf A')))
    (h : s.Refresh now rawAccess rawRefresh R userAgent ip = (.ok (A', R'), s1)) :
    ∃ sess, sess ∈ s.repo.sessions ∧ sess.RefreshTokenHash = sha256.Sum256 (bytesOf R) ∧
      (∀ (now0 : Time) (u : User), GetUserByID s.repo sess.UserID = .ok u → u.BannedAt = none →
        now0 ≤ sess.ExpiresAt →
        (AccessValidatorImpl.ValidateAccessToken s.repo now0 sess.AccessTokenHash).2 = none) ∧
      (∀ now1 : Time,
        AccessValidatorImpl.ValidateAccessToken s1.repo now1 sess.AccessTokenHash
          = (SessionInfo.zero, some .ErrSessionNotFound)) ∧
      (∀ (now1 : Time) (u : User), GetUserByID s.repo sess.UserID = .ok u → u.BannedAt = none →
        now1 ≤ now + s.config.RefreshTokenTTL →
        AccessValidatorImpl.ValidateAccessToken s1.repo now1 (sha256.Sum256 (bytesOf A'))
          = ({ UserID := uuidString sess.UserID, DeviceID := uuidString sess.DeviceID,
               IsAdmin := u.IsAdmin, Banned := false, BanReason := u.BanReason,
               BanAt := u.BannedAt }, none)) := by
  obtain ⟨sess, hs, hsr, hrev, -, -, hs1⟩ := Service.Refresh_ok_sessions hid h
  have huniq : ∀ z ∈ s.repo.sessions, z.AccessTokenHash = sess.AccessTokenHash → z = sess :=
    fun z hz hh => eq_of_accessHash hau hz hs hh
  have hne : sha256.Sum256 (bytesOf A') ≠ sess.AccessTokenHash := fun h0 =>
    hfresh (List.mem_map.mpr ⟨sess, hs, h0.symm⟩)
  have hrepo : s1.repo = { s.repo with sessions := s.repo.sessions.map (fun x =>
      if x = sess then rotated sess now (sha256.Sum256 (bytesOf A'))
        (sha256.Sum256 (bytesOf R')) (now + s.config.RefreshTokenTTL) else x) } := by
    rw [hs1]
  refine ⟨sess, hs, hsr, ?_, ?_, ?_⟩
  · intro now0 u hu hnb hle
    have hf := find_access_of_mem hs huniq
    rw [if_pos hrev] at hf
    rw [AccessValidatorImpl.validate_of_some now0 hf hu]
    simp [not_lt.mpr hle, hnb]
  · intro now1
    apply AccessValidatorImpl.validate_of_none
    rw [hrepo, List.find?_eq_none]
    intro z hz hp
    simp only [decide_eq_true_eq] at hp
    rcases (mem_replace hs).mp hz with rfl | ⟨hzl, hzs⟩
    · exact hne hp.1
    · exact hzs (huniq z hzl hp.1)
  · intro now1 u hu hnb hle
    have hf : s1.repo.sessions.find? (fun x =>
        decide (x.AccessTokenHash = sha256.Sum256 (bytesOf A') ∧ x.RevokedAt = none))
        = some (rotated sess now (sha256.Sum256 (bytesOf A'))
          (sha256.Sum256 (bytesOf R')) (now + s.config.RefreshTokenTTL)) := by
      rw [hrepo]
      apply find?_unique _ _ _ ((mem_replace hs).mpr (Or.inl rfl))
        (by simp [rotated, hrev])
      intro z hz hp
      simp only [decide_eq_true_eq] at hp
      rcases (mem_replace hs).mp hz with rfl | ⟨hzl, -⟩
      · rfl
      · exact absurd (List.mem_map.mpr ⟨z, hzl, hp.1⟩) hfresh
    have hu1 : GetUserByID s1.repo (rotated sess now (sha256.Sum256 (bytesOf A'))
        (sha256.Sum256 (bytesOf R')) (now + s.config.RefreshTokenTTL)).UserID = .ok u := by
      rw [hrepo, GetUserByID_sessions_irrelevant]
      exact hu
    rw [AccessValidatorImpl.validate_of_some now1 hf hu1]
    have : ¬ (rotated sess now (sha256.Sum256 (bytesOf A'))
        (sha256.Sum256 (bytesOf R')) (now + s.config.RefreshTokenTTL)).ExpiresAt < now1 :=
      not_lt.mpr hle
    rw [if_neg this]
    simp [hnb, rotated]

set_option maxRecDepth 100000 in
theorem old_access_token_stops_validating_witness :
    IDsUnique exService.repo ∧ AccessHashesUnique exService.repo ∧
    AccessHashFresh exService.repo (sha256.Sum256 (bytesOf (exToken 1))) ∧
    exService.Refresh 10 (exRaw 1) (exRaw 2) "R0" "ua" "ip"
      = (.ok (exToken 1, exToken 2), exService1) ∧
    (AccessValidatorImpl.ValidateAccessToken exService.repo 10 exSession.AccessTokenHash).2
      = none ∧
    (AccessValidatorImpl.ValidateAccessToken exService1.repo 11 exSession.AccessTokenHash).2
      = some .ErrSessionNotFound ∧
    (AccessValidatorImpl.ValidateAccessToken exService1.repo 11
      (sha256.Sum256 (bytesOf (exToken 1)))).2 = none := by
  have hid : IDsUnique exService.repo := by decide
  have hau : AccessHashesUnique exService.repo := by decide
  have hfresh : AccessHashFresh exService.repo (sha256.Sum256 (bytesOf (exToken 1))) := by
    decide
  have h : exService.Refresh 10 (exRaw 1) (exRaw 2) "R0" "ua" "ip"
      = (.ok (exToken 1, exToken 2), exService1) := by decide
  obtain ⟨sess, hs, -, h0, h1, h2⟩ := old_access_token_stops_validating exService exService1 10
    (exRaw 1) (exRaw 2) "R0" (exToken 1) (exToken 2) "ua" "ip" hid hau hfresh h
  have hse : sess = exSession := List.mem_singleton.mp hs
  subst hse
  have hu : GetUserByID exService.repo exSession.UserID = .ok exUser.toUser := by decide
  refine ⟨hid, hau, hfresh, h, h0 10 exUser.toUser hu rfl (by decide), ?_, ?_⟩
  · rw [h1 11]
  · rw [h2 11 exUser.toUser hu rfl (by decide)]

/-! ## What reaches the store (C4) -/

/-- What a successful `issueSession` did. -/
theorem Service.issueSession_ok {s s1 : Service} {now : Time} {d : Draws} {user : User}
    {deviceName platform userAgent ip A R : String} {uid dev : UUID}
    (h : s.issueSession now d user deviceName platform userAgent ip
      = (.ok (uid, dev, A, R), s1)) :
    ∃ a r, d.rawAccess = some a ∧ d.rawRefresh = some r ∧
      A = base64.RawURLEncoding a ∧ R = base64.RawURLEncoding r ∧
      uid = user.ID ∧ dev = d.deviceID ∧
      s1 = { s with
        repo := (CreateSession
          (CreateDevice s.repo now d.deviceID user.ID (deviceNameOrDefault deviceName)
            platform).2
          d.sessionID user.ID d.deviceID (sha256.Sum256 (bytesOf A))
          (sha256.Sum256 (bytesOf R)) (now + s.config.RefreshTokenTTL) userAgent ip).2
        calls := s.calls ++ [.CreateDevice user.ID (deviceNameOrDefault deviceName) platform,
          .CreateSession user.ID d.deviceID (sha256.Sum256 (bytesOf A))
            (sha256.Sum256 (bytesOf R)) (now + s.config.RefreshTokenTTL) userAgent ip] } := by
  unfold Service.issueSession at h
  cases hA : d.rawAccess with
  | none => simp [hA, security.GenerateOpaqueToken] at h
  | some a =>
    cases hR : d.rawRefresh with
    | none => simp [hA, hR, security.GenerateOpaqueToken] at h
    | some r =>
      simp only [hA, hR, security.GenerateOpaqueToken, Prod.mk.injEq, Except.ok.injEq] at h
      obtain ⟨⟨rfl, rfl, rfl, rfl⟩, rfl⟩ := h
      refine ⟨a, r, rfl, rfl, rfl, rfl, rfl, rfl, ?_⟩
      simp [CreateDevice]

theorem ValidateVerificationCode_sessions (db : DB) (now : Time) (email : String)
    (codeHash : Bytes) :
    (ValidateVerificationCode db now email codeHash).2.sessions = db.sessions := by
  unfold ValidateVerificationCode
  simp only
  split <;> rfl

/-- The session row that `issueSession` hands to `CreateSession`. -/
theorem Service.issueSession_ok_sessions {s s1 : Service} {now : Time} {d : Draws} {user : User}
    {deviceName platform userAgent ip A R : String} {uid dev : UUID}
    (h : s.issueSession now d user deviceName platform userAgent ip
      = (.ok (uid, dev, A, R), s1)) :
    uid = user.ID ∧ dev = d.deviceID ∧
    s1.calls = s.calls ++ [.CreateDevice uid (deviceNameOrDefault deviceName) platform,
      .CreateSession uid dev (sha256.Sum256 (bytesOf A)) (sha256.Sum256 (bytesOf R))
        (now + s.config.RefreshTokenTTL) userAgent ip] ∧
    s1.repo.sessions = s.repo.sessions ++
      [{ ID := d.sessionID, UserID := uid, DeviceID := dev,
         RefreshTokenHash := sha256.Sum256 (bytesOf R), LastRefreshTokenHash := none,
         ExpiresAt := now + s.config.RefreshTokenTTL, RevokedAt := none, RevokedReason := "",
         AccessTokenHash := sha256.Sum256 (bytesOf A), UserAgent := userAgent, IP := ip,
         RotatedAt := none }] ∧
    s1.config = s.config := by
  obtain ⟨a, r, -, -, -, -, rfl, rfl, rfl⟩ := Service.issueSession_ok h
  exact ⟨rfl, rfl, rfl, rfl, rfl⟩

/-- C4: when `Verify`, `Login`, `IssueSessionForUser` or `Refresh` returns the tokens `(A, R)`, the
calls made on the repository are exactly the listed ones: their arguments are the caller's
inputs and the SHA-256 digests of `A` and `R` (handed to `CreateSession`, to
`UpdateSessionTokens`), never `A` or `R` themselves, and the session row written carries
exactly these digests; the admin-auth session row stores the unpadded base64 of the SHA-256
digest of the token returned to the caller. -/
theorem tokens_reach_the_store_only_as_hashes (CheckPassword : Bytes → String → Bool)
    (s s1 : Service) (now : Time) (d : Draws) (user : User)
    (email password code deviceName platform userAgent ip refreshToken A R : String)
    (uid dev newID adminUser : UUID) (rawAccess rawRefresh raw : Option Bytes)
    (ttl : Duration) (adminSession : adminauth.Session) (db1 : DB) :
    (s.Verify now d email code deviceName platform userAgent ip = (.ok (uid, dev, A, R), s1) →
      s1.calls = s.calls ++ [.ValidateVerificationCode email (sha256.Sum256 (bytesOf code)),
        .ActivateUser uid, .CreateDevice uid (deviceNameOrDefault deviceName) platform,
        .CreateSession uid dev (sha256.Sum256 (bytesOf A)) (sha256.Sum256 (bytesOf R))
          (now + s.config.RefreshTokenTTL) userAgent ip] ∧
      s1.repo.sessions = s.repo.sessions ++
        [{ ID := d.sessionID, UserID := uid, DeviceID := dev,
           RefreshTokenHash := sha256.Sum256 (bytesOf R), LastRefreshTokenHash := none,
           ExpiresAt := now + s.config.RefreshTokenTTL, RevokedAt := none, RevokedReason := "",
           AccessTokenHash := sha256.Sum256 (bytesOf A), UserAgent := userAgent, IP := ip,
           RotatedAt := none }]) ∧
    (s.Login CheckPassword now d email password deviceName platform userAgent ip
        = (.ok (uid, dev, A, R), s1) →
      s1.calls = s.calls ++ [.GetUserByEmail email,
        .CreateDevice uid (deviceNameOrDefault deviceName) platform,
        .CreateSession uid dev (sha256.Sum256 (bytesOf A)) (sha256.Sum256 (bytesOf R))
          (now + s.config.RefreshTokenTTL) userAgent ip] ∧
      s1.repo.sessions = s.repo.sessions ++
        [{ ID := d.sessionID, UserID := uid, DeviceID := dev,
           RefreshTokenHash := sha256.Sum256 (bytesOf R), LastRefreshTokenHash := none,
           ExpiresAt := now + s.config.RefreshTokenTTL, RevokedAt := none, RevokedReason := "",
           AccessTokenHash := sha256.Sum256 (bytesOf A), UserAgent := userAgent, IP := ip,
           RotatedAt := none }]) ∧
    (s.IssueSessionForUser now d user deviceName platform userAgent ip
        = (.ok (uid, dev, A, R), s1) →
      s1.calls = s.calls ++ [.CreateDevice uid (deviceNameOrDefault deviceName) platform,
        .CreateSession uid dev (sha256.Sum256 (bytesOf A)) (sha256.Sum256 (bytesOf R))
          (now + s.config.RefreshTokenTTL) userAgent ip] ∧
      s1.repo.sessions = s.repo.sessions ++
        [{ ID := d.sessionID, UserID := uid, DeviceID := dev,
           RefreshTokenHash := sha256.Sum256 (bytesOf R), LastRefreshTokenHash := none,
           ExpiresAt := now + s.config.RefreshTokenTTL, RevokedAt := none, RevokedReason := "",
           AccessTokenHash := sha256.Sum256 (bytesOf A), UserAgent := userAgent, IP := ip,
           RotatedAt := none }]) ∧
    (s.Refresh now rawAccess rawRefresh refreshToken userAgent ip = (.ok (A, R), s1) →
      ∃ sess, sess ∈ s.repo.sessions ∧
        s1.calls = s.calls ++ [.GetSessionByRefresh (sha256.Sum256 (bytesOf refreshToken)),
          .UpdateSessionTokens sess.ID (sha256.Sum256 (bytesOf A)) (sha256.Sum256 (bytesOf R))
            (now + s.config.RefreshTokenTTL)] ∧
        s1.repo = UpdateSessionTokens s.repo now sess.ID (sha256.Sum256 (bytesOf A))
          (sha256.Sum256 (bytesOf R)) (now + s.config.RefreshTokenTTL)) ∧
    (adminauth.CreateSession s.repo now newID raw adminUser ttl = (.ok adminSession, db1) →
      db1 = { s.repo with admin_auth_sessions := s.repo.admin_auth_sessions ++
        [{ id := newID, user_id := adminUser,
           session_token := base64.RawStdEncoding (sha256.Sum256 (bytesOf adminSession.Token)),
           state := "password_ok", totp_verified := false, email_code := none,
           email_expires_at := none, expires_at := now + ttl }] }) := by
  refine ⟨?_, ?_, ?_, ?_, ?_⟩
  · intro h
    unfold Service.Verify at h
    simp only at h
    split at h
    · simp at h
    · split at h
      · simp at h
      · obtain ⟨rfl, rfl, hc, hs, -⟩ := Service.issueSession_ok_sessions h
        refine ⟨?_, ?_⟩
        · rw [hc]; simp [hashCode]
        · rw [hs]; simp [ActivateUser, ValidateVerificationCode_sessions]
  · intro h
    unfold Service.Login at h
    simp only at h
    split at h
    · simp at h
    · split at h
      · simp at h
      · split at h
        · simp at h
        · split at h
          · simp at h
          · obtain ⟨rfl, rfl, hc, hs, -⟩ := Service.issueSession_ok_sessions h
            exact ⟨by rw [hc]; simp, by rw [hs]⟩
  · intro h
    unfold Service.IssueSessionForUser at h
    split at h
    · simp at h
    · obtain ⟨rfl, rfl, hc, hs, -⟩ := Service.issueSession_ok_sessions h
      exact ⟨hc, hs⟩
  · intro h
    obtain ⟨sess, a, r, hf, -, -, -, -, -, -, hs1⟩ := Service.Refresh_ok h
    exact ⟨sess, (mem_of_find? hf).1, by rw [hs1], by rw [hs1]⟩
  · intro h
    unfold adminauth.CreateSession at h
    cases raw with
    | none => simp [security.GenerateOpaqueToken] at h
    | some b =>
      simp only [security.GenerateOpaqueToken, Prod.mk.injEq, Except.ok.injEq] at h
      obtain ⟨rfl, rfl⟩ := h
      rfl

set_option maxRecDepth 100000 in
theorem tokens_reach_the_store_only_as_hashes_witness :
    (exService.Login exCheckPassword 10 exDraws "alice@x.test" "pw" "pc" "linux" "ua" "ip").2.calls
      = [.GetUserByEmail "alice@x.test", .CreateDevice 7 "pc" "linux",
         .CreateSession 7 11 (sha256.Sum256 (bytesOf (exToken 7)))
           (sha256.Sum256 (bytesOf (exToken 8))) 3610 "ua" "ip"] ∧
    (exBannedService.Verify 10 exDraws "bob@x.test" "123456" "" "linux" "ua" "ip").2.calls
      = [.ValidateVerificationCode "bob@x.test" (sha256.Sum256 (bytesOf "123456")),
         .ActivateUser 8, .CreateDevice 8 "unknown-device" "linux",
         .CreateSession 8 11 (sha256.Sum256 (bytesOf (exToken 7)))
           (sha256.Sum256 (bytesOf (exToken 8))) 3610 "ua" "ip"] ∧
    (exService.IssueSessionForUser 10 exDraws exUser.toUser "pc" "linux" "ua" "ip").2.calls
      = [.CreateDevice 7 "pc" "linux",
         .CreateSession 7 11 (sha256.Sum256 (bytesOf (exToken 7)))
           (sha256.Sum256 (bytesOf (exToken 8))) 3610 "ua" "ip"] ∧
    exService1.repo = UpdateSessionTokens exService.repo 10 1
      (sha256.Sum256 (bytesOf (exToken 1))) (sha256.Sum256 (bytesOf (exToken 2))) 3610 ∧
    (adminauth.CreateSession exService.repo 10 14 (exRaw 9) 7 900).2.admin_auth_sessions
      = [{ id := 14, user_id := 7,
           session_token := base64.RawStdEncoding (sha256.Sum256 (bytesOf (exToken 9))),
           state := "password_ok", totp_verified := false, email_code := none,
           email_expires_at := none, expires_at := 910 }] := by
  have hL := (tokens_reach_the_store_only_as_hashes exCheckPassword exService
    (exService.Login exCheckPassword 10 exDraws "alice@x.test" "pw" "pc" "linux" "ua" "ip").2
    10 exDraws exUser.toUser "alice@x.test" "pw" "" "pc" "linux" "ua" "ip" "" (exToken 7)
    (exToken 8) 7 11 0 0 none none none 0 ⟨0, 0, "", "", false, "", none, 0⟩
    exService.repo).2.1 (by decide)
  have hV := (tokens_reach_the_store_only_as_hashes exCheckPassword exBannedService
    (exBannedService.Verify 10 exDraws "bob@x.test" "123456" "" "linux" "ua" "ip").2
    10 exDraws exUser.toUser "bob@x.test" "" "123456" "" "linux" "ua" "ip" "" (exToken 7)
    (exToken 8) 8 11 0 0 none none none 0 ⟨0, 0, "", "", false, "", none, 0⟩
    exService.repo).1 (by decide)
  have hI := (tokens_reach_the_store_only_as_hashes exCheckPassword exService
    (exService.IssueSessionForUser 10 exDraws exUser.toUser "pc" "linux" "ua" "ip").2
    10 exDraws exUser.toUser "" "" "" "pc" "linux" "ua" "ip" "" (exToken 7)
    (exToken 8) 7 11 0 0 none none none 0 ⟨0, 0, "", "", false, "", none, 0⟩
    exService.repo).2.2.1 (by decide)
  obtain ⟨sess, hs, -, hR⟩ := (tokens_reach_the_store_only_as_hashes exCheckPassword exService
    exService1 10 exDraws exUser.toUser "" "" "" "" "" "ua" "ip" "R0" (exToken 1)
    (exToken 2) 0 0 0 0 (exRaw 1) (exRaw 2) none 0 ⟨0, 0, "", "", false, "", none, 0⟩
    exService.repo).2.2.2.1 (by decide)
  have hse : sess = exSession := List.mem_singleton.mp hs
  subst hse
  have hA := (tokens_reach_the_store_only_as_hashes exCheckPassword exService
    exService1 10 exDraws exUser.toUser "" "" "" "" "" "ua" "ip" "R0" (exToken 1)
    (exToken 2) 0 0 14 7 none none (exRaw 9) 900
    ⟨14, 7, exToken 9, "password_ok", false, "", none, 910⟩
    (adminauth.CreateSession exService.repo 10 14 (exRaw 9) 7 900).2).2.2.2.2 (by decide)
  refine ⟨hL.1, hV.1, hI.1, hR, ?_⟩
  rw [hA]
  rfl

/-! ## Banned users (C8, C9) -/

theorem Service.Login_banned (CheckPassword : Bytes → String → Bool) (s : Service) (now : Time)
    (d : Draws) (email password deviceName platform userAgent ip : String) {user : User}
    (hE : GetUserByEmail s.repo email = .ok user) (hb : user.BannedAt ≠ none) :
    s.Login CheckPassword now d email password deviceName platform userAgent ip =
      if user.IsActive then
        (.error .ErrBanned, { s with calls := s.calls ++ [.GetUserByEmail email],
                                     banReason := user.BanReason, banAt := user.BannedAt })
      else (.error .ErrInactive, { s with calls := s.calls ++ [.GetUserByEmail email] }) := by
  unfold Service.Login
  simp only [hE]
  cases hA : user.IsActive <;> simp [hb]

theorem adminLogin_banned (CheckPassword : Bytes → String → Bool) (s : Service) (now : Time)
    (newID : UUID) (raw : Option Bytes)
    (email password deviceName platform userAgent ip : String) {user : User}
    (hE : GetUserByEmail s.repo email = .ok user) (hb : user.BannedAt ≠ none) :
    adminauth.Login CheckPassword s now newID raw email password deviceName platform userAgent ip =
      if user.IsAdmin then
        (.error .ErrBanned, { s with calls := s.calls ++ [.GetUserByEmail email],
                                     banReason := user.BanReason, banAt := user.BannedAt })
      else (.error .ErrNotAdmin, { s with calls := s.calls ++ [.GetUserByEmail email] }) := by
  unfold adminauth.Login
  simp only [hE]
  cases hA : user.IsAdmin <;> simp [hb, Service.SetBanInfo]

/-- `VerifyEmail` for a banned user never returns tokens and never writes to the database. -/
theorem VerifyEmail_banned (s : Service) (now : Time) (d : Draws)
    (token code deviceName platform userAgent ip : String) {sess : adminauth.Session}
    {user : User} (hT : adminauth.GetByToken s.repo token = .ok sess)
    (hI : GetUserByID s.repo sess.UserID = .ok user) (hb : user.BannedAt ≠ none) :
    (∃ e, (adminauth.VerifyEmail s now d token code deviceName platform userAgent ip).1
        = .error e) ∧
    (adminauth.VerifyEmail s now d token code deviceName platform userAgent ip).2.repo = s.repo ∧
    (¬ sess.ExpiresAt < now → sess.TotpVerified = true → sess.EmailCode = code → code ≠ "" →
      (∃ e, sess.EmailExpires = some e ∧ ¬ e < now) →
      (adminauth.VerifyEmail s now d token code deviceName platform userAgent ip).1
        = .error .ErrBanned) := by
  unfold adminauth.VerifyEmail
  simp only [hT, hI]
  refine ⟨?_, ?_, ?_⟩
  · split
    · exact ⟨_, rfl⟩
    · split
      · exact ⟨_, rfl⟩
      · split
        · exact ⟨_, rfl⟩
        · split
          · exact ⟨_, rfl⟩
          · simp [hb]
  · split
    · rfl
    · split
      · rfl
      · split
        · rfl
        · split
          · rfl
          · simp [hb, Service.SetBanInfo]
  · rintro h1 h2 h3 h4 ⟨e, h5, h6⟩
    simp [h1, h2, h3, h4, h5, h6, hb]

/-- Counterexample to C8 as stated: a banned user whose account is not active gets
`ErrInactive`, not `ErrBanned`, from `Login`. -/
theorem login_of_banned_inactive_user :
    GetUserByEmail exBannedService.repo "bob@x.test" = .ok exBannedUser.toUser ∧
    exBannedUser.BannedAt ≠ none ∧
    (exBannedService.Login exCheckPassword 10 exDraws "bob@x.test" "pw" "pc" "linux" "ua"
      "ip").1 = .error .ErrInactive ∧
    (exBannedService.Login exCheckPassword 10 exDraws "bob@x.test" "pw" "pc" "linux" "ua"
      "ip").1 ≠ .error .ErrBanned := by
  decide

/-- C8, amended: for a user whose `banned_at` is set, `Login` fails with `ErrBanned` for every
password when the account is active (with `ErrInactive` when it is not); admin `Login` fails
with `ErrBanned` for every password when the user is an administrator (with `ErrNotAdmin` when
not); admin `VerifyEmail` fails with `ErrBanned` when the admin-auth session is unexpired and
TOTP-verified and the code equals its unexpired e-mail code; access validation fails with
`ErrBanned` for the access hash of an unrevoked, unexpired session of the user. -/
theorem banned_user_is_refused (CheckPassword : Bytes → String → Bool) (s : Service) (now : Time)
    (d : Draws) (newID : UUID) (raw : Option Bytes) (user : User)
    (email password token code deviceName platform userAgent ip : String)
    (hb : user.BannedAt ≠ none) :
    (GetUserByEmail s.repo email = .ok user →
      (s.Login CheckPassword now d email password deviceName platform userAgent ip).1 =
        if user.IsActive then .error .ErrBanned else .error .ErrInactive) ∧
    (GetUserByEmail s.repo email = .ok user →
      (adminauth.Login CheckPassword s now newID raw email password deviceName platform
        userAgent ip).1 = if user.IsAdmin then .error .ErrBanned else .error .ErrNotAdmin) ∧
    (∀ (sess : adminauth.Session) (e : Time), adminauth.GetByToken s.repo token = .ok sess →
      GetUserByID s.repo sess.UserID = .ok user → ¬ sess.ExpiresAt < now →
      sess.TotpVerified = true → sess.EmailCode = code → code ≠ "" →
      sess.EmailExpires = some e → ¬ e < now →
      (adminauth.VerifyEmail s now d token code deviceName platform userAgent ip).1
        = .error .ErrBanned) ∧
    (∀ x ∈ s.repo.sessions, AccessHashesUnique s.repo → GetUserByID s.repo x.UserID = .ok user →
      x.RevokedAt = none → now ≤ x.ExpiresAt →
      (AccessValidatorImpl.ValidateAccessToken s.repo now x.AccessTokenHash).2
        = some .ErrBanned) := by
  refine ⟨?_, ?_, ?_, ?_⟩
  · intro hE
    rw [Service.Login_banned CheckPassword s now d email password deviceName platform userAgent
      ip hE hb]
    split <;> rfl
  · intro hE
    rw [adminLogin_banned CheckPassword s now newID raw email password deviceName platform
      userAgent ip hE hb]
    split <;> rfl
  · intro sess e hT hI h1 h2 h3 h4 h5 h6
    exact (VerifyEmail_banned s now d token code deviceName platform userAgent ip hT hI hb).2.2
      h1 h2 h3 h4 ⟨e, h5, h6⟩
  · intro x hx hau hI hr he
    have hf := find_access_of_mem hx (fun z hz h => eq_of_accessHash hau hz hx h)
    rw [if_pos hr] at hf
    rw [AccessValidatorImpl.validate_of_some now hf hI]
    simp [not_lt.mpr he, hb]

set_option maxRecDepth 100000 in
theorem banned_user_is_refused_witness :
    exBannedAdmin.BannedAt ≠ none ∧
    (exBannedService.Login exCheckPassword 10 exDraws "root@x.test" "pw" "pc" "linux" "ua"
      "ip").1 = .error .ErrBanned ∧
    (adminauth.Login exCheckPassword exBannedService 10 13 (exRaw 9) "root@x.test" "pw" "pc"
      "linux" "ua" "ip").1 = .error .ErrBanned ∧
    (adminauth.VerifyEmail exBannedService 10 exDraws "S" "654321" "pc" "linux" "ua" "ip").1
      = .error .ErrBanned ∧
    (AccessValidatorImpl.ValidateAccessToken exBannedService.repo 10
      exBannedSession.AccessTokenHash).2 = some .ErrBanned :=
  have hb : exBannedAdmin.BannedAt ≠ none := by decide
  have h := banned_user_is_refused exCheckPassword exBannedService 10 exDraws 13 (exRaw 9)
    exBannedAdmin.toUser "root@x.test" "pw" "S" "654321" "pc" "linux" "ua" "ip" hb
  ⟨hb, h.1 (by decide), h.2.1 (by decide),
   h.2.2.1 (adminauth.Session.mk 6 9 "S" "totp_ok" true "654321" (some 600) 900) 600
     (by decide) (by decide) (by decide) (by decide) (by decide) (by decide) (by decide)
     (by decide),
   h.2.2.2 exBannedSession (by decide) (by decide) (by decide) (by decide) (by decide)⟩

set_option maxRecDepth 100000 in
/-- Counterexample to C9 as stated: `Refresh` presented with the current refresh token of a live
session of a banned user rotates the session and returns new tokens. -/
theorem refresh_of_banned_user_succeeds :
    exBannedSession ∈ exBannedService.repo.sessions ∧
    exBannedSession.RefreshTokenHash = sha256.Sum256 (bytesOf "RB") ∧
    exBannedSession.RevokedAt = none ∧ ¬ exBannedSession.ExpiresAt < 10 ∧
    GetUserByID exBannedService.repo exBannedSession.UserID = .ok exBannedAdmin.toUser ∧
    exBannedAdmin.BannedAt ≠ none ∧
    (exBannedService.Refresh 10 (exRaw 1) (exRaw 2) "RB" "ua" "ip").1
      = .ok (exToken 1, exToken 2) := by
  decide

set_option maxRecDepth 100000 in
/-- The ban check of `Verify` never fires on the PostgreSQL repository, whose query does not
read `banned_at`: a banned user holding a valid code is activated and receives tokens. -/
theorem verify_of_banned_user_succeeds :
    GetUserByEmail exBannedService.repo "bob@x.test" = .ok exBannedUser.toUser ∧
    exBannedUser.BannedAt ≠ none ∧
    (exBannedService.Verify 10 exDraws "bob@x.test" "123456" "pc" "linux" "ua" "ip").1
      = .ok (8, 11, exToken 7, exToken 8) := by
  decide

/-- C9, amended: for a user whose `banned_at` is set, `Login`, admin `VerifyEmail` and
`IssueSessionForUser` return no tokens and leave the database unchanged; `Refresh` makes no ban
check: presented with the current refresh token of an unrevoked, unexpired session of the user
it rotates that session and returns new tokens. -/
theorem banned_user_session_issuance (CheckPassword : Bytes → String → Bool) (s : Service)
    (now : Time) (d : Draws) (user : User) (rawAccess rawRefresh : Option Bytes)
    (email password token code refreshToken deviceName platform userAgent ip : String)
    (hb : user.BannedAt ≠ none) :
    (GetUserByEmail s.repo email = .ok user →
      (∃ e, (s.Login CheckPassword now d email password deviceName platform userAgent ip).1
        = .error e) ∧
      (s.Login CheckPassword now d email password deviceName platform userAgent ip).2.repo
        = s.repo) ∧
    (∀ sess : adminauth.Session, adminauth.GetByToken s.repo token = .ok sess →
      GetUserByID s.repo sess.UserID = .ok user →
      (∃ e, (adminauth.VerifyEmail s now d token code deviceName platform userAgent ip).1
        = .error e) ∧
      (adminauth.VerifyEmail s now d token code deviceName platform userAgent ip).2.repo
        = s.repo) ∧
    ((s.IssueSessionForUser now d user deviceName platform userAgent ip).1 = .error .ErrBanned ∧
      (s.IssueSessionForUser now d user deviceName platform userAgent ip).2.repo = s.repo) ∧
    (∀ (x : Session) (a r : Bytes),
      s.repo.sessions.find? (fun y =>
        decide (y.RefreshTokenHash = sha256.Sum256 (bytesOf refreshToken))) = some x →
      x.UserID = user.ID → x.RevokedAt = none → ¬ x.ExpiresAt < now →
      rawAccess = some a → rawRefresh = some r →
      (s.Refresh now rawAccess rawRefresh refreshToken userAgent ip).1
        = .ok (base64.RawURLEncoding a, base64.RawURLEncoding r) ∧
      (s.Refresh now rawAccess rawRefresh refreshToken userAgent ip).2.repo
        = UpdateSessionTokens s.repo now x.ID
            (sha256.Sum256 (bytesOf (base64.RawURLEncoding a)))
            (sha256.Sum256 (bytesOf (base64.RawURLEncoding r)))
            (now + s.config.RefreshTokenTTL)) := by
  refine ⟨?_, ?_, ?_, ?_⟩
  · intro hE
    rw [Service.Login_banned CheckPassword s now d email password deviceName platform userAgent
      ip hE hb]
    split
    · exact ⟨⟨_, rfl⟩, rfl⟩
    · exact ⟨⟨_, rfl⟩, rfl⟩
  · intro sess hT hI
    have h := VerifyEmail_banned s now d token code deviceName platform userAgent ip hT hI hb
    exact ⟨h.1, h.2.1⟩
  · simp [Service.IssueSessionForUser, hb]
  · intro x a r hf _ hr he hA hR
    rw [Service.Refresh_of_current hf]
    subst hA hR
    simp [hr, he]

set_option maxRecDepth 100000 in
theorem banned_user_session_issuance_witness :
    exBannedAdmin.BannedAt ≠ none ∧
    (exBannedService.Login exCheckPassword 10 exDraws "root@x.test" "pw" "pc" "linux" "ua"
      "ip").2.repo = exBannedService.repo ∧
    (adminauth.VerifyEmail exBannedService 10 exDraws "S" "654321" "pc" "linux" "ua" "ip").2.repo
      = exBannedService.repo ∧
    (exBannedService.IssueSessionForUser 10 exDraws exBannedAdmin.toUser "pc" "linux" "ua"
      "ip").1 = .error .ErrBanned ∧
    (exBannedService.Refresh 10 (exRaw 1) (exRaw 2) "RB" "ua" "ip").1
      = .ok (exToken 1, exToken 2) :=
  have hb : exBannedAdmin.BannedAt ≠ none := by decide
  have h := banned_user_session_issuance exCheckPassword exBannedService 10 exDraws
    exBannedAdmin.toUser (exRaw 1) (exRaw 2) "root@x.test" "pw" "S" "654321" "RB" "pc" "linux"
    "ua" "ip" hb
  ⟨hb, (h.1 (by decide)).2,
   (h.2.1 (adminauth.Session.mk 6 9 "S" "totp_ok" true "654321" (some 600) 900) (by decide)
     (by decide)).2,
   h.2.2.1.1,
   (h.2.2.2 exBannedSession (List.replicate 32 1) (List.replicate 32 2) (by decide) (by decide)
     (by decide) (by decide) rfl rfl).1⟩

end auth

/-! ## Direct dialogs (C10) -/

namespace dialogs

theorem GetOrCreateDirect_eq (st : Store) (now : Time) (newID a b : UUID) :
    GetOrCreateDirect st now newID a b =
      match st.dialogs.find? (isDirectOf st a b) with
      | some d => ((d.id, some .ErrDialogExist), st)
      | none => ((newID, none), (CreateDirect st now newID a b).2) := by
  unfold GetOrCreateDirect
  change (match st.dialogs.find? (isDirectOf st a b) with
      | some d => ((d.id, some Error.ErrDialogExist), st)
      | none => (((CreateDirect st now newID a b).1, none), (CreateDirect st now newID a b).2))
    = _
  cases st.dialogs.find? (isDirectOf st a b) <;> rfl

theorem isDirectOf_comm (st : Store) (a b : UUID) : isDirectOf st a b = isDirectOf st b a := by
  funext d
  simp only [isDirectOf, Bool.and_assoc]
  rw [Bool.and_comm (CheckMember st d.id a)]

/-- What `Service.CreateDirect` does once the peer is resolved and valid. -/
theorem Service.CreateDirect_eq (Parse : String → Option UUID) (s : Service) (now : Time)
    (newID cur peer : UUID) (target : String)
    (hp : resolvePeer Parse s.userFetcher target = .ok peer) (h0 : peer ≠ 0)
    (hne : peer ≠ cur) :
    s.CreateDirect Parse now newID cur target =
      match s.repo.dialogs.find? (isDirectOf s.repo cur peer) with
      | some d => (.ok d.id, s)
      | none =>
        (.ok newID, { s with repo := (dialogs.CreateDirect s.repo now newID cur peer).2 }) := by
  unfold Service.CreateDirect
  simp only [hp, h0, hne, or_self, if_false, GetOrCreateDirect_eq]
  cases s.repo.dialogs.find? (isDirectOf s.repo cur peer) <;> simp

theorem CheckMember_iff (st : Store) (d u : UUID) :
    CheckMember st d u = true ↔ ∃ m ∈ st.dialog_members, m.dialog_id = d ∧ m.user_id = u := by
  simp [CheckMember]

/-- Membership after a creation with a fresh identifier. -/
theorem CheckMember_CreateDirect (st : Store) (now : Time) (newID a b : UUID)
    (hown : ∀ m ∈ st.dialog_members, ∃ d ∈ st.dialogs, d.id = m.dialog_id)
    (hfresh : ∀ d ∈ st.dialogs, d.id ≠ newID) (d u : UUID) :
    CheckMember (CreateDirect st now newID a b).2 d u = true ↔
      (d ≠ newID ∧ CheckMember st d u = true) ∨ (d = newID ∧ (u = a ∨ u = b)) := by
  simp only [CheckMember_iff, CreateDirect, List.mem_append, List.mem_cons, List.mem_singleton,
    List.not_mem_nil, or_false]
  constructor
  · rintro ⟨m, (hm | rfl | rfl), h1, h2⟩
    · left
      refine ⟨?_, m, hm, h1, h2⟩
      obtain ⟨x, hx, hxm⟩ := hown m hm
      rw [← h1, ← hxm]
      exact hfresh x hx
    · right; exact ⟨h1.symm, Or.inl h2.symm⟩
    · right; exact ⟨h1.symm, Or.inr h2.symm⟩
  · rintro (⟨-, m, hm, h1, h2⟩ | ⟨rfl, (rfl | rfl)⟩)
    · exact ⟨m, Or.inl hm, h1, h2⟩
    · exact ⟨_, Or.inr (Or.inl rfl), rfl, rfl⟩
    · exact ⟨_, Or.inr (Or.inr rfl), rfl, rfl⟩

theorem CheckMember_congr {st st' : Store} (h : st'.dialog_members = st.dialog_members)
    (d u : UUID) : CheckMember st' d u = CheckMember st d u := by
  simp [CheckMember, h]

theorem DirectInvariant_empty : DirectInvariant Store.empty :=
  ⟨List.nodup_nil, fun _ h => absurd h (List.not_mem_nil _),
   fun _ h => absurd h (List.not_mem_nil _), fun _ h => absurd h (List.not_mem_nil _)⟩

theorem DirectInvariant_congr {st st' : Store} (hd : st'.dialogs = st.dialogs)
    (hm : st'.dialog_members = st.dialog_members) (h : DirectInvariant st) :
    DirectInvariant st' := by
  refine ⟨by rw [hd]; exact h.ids, by rw [hd, hm]; exact h.owned, by rw [hd]; exact h.direct, ?_⟩
  intro d1 h1 d2 h2 a b hab
  simp only [CheckMember_congr hm]
  rw [hd] at h1 h2
  exact h.unique d1 h1 d2 h2 a b hab

theorem find_isDirectOf_none {st : Store} {a b : UUID}
    (hf : st.dialogs.find? (isDirectOf st a b) = none) (hdir : ∀ d ∈ st.dialogs, d.kind = "direct")
    {d : DialogRow} (hd : d ∈ st.dialogs) (ha : CheckMember st d.id a = true)
    (hb : CheckMember st d.id b = true) : False := by
  have := List.find?_eq_none.mp hf d hd
  simp [isDirectOf, hdir d hd, ha, hb] at this

theorem DirectInvariant_CreateDirect {st : Store} (h : DirectInvariant st) (now : Time)
    (newID a b : UUID) (hfresh : ∀ d ∈ st.dialogs, d.id ≠ newID) (hab : a ≠ b)
    (hf : st.dialogs.find? (isDirectOf st a b) = none) :
    DirectInvariant (CreateDirect st now newID a b).2 := by
  have hmem : ∀ d ∈ (CreateDirect st now newID a b).2.dialogs,
      (d ∈ st.dialogs ∧ d.id ≠ newID) ∨ d = directRow now newID := by
    intro d hd
    simp only [CreateDirect, List.mem_append, List.mem_singleton] at hd
    rcases hd with hd | hd
    · exact Or.inl ⟨hd, hfresh d hd⟩
    · exact Or.inr hd
  refine ⟨?_, ?_, ?_, ?_⟩
  · simp only [CreateDirect, List.map_append, List.map_cons, List.map_nil]
    rw [List.nodup_append]
    refine ⟨h.ids, List.nodup_singleton _, ?_⟩
    intro x hx hx'
    rcases List.mem_map.mp hx with ⟨d, hd, rfl⟩
    exact hfresh d hd (List.mem_singleton.mp hx')
  · intro m hm
    simp only [CreateDirect, List.mem_append, List.mem_cons, List.mem_singleton,
      List.not_mem_nil, or_false] at hm ⊢
    rcases hm with hm | rfl | rfl
    · obtain ⟨d, hd, hdm⟩ := h.owned m hm
      exact ⟨d, Or.inl hd, hdm⟩
    · exact ⟨_, Or.inr rfl, rfl⟩
    · exact ⟨_, Or.inr rfl, rfl⟩
  · intro d hd
    rcases hmem d hd with ⟨hd, -⟩ | rfl
    · exact h.direct d hd
    · rfl
  · intro d1 h1 d2 h2 x y hxy
    simp only [CheckMember_CreateDirect st now newID a b h.owned hfresh]
    rcases hmem d1 h1 with ⟨g1, n1⟩ | rfl <;> rcases hmem d2 h2 with ⟨g2, n2⟩ | rfl
    · intro c1 c2 c3 c4
      have e1 : CheckMember st d1.id x = true := by
        rcases c1 with ⟨-, c⟩ | ⟨c, -⟩
        · exact c
        · exact absurd c n1
      have e2 : CheckMember st d1.id y = true := by
        rcases c2 with ⟨-, c⟩ | ⟨c, -⟩
        · exact c
        · exact absurd c n1
      have e3 : CheckMember st d2.id x = true := by
        rcases c3 with ⟨-, c⟩ | ⟨c, -⟩
        · exact c
        · exact absurd c n2
      have e4 : CheckMember st d2.id y = true := by
        rcases c4 with ⟨-, c⟩ | ⟨c, -⟩
        · exact c
        · exact absurd c n2
      exact h.unique d1 g1 d2 g2 x y hxy e1 e2 e3 e4
    · intro c1 c2 c3 c4
      exfalso
      have e1 : CheckMember st d1.id x = true := by
        rcases c1 with ⟨-, c⟩ | ⟨c, -⟩
        · exact c
        · exact absurd c n1
      have e2 : CheckMember st d1.id y = true := by
        rcases c2 with ⟨-, c⟩ | ⟨c, -⟩
        · exact c
        · exact absurd c n1
      have f3 : x = a ∨ x = b := by
        rcases c3 with ⟨c, -⟩ | ⟨-, c⟩
        · exact absurd rfl c
        · exact c
      have f4 : y = a ∨ y = b := by
        rcases c4 with ⟨c, -⟩ | ⟨-, c⟩
        · exact absurd rfl c
        · exact c
      rcases f3 with rfl | rfl <;> rcases f4 with rfl | rfl
      · exact hxy rfl
      · exact find_isDirectOf_none hf h.direct g1 e1 e2
      · exact find_isDirectOf_none hf h.direct g1 e2 e1
      · exact hxy rfl
    · intro c1 c2 c3 c4
      exfalso
      have e3 : CheckMember st d2.id x = true := by
        rcases c3 with ⟨-, c⟩ | ⟨c, -⟩
        · exact c
        · exact absurd c n2
      have e4 : CheckMember st d2.id y = true := by
        rcases c4 with ⟨-, c⟩ | ⟨c, -⟩
        · exact c
        · exact absurd c n2
      have f1 : x = a ∨ x = b := by
        rcases c1 with ⟨c, -⟩ | ⟨-, c⟩
        · exact absurd rfl c
        · exact c
      have f2 : y = a ∨ y = b := by
        rcases c2 with ⟨c, -⟩ | ⟨-, c⟩
        · exact absurd rfl c
        · exact c
      rcases f1 with rfl | rfl <;> rcases f2 with rfl | rfl
      · exact hxy rfl
      · exact find_isDirectOf_none hf h.direct g2 e3 e4
      · exact find_isDirectOf_none hf h.direct g2 e4 e3
      · exact hxy rfl
    · intro _ _ _ _
      rfl

/-- `Service.CreateDirect` keeps the invariant when the identifier drawn is fresh. -/
theorem DirectInvariant_Service_CreateDirect (Parse : String → Option UUID) (s : Service)
    (now : Time) (newID cur : UUID) (target : String) (h : DirectInvariant s.repo)
    (hfresh : ∀ d ∈ s.repo.dialogs, d.id ≠ newID) :
    DirectInvariant (s.CreateDirect Parse now newID cur target).2.repo := by
  cases hp : resolvePeer Parse s.userFetcher target with
  | error e => simpa [Service.CreateDirect, hp] using h
  | ok peer =>
    by_cases hbad : peer = 0 ∨ peer = cur
    · simpa [Service.CreateDirect, hp, hbad] using h
    · have h0 : peer ≠ 0 := fun e => hbad (Or.inl e)
      have hne : peer ≠ cur := fun e => hbad (Or.inr e)
      rw [Service.CreateDirect_eq Parse s now newID cur peer target hp h0 hne]
      cases hf : s.repo.dialogs.find? (isDirectOf s.repo cur peer) with
      | some d => exact h
      | none => exact DirectInvariant_CreateDirect h now newID cur peer hfresh (Ne.symm hne) hf

theorem Service.SendMessage_tables (s : Service) (now : Time) (membersErr : Option Error)
    (publishErr : String → Option Error) (cur dialogID : UUID) (text : String) :
    (s.SendMessage now membersErr publishErr cur dialogID text).2.repo.dialogs = s.repo.dialogs ∧
    (s.SendMessage now membersErr publishErr cur dialogID text).2.repo.dialog_members
      = s.repo.dialog_members := by
  unfold Service.SendMessage
  simp only
  split
  · exact ⟨rfl, rfl⟩
  · split
    · split <;> exact ⟨rfl, rfl⟩
    · exact ⟨rfl, rfl⟩

theorem Service.MarkDelivered_tables (s : Service) (now : Time) (membersErr : Option Error)
    (publishErr : String → Option Error) (cur dialogID : UUID) (messageID : Int) :
    (s.MarkDelivered now membersErr publishErr cur dialogID messageID).2.repo.dialogs
      = s.repo.dialogs ∧
    (s.MarkDelivered now membersErr publishErr cur dialogID messageID).2.repo.dialog_members
      = s.repo.dialog_members := by
  unfold Service.MarkDelivered
  simp only
  split
  · exact ⟨rfl, rfl⟩
  · split
    · split <;> exact ⟨rfl, rfl⟩
    · exact ⟨rfl, rfl⟩

theorem Service.MarkRead_tables (s : Service) (now : Time) (membersErr : Option Error)
    (publishErr : String → Option Error) (cur dialogID : UUID) (messageID : Int) :
    (s.MarkRead now membersErr publishErr cur dialogID messageID).2.repo.dialogs
      = s.repo.dialogs ∧
    (s.MarkRead now membersErr publishErr cur dialogID messageID).2.repo.dialog_members
      = s.repo.dialog_members := by
  unfold Service.MarkRead
  simp only
  split
  · exact ⟨rfl, rfl⟩
  · split
    · split <;> exact ⟨rfl, rfl⟩
    · exact ⟨rfl, rfl⟩

/-- Every reachable database satisfies the invariant. -/
theorem Reachable.invariant {st : Store} (h : Reachable st) : DirectInvariant st := by
  induction h with
  | empty => exact DirectInvariant_empty
  | createDirect Parse s now newID cur target _ hfresh ih =>
    exact DirectInvariant_Service_CreateDirect Parse s now newID cur target ih hfresh
  | sendMessage s now membersErr publishErr cur dialogID text _ ih =>
    have := Service.SendMessage_tables s now membersErr publishErr cur dialogID text
    exact DirectInvariant_congr this.1 this.2 ih
  | markDelivered s now membersErr publishErr cur dialogID messageID _ ih =>
    have := Service.MarkDelivered_tables s now membersErr publishErr cur dialogID messageID
    exact DirectInvariant_congr this.1 this.2 ih
  | markRead s now membersErr publishErr cur dialogID messageID _ ih =>
    have := Service.MarkRead_tables s now membersErr publishErr cur dialogID messageID
    exact DirectInvariant_congr this.1 this.2 ih

/-- After a creation with a fresh identifier the lookup finds the new dialog. -/
theorem find_after_CreateDirect {st : Store} (h : DirectInvariant st) (now : Time)
    (newID a b : UUID) (hfresh : ∀ d ∈ st.dialogs, d.id ≠ newID)
    (hf : st.dialogs.find? (isDirectOf st a b) = none) :
    (CreateDirect st now newID a b).2.dialogs.find?
      (isDirectOf (CreateDirect st now newID a b).2 a b) = some (directRow now newID) := by
  have hnew : isDirectOf (CreateDirect st now newID a b).2 a b (directRow now newID) = true := by
    have ha := (CheckMember_CreateDirect st now newID a b h.owned hfresh newID a).mpr
      (Or.inr ⟨rfl, Or.inl rfl⟩)
    have hb := (CheckMember_CreateDirect st now newID a b h.owned hfresh newID b).mpr
      (Or.inr ⟨rfl, Or.inr rfl⟩)
    simp [isDirectOf, directRow, ha, hb]
  have hold : ∀ d ∈ st.dialogs, isDirectOf (CreateDirect st now newID a b).2 a b d = false := by
    intro d hd
    have hn := List.find?_eq_none.mp hf d hd
    have hne := hfresh d hd
    have e1 : CheckMember (CreateDirect st now newID a b).2 d.id a = CheckMember st d.id a := by
      rw [Bool.eq_iff_iff, CheckMember_CreateDirect st now newID a b h.owned hfresh]
      simp [hne]
    have e2 : CheckMember (CreateDirect st now newID a b).2 d.id b = CheckMember st d.id b := by
      rw [Bool.eq_iff_iff, CheckMember_CreateDirect st now newID a b h.owned hfresh]
      simp [hne]
    simp only [isDirectOf, e1, e2] at hn ⊢
    simpa using hn
  have hdl : (CreateDirect st now newID a b).2.dialogs = st.dialogs ++ [directRow now newID] :=
    rfl
  rw [hdl, List.find?_append]
  have : st.dialogs.find? (isDirectOf (CreateDirect st now newID a b).2 a b) = none := by
    rw [List.find?_eq_none]
    intro d hd
    simp [hold d hd]
  rw [this]
  simp [List.find?, hnew]

/-- Once a direct dialog of `A` and `B` exists, every further call in either order returns it
and changes nothing. -/
theorem runDirect_found (Parse : String → Option UUID) (s : Service) (A B : UUID) (hAB : A ≠ B)
    (hA0 : A ≠ 0) (hB0 : B ≠ 0) (d : DialogRow)
    (hf : s.repo.dialogs.find? (isDirectOf s.repo A B) = some d) (cs : List DirectCall)
    (hcs : ∀ c ∈ cs, IsCallBetween Parse s.userFetcher A B c) :
    runDirect Parse s cs = (List.replicate cs.length (.ok d.id), s) := by
  induction cs with
  | nil => rfl
  | cons c rest ih =>
    have hstep : s.CreateDirect Parse c.now c.newID c.currentUser c.target = (.ok d.id, s) := by
      rcases hcs c (List.mem_cons_self _ _) with ⟨hc, hp⟩ | ⟨hc, hp⟩
      · rw [hc, Service.CreateDirect_eq Parse s c.now c.newID A B c.target hp hB0 (Ne.symm hAB),
          hf]
      · rw [hc, Service.CreateDirect_eq Parse s c.now c.newID B A c.target hp hA0 hAB,
          isDirectOf_comm, hf]
    have ih' := ih (fun x hx => hcs x (List.mem_cons_of_mem _ hx))
    simp only [runDirect, hstep, ih', List.length_cons, List.replicate_succ]

theorem Members_after_CreateDirect {st : Store} (h : DirectInvariant st) (now : Time)
    (newID a b : UUID) (hfresh : ∀ d ∈ st.dialogs, d.id ≠ newID) :
    Members (CreateDirect st now newID a b).2 none newID = .ok [a, b] := by
  have hnone : st.dialog_members.filter (fun m => decide (m.dialog_id = newID)) = [] := by
    rw [List.filter_eq_nil_iff]
    intro m hm
    obtain ⟨d, hd, hdm⟩ := h.owned m hm
    simpa [← hdm] using hfresh d hd
  simp [Members, CreateDirect, List.filter_append, hnone]

/-- A creation with a fresh identifier leaves the members of every other dialog as they
were. -/
theorem Members_CreateDirect_other (st : Store) (now : Time) (newID a b d : UUID)
    (hd : d ≠ newID) :
    Members (CreateDirect st now newID a b).2 none d = Members st none d := by
  have hn : ¬ newID = d := fun e => hd e.symm
  simp [Members, CreateDirect, List.filter_append, List.filter, hn]

theorem TwoMembers_congr {st st' : Store} (hd : st'.dialogs = st.dialogs)
    (hm : st'.dialog_members = st.dialog_members) (h : TwoMembers st) : TwoMembers st' := by
  intro d hdm
  rw [hd] at hdm
  obtain ⟨a, b, hab, hmem⟩ := h d hdm
  refine ⟨a, b, hab, ?_⟩
  rw [← hmem]
  simp only [Members, hm]

/-- In every reachable database each dialog has exactly two members, two distinct users. -/
theorem Reachable.two_members {st : Store} (hr : Reachable st) : TwoMembers st := by
  induction hr with
  | empty => intro d hd; exact absurd hd (List.not_mem_nil _)
  | createDirect Parse s now newID cur target hreach hfresh ih =>
    have hinv := Reachable.invariant hreach
    cases hp : resolvePeer Parse s.userFetcher target with
    | error e => simpa [Service.CreateDirect, hp] using ih
    | ok peer =>
      by_cases hbad : peer = 0 ∨ peer = cur
      · simpa [Service.CreateDirect, hp, hbad] using ih
      · have h0 : peer ≠ 0 := fun e => hbad (Or.inl e)
        have hne : peer ≠ cur := fun e => hbad (Or.inr e)
        rw [Service.CreateDirect_eq Parse s now newID cur peer target hp h0 hne]
        cases hf : s.repo.dialogs.find? (isDirectOf s.repo cur peer) with
        | some d => exact ih
        | none =>
          intro d hd
          have hd' : d ∈ s.repo.dialogs ++ [directRow now newID] := hd
          rcases List.mem_append.mp hd' with hold | hnew
          · obtain ⟨a, b, hab, hmem⟩ := ih d hold
            refine ⟨a, b, hab, ?_⟩
            show Members (CreateDirect s.repo now newID cur peer).2 none d.id = _
            rw [Members_CreateDirect_other s.repo now newID cur peer d.id (hfresh d hold)]
            exact hmem
          · rw [List.mem_singleton.mp hnew]
            exact ⟨cur, peer, Ne.symm hne,
              Members_after_CreateDirect hinv now newID cur peer hfresh⟩
  | sendMessage s now membersErr publishErr cur dialogID text _ ih =>
    have := Service.SendMessage_tables s now membersErr publishErr cur dialogID text
    exact TwoMembers_congr this.1 this.2 ih
  | markDelivered s now membersErr publishErr cur dialogID messageID _ ih =>
    have := Service.MarkDelivered_tables s now membersErr publishErr cur dialogID messageID
    exact TwoMembers_congr this.1 this.2 ih
  | markRead s now membersErr publishErr cur dialogID messageID _ ih =>
    have := Service.MarkRead_tables s now membersErr publishErr cur dialogID messageID
    exact TwoMembers_congr this.1 this.2 ih

/-- A user the membership check accepts is in the list `Members` returns. -/
theorem mem_Members_of_CheckMember {st : Store} {d u : UUID} {l : List UUID}
    (hm : Members st none d = .ok l) (hc : CheckMember st d u = true) : u ∈ l := by
  obtain ⟨m, hmem, h1, h2⟩ := (CheckMember_iff st d u).mp hc
  have hl : l = (st.dialog_members.filter (fun m => decide (m.dialog_id = d))).map
      (fun m => m.user_id) := by
    have := hm
    simp only [Members] at this
    exact (Except.ok.inj this).symm
  rw [hl]
  exact List.mem_map.mpr ⟨m, List.mem_filter.mpr ⟨hmem, by simpa using h1⟩, h2⟩

/-- A dialog with exactly two members of which `A` and `B`, distinct, are two: its members are
`A` and `B`, in one order or the other. -/
theorem Members_pair {st : Store} {d A B : UUID} (hAB : A ≠ B)
    (h2 : ∃ a b : UUID, a ≠ b ∧ Members st none d = .ok [a, b])
    (hA : CheckMember st d A = true) (hB : CheckMember st d B = true) :
    Members st none d = .ok [A, B] ∨ Members st none d = .ok [B, A] := by
  obtain ⟨a, b, -, hm⟩ := h2
  have ha := mem_Members_of_CheckMember hm hA
  have hb := mem_Members_of_CheckMember hm hB
  simp only [List.mem_cons, List.mem_singleton, List.not_mem_nil, or_false] at ha hb
  rcases ha with rfl | rfl <;> rcases hb with rfl | rfl
  · exact absurd rfl hAB
  · exact Or.inl hm
  · exact Or.inr hm
  · exact absurd rfl hAB

/-- C10: from any database reached by the service operations, for two distinct non-nil users
`A` and `B`, the calls `CreateDirect(A, B)` and `CreateDirect(B, A)`, in any number and order,
all return the same dialog identifier `d`, and no call after the first changes the database.
When no direct dialog of the two users exists, the first call creates it: `d` is the freshly
drawn identifier, and the database gets one dialog row, of kind direct, and exactly the two
member rows of the caller and the peer.  When one exists, the first call returns its
identifier and changes nothing.  In the final database `d` is the identifier of a direct
dialog, `A` and `B` are its members and it has no other member, and it is the only dialog that
has both users as members. -/
theorem CreateDirect_idempotent (Parse : String → Option UUID) (s : Service) (A B : UUID)
    (c : DirectCall) (cs : List DirectCall) (hreach : Reachable s.repo) (hAB : A ≠ B)
    (hA0 : A ≠ 0) (hB0 : B ≠ 0)
    (hcalls : ∀ x ∈ c :: cs, IsCallBetween Parse s.userFetcher A B x)
    (hfresh : ∀ d ∈ s.repo.dialogs, d.id ≠ c.newID) :
    ∃ d : UUID,
      (runDirect Parse s (c :: cs)).1 = List.replicate (cs.length + 1) (.ok d) ∧
      (runDirect Parse s (c :: cs)).2.repo
        = (s.CreateDirect Parse c.now c.newID c.currentUser c.target).2.repo ∧
      (s.repo.dialogs.find? (isDirectOf s.repo A B) = none →
        d = c.newID ∧ ∃ peer, resolvePeer Parse s.userFetcher c.target = .ok peer ∧
          (s.CreateDirect Parse c.now c.newID c.currentUser c.target).2.repo
            = { s.repo with
                dialogs := s.repo.dialogs ++ [⟨c.newID, "direct", true, none, c.now, c.now⟩]
                dialog_members := s.repo.dialog_members ++
                  [⟨c.newID, c.currentUser, "member"⟩, ⟨c.newID, peer, "member"⟩] } ∧
          Members (s.CreateDirect Parse c.now c.newID c.currentUser c.target).2.repo none d
            = .ok [c.currentUser, peer]) ∧
      (∀ x, s.repo.dialogs.find? (isDirectOf s.repo A B) = some x →
        d = x.id ∧ (s.CreateDirect Parse c.now c.newID c.currentUser c.target).2.repo = s.repo) ∧
      (∃ row ∈ (runDirect Parse s (c :: cs)).2.repo.dialogs, row.id = d ∧ row.kind = "direct") ∧
      CheckMember (runDirect Parse s (c :: cs)).2.repo d A = true ∧
      CheckMember (runDirect Parse s (c :: cs)).2.repo d B = true ∧
      (Members (runDirect Parse s (c :: cs)).2.repo none d = .ok [A, B] ∨
        Members (runDirect Parse s (c :: cs)).2.repo none d = .ok [B, A]) ∧
      (∀ x ∈ (runDirect Parse s (c :: cs)).2.repo.dialogs,
        CheckMember (runDirect Parse s (c :: cs)).2.repo x.id A = true →
        CheckMember (runDirect Parse s (c :: cs)).2.repo x.id B = true → x.id = d) := by
  have hinv := hreach.invariant
  -- the first call, as a call of `cur` on `peer` with `{cur, peer} = {A, B}`
  obtain ⟨cur, peer, hcur, hp, hp0, hpne, hsame⟩ : ∃ cur peer, c.currentUser = cur ∧
      resolvePeer Parse s.userFetcher c.target = .ok peer ∧ peer ≠ 0 ∧ peer ≠ cur ∧
      isDirectOf s.repo cur peer = isDirectOf s.repo A B ∧
      ∀ st : Store, isDirectOf st cur peer = isDirectOf st A B := by
    rcases hcalls c (List.mem_cons_self _ _) with ⟨hc, hp⟩ | ⟨hc, hp⟩
    · exact ⟨A, B, hc, hp, hB0, Ne.symm hAB, rfl, fun _ => rfl⟩
    · exact ⟨B, A, hc, hp, hA0, hAB, isDirectOf_comm _ _ _, fun _ => isDirectOf_comm _ _ _⟩
  subst hcur
  have hstep := Service.CreateDirect_eq Parse s c.now c.newID c.currentUser peer c.target hp hp0
    hpne
  have hrest : ∀ x ∈ cs, IsCallBetween Parse s.userFetcher A B x :=
    fun x hx => hcalls x (List.mem_cons_of_mem _ hx)
  cases hf : s.repo.dialogs.find? (isDirectOf s.repo c.currentUser peer) with
  | some d =>
    rw [hf] at hstep
    have hfAB : s.repo.dialogs.find? (isDirectOf s.repo A B) = some d := by
      rw [← hsame.1]; exact hf
    have hrun := runDirect_found Parse s A B hAB hA0 hB0 d hfAB cs hrest
    have hfull : runDirect Parse s (c :: cs) = (List.replicate (cs.length + 1) (.ok d.id), s) := by
      simp only [runDirect, hstep, hrun, List.replicate_succ]
    have hd := auth.mem_of_find? hfAB
    have hdp : (d.kind = "direct" ∧ CheckMember s.repo d.id A = true) ∧
        CheckMember s.repo d.id B = true := by
      have := hd.2
      simpa only [isDirectOf, Bool.and_eq_true, decide_eq_true_eq] using this
    refine ⟨d.id, by rw [hfull], by rw [hfull, hstep], ?_, ?_, ?_, ?_, ?_, ?_, ?_⟩
    · intro hnone
      rw [hfAB] at hnone
      exact absurd hnone (by simp)
    · intro x hx
      rw [hfAB] at hx
      cases hx
      exact ⟨rfl, by rw [hstep]⟩
    · rw [hfull]
      exact ⟨d, hd.1, rfl, hdp.1.1⟩
    · rw [hfull]; exact hdp.1.2
    · rw [hfull]; exact hdp.2
    · rw [hfull]
      exact Members_pair hAB (hreach.two_members d hd.1) hdp.1.2 hdp.2
    · rw [hfull]
      intro x hx ha hb
      rw [hinv.unique x hx d hd.1 A B hAB ha hb hdp.1.2 hdp.2]
  | none =>
    rw [hf] at hstep
    have hfAB : s.repo.dialogs.find? (isDirectOf s.repo A B) = none := by
      rw [← hsame.1]; exact hf
    have hfr : ∀ d ∈ s.repo.dialogs, d.id ≠ c.newID := hfresh
    have hfind := find_after_CreateDirect hinv c.now c.newID c.currentUser peer hfr hf
    rw [hsame.2] at hfind
    have hinv1 := DirectInvariant_CreateDirect hinv c.now c.newID c.currentUser peer hfr
      (Ne.symm hpne) hf
    have hrun := runDirect_found Parse
      { s with repo := (dialogs.CreateDirect s.repo c.now c.newID c.currentUser peer).2 } A B
      hAB hA0 hB0 (directRow c.now c.newID) hfind cs hrest
    have hfull : runDirect Parse s (c :: cs) = (List.replicate (cs.length + 1) (.ok c.newID),
        { s with repo := (dialogs.CreateDirect s.repo c.now c.newID c.currentUser peer).2 }) := by
      simp only [runDirect, hstep, hrun, List.replicate_succ, directRow]
    have hd := auth.mem_of_find? hfind
    have hdp : ((directRow c.now c.newID).kind = "direct" ∧
        CheckMember (dialogs.CreateDirect s.repo c.now c.newID c.currentUser peer).2
          (directRow c.now c.newID).id A = true) ∧
        CheckMember (dialogs.CreateDirect s.repo c.now c.newID c.currentUser peer).2
          (directRow c.now c.newID).id B = true := by
      have := hd.2
      simpa only [isDirectOf, Bool.and_eq_true, decide_eq_true_eq] using this
    have hmem := Members_after_CreateDirect hinv c.now c.newID c.currentUser peer hfr
    refine ⟨c.newID, by rw [hfull], by rw [hfull, hstep], ?_, ?_, ?_, ?_, ?_, ?_, ?_⟩
    · intro _
      refine ⟨rfl, peer, hp, ?_, ?_⟩
      · rw [hstep]; rfl
      · rw [hstep]; exact hmem
    · intro x hx
      rw [hfAB] at hx
      exact absurd hx (by simp)
    · rw [hfull]
      exact ⟨directRow c.now c.newID, hd.1, rfl, rfl⟩
    · rw [hfull]; exact hdp.1.2
    · rw [hfull]; exact hdp.2
    · rw [hfull]
      exact Members_pair hAB ⟨c.currentUser, peer, Ne.symm hpne, hmem⟩ hdp.1.2 hdp.2
    · rw [hfull]
      intro x hx ha hb
      rw [hinv1.unique x hx _ hd.1 A B hAB ha hb hdp.1.2 hdp.2]
      rfl

/-- C10 on the example database, which holds the dialog 50 of users 3 and 4: the three calls
`CreateDirect(1, "2")`, `CreateDirect(2, "1")`, `CreateDirect(1, "2")` all return 100, the
identifier drawn by the first; the final database holds the direct dialog 100 with the
members 1 and 2, and is the database the first call left. -/
theorem CreateDirect_idempotent_witness :
    Reachable exDialogs.repo ∧ (1 : UUID) ≠ 2 ∧
    (∀ x ∈ (⟨1, "2", 10, 100⟩ : DirectCall) :: exCalls,
      IsCallBetween exParse exDialogs.userFetcher 1 2 x) ∧
    (∀ d ∈ exDialogs.repo.dialogs, d.id ≠ 100) ∧
    (runDirect exParse exDialogs (⟨1, "2", 10, 100⟩ :: exCalls)).1
      = [.ok 100, .ok 100, .ok 100] ∧
    (runDirect exParse exDialogs (⟨1, "2", 10, 100⟩ :: exCalls)).2.repo
      = (exDialogs.CreateDirect exParse 10 100 1 "2").2.repo ∧
    (∃ row ∈ (runDirect exParse exDialogs (⟨1, "2", 10, 100⟩ :: exCalls)).2.repo.dialogs,
      row.id = 100 ∧ row.kind = "direct") ∧
    (Members (runDirect exParse exDialogs (⟨1, "2", 10, 100⟩ :: exCalls)).2.repo none 100
        = .ok [1, 2] ∨
      Members (runDirect exParse exDialogs (⟨1, "2", 10, 100⟩ :: exCalls)).2.repo none 100
        = .ok [2, 1]) := by
  have hreach : Reachable exDialogs.repo :=
    Reachable.createDirect exParse exEmpty 1 50 3 "4" Reachable.empty (by decide)
  have hcalls : ∀ x ∈ (⟨1, "2", 10, 100⟩ : DirectCall) :: exCalls,
      IsCallBetween exParse exDialogs.userFetcher 1 2 x := by
    intro x hx
    simp only [exCalls, List.mem_cons, List.mem_singleton, List.not_mem_nil, or_false] at hx
    rcases hx with rfl | rfl | rfl
    · exact Or.inl ⟨rfl, by decide⟩
    · exact Or.inr ⟨rfl, by decide⟩
    · exact Or.inl ⟨rfl, by decide⟩
  have hfresh : ∀ d ∈ exDialogs.repo.dialogs, d.id ≠ 100 := by decide
  obtain ⟨d, h1, h2, hnone, -, hrow, -, -, hmem, -⟩ :=
    CreateDirect_idempotent exParse exDialogs 1 2 ⟨1, "2", 10, 100⟩
      exCalls hreach (by decide) (by decide) (by decide) hcalls hfresh
  have hd : d = 100 := (hnone (by decide)).1
  subst hd
  exact ⟨hreach, by decide, hcalls, hfresh, h1, h2, hrow, hmem⟩

end dialogs

/-! ## Access control of the dialog operations (C11) -/

namespace dialogs

/-- A user with no member row in the dialog fails the membership check. -/
theorem CheckMember_of_not_member (st : Store) (d u : UUID)
    (h : ∀ m ∈ st.dialog_members, ¬ (m.dialog_id = d ∧ m.user_id = u)) :
    CheckMember st d u = false := by
  cases hc : CheckMember st d u with
  | false => rfl
  | true =>
    obtain ⟨m, hm, hd⟩ := (CheckMember_iff st d u).1 hc
    exact absurd hd (h m hm)

/-- C11: for a user who has no member row in the dialog, `SendMessage`, `ListMessages`,
`MarkDelivered` and `MarkRead` each fail with `ErrForbidden` and leave the whole state of the
service as it was: no message and no receipt is written, and no event is published. -/
theorem non_member_is_forbidden (s : Service) (now : Time) (membersErr : Option Error)
    (publishErr : String → Option Error) (u dialogID : UUID) (text : String)
    (messageID limit before : Int)
    (hnot : ∀ m ∈ s.repo.dialog_members, ¬ (m.dialog_id = dialogID ∧ m.user_id = u)) :
    s.SendMessage now membersErr publishErr u dialogID text = (.error .ErrForbidden, s) ∧
    s.ListMessages u dialogID limit before = (.error .ErrForbidden, s) ∧
    s.MarkDelivered now membersErr publishErr u dialogID messageID = (some .ErrForbidden, s) ∧
    s.MarkRead now membersErr publishErr u dialogID messageID = (some .ErrForbidden, s) := by
  have hc := CheckMember_of_not_member s.repo dialogID u hnot
  refine ⟨?_, ?_, ?_, ?_⟩
  · simp [Service.SendMessage, hc]
  · simp [Service.ListMessages, hc]
  · simp [Service.MarkDelivered, hc]
  · simp [Service.MarkRead, hc]

/-- C11 on the example state: user 1, a member of dialog 60 only, is refused in dialog 50. -/
theorem non_member_is_forbidden_witness :
    (∀ m ∈ exTwoDialogs.repo.dialog_members, ¬ (m.dialog_id = 50 ∧ m.user_id = 1)) ∧
    exTwoDialogs.SendMessage 9 none noFault 1 50 "x" = (.error .ErrForbidden, exTwoDialogs) ∧
    exTwoDialogs.ListMessages 1 50 20 0 = (.error .ErrForbidden, exTwoDialogs) ∧
    exTwoDialogs.MarkDelivered 9 none noFault 1 50 1 = (some .ErrForbidden, exTwoDialogs) ∧
    exTwoDialogs.MarkRead 9 none noFault 1 50 1 = (some .ErrForbidden, exTwoDialogs) :=
  have h : ∀ m ∈ exTwoDialogs.repo.dialog_members, ¬ (m.dialog_id = 50 ∧ m.user_id = 1) := by
    decide
  ⟨h, non_member_is_forbidden exTwoDialogs 9 none noFault 1 50 "x" 1 20 0 h⟩

end dialogs

/-! ## Receipt idempotence (C12) -/

namespace dialogs

/-- After the insertion the table holds a receipt with the key. -/
theorem insertReceipt_has_key (rows : List ReceiptRow) (now : Time) (m : Int) (u : UUID) :
    (insertReceipt rows now m u).any (fun r => decide (receiptKey r = (m, u))) = true := by
  unfold insertReceipt
  split
  · assumption
  · simp [receiptKey]

/-- An insertion with a key the table already holds changes nothing. -/
theorem insertReceipt_of_key (rows : List ReceiptRow) (now : Time) (m : Int) (u : UUID)
    (h : rows.any (fun r => decide (receiptKey r = (m, u))) = true) :
    insertReceipt rows now m u = rows := by
  unfold insertReceipt
  rw [if_pos h]

/-- A second insertion with the same key changes nothing, whatever the instant. -/
theorem insertReceipt_idem (rows : List ReceiptRow) (now now2 : Time) (m : Int) (u : UUID) :
    insertReceipt (insertReceipt rows now m u) now2 m u = insertReceipt rows now m u :=
  insertReceipt_of_key _ now2 m u (insertReceipt_has_key rows now m u)

/-- The outcome and the tables of `MarkDelivered` for a member. -/
theorem Service.MarkDelivered_of_member (s : Service) (now : Time) (membersErr : Option Error)
    (publishErr : String → Option Error) (u dialogID : UUID) (messageID : Int)
    (hmem : CheckMember s.repo dialogID u = true) :
    (s.MarkDelivered now membersErr publishErr u dialogID messageID).1 = none ∧
    (s.MarkDelivered now membersErr publishErr u dialogID messageID).2.repo
      = dialogs.MarkDelivered s.repo now dialogID u messageID := by
  unfold Service.MarkDelivered
  simp only [hmem, Bool.not_true, Bool.false_eq_true, if_false]
  split
  · split <;> exact ⟨rfl, rfl⟩
  · exact ⟨rfl, rfl⟩

/-- The outcome and the tables of `MarkRead` for a member. -/
theorem Service.MarkRead_of_member (s : Service) (now : Time) (membersErr : Option Error)
    (publishErr : String → Option Error) (u dialogID : UUID) (messageID : Int)
    (hmem : CheckMember s.repo dialogID u = true) :
    (s.MarkRead now membersErr publishErr u dialogID messageID).1 = none ∧
    (s.MarkRead now membersErr publishErr u dialogID messageID).2.repo
      = dialogs.MarkRead s.repo now dialogID u messageID := by
  unfold Service.MarkRead
  simp only [hmem, Bool.not_true, Bool.false_eq_true, if_false]
  split
  · split <;> exact ⟨rfl, rfl⟩
  · exact ⟨rfl, rfl⟩

/-- A call of `MarkDelivered` by a member in a state that holds the receipt changes no
table. -/
theorem Service.MarkDelivered_of_receipt (s : Service) (now : Time) (membersErr : Option Error)
    (publishErr : String → Option Error) (u dialogID : UUID) (m : Int)
    (hmem : CheckMember s.repo dialogID u = true)
    (hkey : ∃ r ∈ s.repo.message_deliveries, receiptKey r = (m, u)) :
    (s.MarkDelivered now membersErr publishErr u dialogID m).1 = none ∧
    (s.MarkDelivered now membersErr publishErr u dialogID m).2.repo = s.repo := by
  obtain ⟨h1, h2⟩ := Service.MarkDelivered_of_member s now membersErr publishErr u dialogID m hmem
  refine ⟨h1, ?_⟩
  rw [h2]
  simp only [dialogs.MarkDelivered]
  rw [insertReceipt_of_key _ now m u (by simpa using hkey)]

/-- A call of `MarkRead` by a member in a state that holds the receipt changes no table. -/
theorem Service.MarkRead_of_receipt (s : Service) (now : Time) (membersErr : Option Error)
    (publishErr : String → Option Error) (u dialogID : UUID) (m : Int)
    (hmem : CheckMember s.repo dialogID u = true)
    (hkey : ∃ r ∈ s.repo.message_reads, receiptKey r = (m, u)) :
    (s.MarkRead now membersErr publishErr u dialogID m).1 = none ∧
    (s.MarkRead now membersErr publishErr u dialogID m).2.repo = s.repo := by
  obtain ⟨h1, h2⟩ := Service.MarkRead_of_member s now membersErr publishErr u dialogID m hmem
  refine ⟨h1, ?_⟩
  rw [h2]
  simp only [dialogs.MarkRead]
  rw [insertReceipt_of_key _ now m u (by simpa using hkey)]

/-- An insertion keeps every row of the table. -/
theorem mem_insertReceipt (rows : List ReceiptRow) (now : Time) (m : Int) (u : UUID)
    (r : ReceiptRow) (hr : r ∈ rows) : r ∈ insertReceipt rows now m u := by
  unfold insertReceipt
  split
  · exact hr
  · exact List.mem_append_left _ hr

/-- No service operation removes or changes a receipt: every row of the delivery set and of
the read set is still there after `CreateDirect`, `SendMessage`, `MarkDelivered` and
`MarkRead`, whoever calls them. -/
theorem receipts_persist (Parse : String → Option UUID) (s : Service) (now : Time)
    (newID : UUID) (membersErr : Option Error) (publishErr : String → Option Error)
    (cur dialogID : UUID) (target text : String) (messageID : Int) :
    (∀ r ∈ s.repo.message_deliveries,
      r ∈ (s.CreateDirect Parse now newID cur target).2.repo.message_deliveries ∧
      r ∈ (s.SendMessage now membersErr publishErr cur dialogID text).2.repo.message_deliveries ∧
      r ∈ (s.MarkDelivered now membersErr publishErr cur dialogID
        messageID).2.repo.message_deliveries ∧
      r ∈ (s.MarkRead now membersErr publishErr cur dialogID
        messageID).2.repo.message_deliveries) ∧
    (∀ r ∈ s.repo.message_reads,
      r ∈ (s.CreateDirect Parse now newID cur target).2.repo.message_reads ∧
      r ∈ (s.SendMessage now membersErr publishErr cur dialogID text).2.repo.message_reads ∧
      r ∈ (s.MarkDelivered now membersErr publishErr cur dialogID
        messageID).2.repo.message_reads ∧
      r ∈ (s.MarkRead now membersErr publishErr cur dialogID messageID).2.repo.message_reads) := by
  have hC : (s.CreateDirect Parse now newID cur target).2.repo.message_deliveries
        = s.repo.message_deliveries ∧
      (s.CreateDirect Parse now newID cur target).2.repo.message_reads
        = s.repo.message_reads := by
    unfold Service.CreateDirect GetOrCreateDirect dialogs.CreateDirect
    cases resolvePeer Parse s.userFetcher target with
    | error e => exact ⟨rfl, rfl⟩
    | ok peer =>
      simp only
      split
      · exact ⟨rfl, rfl⟩
      · cases s.repo.dialogs.find? (fun d => decide (d.kind = "direct") &&
            CheckMember s.repo d.id cur && CheckMember s.repo d.id peer) with
        | none => exact ⟨rfl, rfl⟩
        | some d => exact ⟨rfl, rfl⟩
  have hS : (s.SendMessage now membersErr publishErr cur dialogID text).2.repo.message_deliveries
        = s.repo.message_deliveries ∧
      (s.SendMessage now membersErr publishErr cur dialogID text).2.repo.message_reads
        = s.repo.message_reads := by
    unfold Service.SendMessage
    simp only
    split
    · exact ⟨rfl, rfl⟩
    · split
      · split <;> exact ⟨rfl, rfl⟩
      · exact ⟨rfl, rfl⟩
  have hD : (∀ r ∈ s.repo.message_deliveries, r ∈ (s.MarkDelivered now membersErr publishErr cur
        dialogID messageID).2.repo.message_deliveries) ∧
      (s.MarkDelivered now membersErr publishErr cur dialogID messageID).2.repo.message_reads
        = s.repo.message_reads := by
    unfold Service.MarkDelivered
    simp only
    split
    · exact ⟨fun r hr => hr, rfl⟩
    · split
      · split <;> exact ⟨fun r hr => mem_insertReceipt _ now messageID cur r hr, rfl⟩
      · exact ⟨fun r hr => mem_insertReceipt _ now messageID cur r hr, rfl⟩
  have hR : (s.MarkRead now membersErr publishErr cur dialogID
        messageID).2.repo.message_deliveries = s.repo.message_deliveries ∧
      (∀ r ∈ s.repo.message_reads, r ∈ (s.MarkRead now membersErr publishErr cur
        dialogID messageID).2.repo.message_reads) := by
    unfold Service.MarkRead
    simp only
    split
    · exact ⟨rfl, fun r hr => hr⟩
    · split
      · split <;> exact ⟨rfl, fun r hr => mem_insertReceipt _ now messageID cur r hr⟩
      · exact ⟨rfl, fun r hr => mem_insertReceipt _ now messageID cur r hr⟩
  constructor
  · intro r hr
    refine ⟨?_, ?_, hD.1 r hr, ?_⟩
    · rw [hC.1]; exact hr
    · rw [hS.1]; exact hr
    · rw [hR.1]; exact hr
  · intro r hr
    refine ⟨?_, ?_, ?_, hR.2 r hr⟩
    · rw [hC.2]; exact hr
    · rw [hS.2]; exact hr
    · rw [hD.2]; exact hr

/-- C12: for a member `u` of the dialog, `MarkDelivered(u, dialog, m)` succeeds and leaves a
receipt of `(m, u)` in the delivery set; and in every state that holds such a receipt and has
`u` as a member, so in every later state (no operation removes a receipt or a member), a
further `MarkDelivered(u, dialog, m)`, at whatever instant and whatever the publishing faults,
succeeds and changes no table, so the delivery set and the stored `delivered_at` of `(m, u)`
are unchanged.  The same holds for `MarkRead` and the read set. -/
theorem receipts_are_idempotent (s s2 : Service) (now now2 : Time)
    (membersErr membersErr2 : Option Error) (publishErr publishErr2 : String → Option Error)
    (u dialogID : UUID) (m : Int) (hmem : CheckMember s.repo dialogID u = true)
    (hmem2 : CheckMember s2.repo dialogID u = true) :
    ((s.MarkDelivered now membersErr publishErr u dialogID m).1 = none ∧
     (∃ r ∈ (s.MarkDelivered now membersErr publishErr u dialogID m).2.repo.message_deliveries,
        receiptKey r = (m, u)) ∧
     ((∃ r ∈ s2.repo.message_deliveries, receiptKey r = (m, u)) →
        (s2.MarkDelivered now2 membersErr2 publishErr2 u dialogID m).1 = none ∧
        (s2.MarkDelivered now2 membersErr2 publishErr2 u dialogID m).2.repo = s2.repo)) ∧
    ((s.MarkRead now membersErr publishErr u dialogID m).1 = none ∧
     (∃ r ∈ (s.MarkRead now membersErr publishErr u dialogID m).2.repo.message_reads,
        receiptKey r = (m, u)) ∧
     ((∃ r ∈ s2.repo.message_reads, receiptKey r = (m, u)) →
        (s2.MarkRead now2 membersErr2 publishErr2 u dialogID m).1 = none ∧
        (s2.MarkRead now2 membersErr2 publishErr2 u dialogID m).2.repo = s2.repo)) := by
  constructor
  · obtain ⟨h1, h2⟩ :=
      Service.MarkDelivered_of_member s now membersErr publishErr u dialogID m hmem
    refine ⟨h1, ?_, Service.MarkDelivered_of_receipt s2 now2 membersErr2 publishErr2 u dialogID m
      hmem2⟩
    rw [h2]
    simpa [dialogs.MarkDelivered] using insertReceipt_has_key s.repo.message_deliveries now m u
  · obtain ⟨h1, h2⟩ :=
      Service.MarkRead_of_member s now membersErr publishErr u dialogID m hmem
    refine ⟨h1, ?_, Service.MarkRead_of_receipt s2 now2 membersErr2 publishErr2 u dialogID m
      hmem2⟩
    rw [h2]
    simpa [dialogs.MarkRead] using insertReceipt_has_key s.repo.message_reads now m u

/-- C12 on the example state: user 4 marks message 1 of dialog 50 at instant 5 and again at
instant 8; the receipt of instant 5 stays. -/
theorem receipts_are_idempotent_witness :
    CheckMember exTwoDialogs.repo 50 4 = true ∧
    ((exTwoDialogs.MarkDelivered 5 none noFault 4 50 1).2.MarkDelivered
        8 none noFault 4 50 1).2.repo.message_deliveries = [⟨1, 4, 5⟩] ∧
    (exTwoDialogs.MarkDelivered 5 none noFault 4 50 1).1 = none :=
  have h : CheckMember exTwoDialogs.repo 50 4 = true := by decide
  have h2 : CheckMember (exTwoDialogs.MarkDelivered 5 none noFault 4 50 1).2.repo 50 4 = true := by
    decide
  have t := receipts_are_idempotent exTwoDialogs (exTwoDialogs.MarkDelivered 5 none noFault 4 50 1).2
    5 8 none none noFault noFault 4 50 1 h h2
  ⟨h, by rw [(t.1.2.2 (by decide)).2]; decide, t.1.1⟩

end dialogs

/-! ## Receipts and membership (C13) -/

namespace dialogs

/-- The example state with two dialogs is reached by service operations. -/
theorem exTwoDialogs_reachable : Reachable exTwoDialogs.repo := by
  have h0 : Reachable exEmpty.repo := Reachable.empty
  have h1 : Reachable exChat.repo :=
    Reachable.createDirect exParse exEmpty 1 50 3 "4" h0 (by decide)
  have h2 : Reachable (exChat.CreateDirect exParse 2 60 1 "2").2.repo :=
    Reachable.createDirect exParse exChat 2 60 1 "2" h1 (by decide)
  exact Reachable.sendMessage _ 3 none noFault 3 50 "hi" h2

/-- C13 (the code at the failing input): in the reached example state message 1 belongs to
dialog 50, of which user 1 is not a member; yet `MarkDelivered` and `MarkRead` called by user 1
with dialog 60, of which user 1 is a member, and message 1 succeed and insert the receipt
`(1, user 1)`, so the reached state breaks the receipt invariant: the membership check is on
the dialog named in the call, and the message is never checked to belong to it. -/
theorem receipt_for_message_of_foreign_dialog :
    (∃ msg ∈ exTwoDialogs.repo.messages, msg.id = 1 ∧ msg.dialog_id = 50) ∧
    CheckMember exTwoDialogs.repo 50 1 = false ∧
    (exTwoDialogs.MarkDelivered 5 none noFault 1 60 1).1 = none ∧
    (exTwoDialogs.MarkDelivered 5 none noFault 1 60 1).2.repo.message_deliveries
      = [⟨1, 1, 5⟩] ∧
    (exTwoDialogs.MarkRead 5 none noFault 1 60 1).1 = none ∧
    (exTwoDialogs.MarkRead 5 none noFault 1 60 1).2.repo.message_reads = [⟨1, 1, 5⟩] ∧
    Reachable (exTwoDialogs.MarkDelivered 5 none noFault 1 60 1).2.repo ∧
    ¬ ReceiptsOfMembers (exTwoDialogs.MarkDelivered 5 none noFault 1 60 1).2.repo ∧
    Reachable (exTwoDialogs.MarkRead 5 none noFault 1 60 1).2.repo ∧
    ¬ ReceiptsOfMembers (exTwoDialogs.MarkRead 5 none noFault 1 60 1).2.repo := by
  refine ⟨by decide, by decide, by decide, by decide, by decide, by decide,
    Reachable.markDelivered _ 5 none noFault 1 60 1 exTwoDialogs_reachable, ?_,
    Reachable.markRead _ 5 none noFault 1 60 1 exTwoDialogs_reachable, ?_⟩
  · intro h
    have := h ⟨1, 1, 5⟩ (by decide) ⟨1, 50, 3, bytesOf "hi", 3⟩ (by decide) rfl
    revert this
    decide
  · intro h
    have := h ⟨1, 1, 5⟩ (by decide) ⟨1, 50, 3, bytesOf "hi", 3⟩ (by decide) rfl
    revert this
    decide

end dialogs

/-! ## The fan-out of `message.new` (C14) -/

namespace auth

/-- The hexadecimal digits are pairwise distinct. -/
theorem hexDigit_inj : ∀ a < 16, ∀ b < 16,
    "0123456789abcdef".toList.getD a '0' = "0123456789abcdef".toList.getD b '0' → a = b := by
  decide

/-- Two numbers with the same `n` low hexadecimal digits agree modulo `16 ^ n`. -/
theorem mod_pow_eq_of_nibbles (u v : Nat) :
    ∀ n, (∀ k < n, u / 16 ^ k % 16 = v / 16 ^ k % 16) → u % 16 ^ n = v % 16 ^ n
  | 0, _ => by simp [Nat.mod_one]
  | n + 1, h => by
    rw [Nat.mod_pow_succ, Nat.mod_pow_succ, h n (Nat.lt_succ_self n),
      mod_pow_eq_of_nibbles u v n (fun k hk => h k (Nat.lt_succ_of_lt hk))]

/-- The digit of a value modulo 16 determines that value. -/
theorem hexDigit_mod_inj (a b : Nat)
    (h : "0123456789abcdef".toList.getD (a % 16) '0'
      = "0123456789abcdef".toList.getD (b % 16) '0') : a % 16 = b % 16 :=
  hexDigit_inj (a % 16) (Nat.mod_lt a (by norm_num)) (b % 16) (Nat.mod_lt b (by norm_num)) h

set_option maxRecDepth 10000 in
/-- Equal identifier strings have equal hexadecimal digits. -/
theorem uuidString_nibbles (u v : UUID) (h : uuidString u = uuidString v) :
    ∀ k < 32, u >>> (4 * k) % 16 = v >>> (4 * k) % 16 := by
  unfold uuidString at h
  have h2 := congrArg String.data h
  simp only [List.range, List.range.loop, List.map, List.cons_append,
    List.nil_append, List.cons.injEq, Nat.add_zero, Nat.zero_add, Nat.reduceAdd, Nat.reduceSub,
    Nat.reduceMul, true_and, and_true] at h2
  obtain ⟨g31, g30, g29, g28, g27, g26, g25, g24, g23, g22, g21, g20, g19, g18, g17, g16,
    g15, g14, g13, g12, g11, g10, g9, g8, g7, g6, g5, g4, g3, g2, g1, g0⟩ := h2
  intro k hk
  interval_cases k <;> simp only [Nat.reduceMul] <;> apply hexDigit_mod_inj <;> assumption

/-- Go `uuid.UUID.String` is injective on 128-bit values. -/
theorem uuidString_inj (u v : UUID) (hu : u < 2 ^ 128) (hv : v < 2 ^ 128)
    (h : uuidString u = uuidString v) : u = v := by
  have hn := uuidString_nibbles u v h
  have hm := mod_pow_eq_of_nibbles u v 32 (fun k hk => by
    have := hn k hk
    rwa [Nat.shiftRight_eq_div_pow, Nat.shiftRight_eq_div_pow, pow_mul] at this)
  have e : (16 : Nat) ^ 32 = 2 ^ 128 := by norm_num
  rw [e, Nat.mod_eq_of_lt hu, Nat.mod_eq_of_lt hv] at hm
  exact hm

end auth

namespace realtime

/-- Distinct 128-bit users have distinct channels. -/
theorem channelForUser_inj (u v : UUID) (hu : u < 2 ^ 128) (hv : v < 2 ^ 128)
    (h : channelForUser u = channelForUser v) : u = v := by
  unfold channelForUser at h
  have hd := congrArg String.data h
  rw [String.data_append, String.data_append] at hd
  exact auth.uuidString_inj u v hu hv (String.ext (List.append_cancel_left hd))

/-- The loop of `PublishMessage` when no publish call fails: one event for each member other
than the sender, in the order of the members. -/
theorem publishToOthers_ok (publishErr : String → Option Error) (payload : event)
    (sender : UUID) : ∀ (members : List UUID) (bus : Bus),
    (∀ m ∈ members, publishErr (channelForUser m) = none) →
    publishToOthers publishErr payload sender members bus
      = (none, bus ++ (members.filter (fun m => decide (m ≠ sender))).map
          (fun m => (channelForUser m, payload)))
  | [], bus, _ => by simp [publishToOthers]
  | m :: rest, bus, h => by
    have hm := h m (List.mem_cons_self m rest)
    have hrest : ∀ x ∈ rest, publishErr (channelForUser x) = none :=
      fun x hx => h x (List.mem_cons_of_mem m hx)
    unfold publishToOthers
    by_cases hs : m = sender
    · rw [if_pos hs, publishToOthers_ok publishErr payload sender rest bus hrest]
      simp [hs]
    · rw [if_neg hs]
      simp only [hm]
      rw [publishToOthers_ok publishErr payload sender rest _ hrest]
      simp [hs]

/-- The number of events on the channel of a 128-bit user among those sent to a list of
128-bit users is the number of times the user is in the list. -/
theorem count_channel (payload : event) (u : UUID) (hu : u < 2 ^ 128) :
    ∀ (l : List UUID), (∀ m ∈ l, m < 2 ^ 128) →
    ((l.map (fun m => (channelForUser m, payload))).map (fun e => e.1)).count (channelForUser u)
      = l.count u
  | [], _ => rfl
  | m :: rest, h => by
    have ih := count_channel payload u hu rest (fun x hx => h x (List.mem_cons_of_mem m hx))
    have hm := h m (List.mem_cons_self m rest)
    simp only [List.map_cons, List.count_cons, ih]
    by_cases e : m = u
    · simp [e]
    · have : channelForUser m ≠ channelForUser u :=
        fun hc => e (channelForUser_inj m u hm hu hc)
      simp [e, this]

end realtime

namespace dialogs

/-- C14 (as stated it fails): in the example state users 3 and 4 are the members of dialog 50
and a publisher is set.  `SendMessage` by user 3 returns the message without error, but no
event is published on the channel of user 4 when the publish call fails, and none when the
member query fails; nor is one published in the state without a publisher. -/
theorem send_succeeds_without_event :
    Members exChat.repo none 50 = .ok [3, 4] ∧
    (exChat.SendMessage 9 none (fun _ => some (.msg "redis: connection refused")) 3 50 "hi").1
      = .ok ⟨1, 3, 50, "hi", 9, false, false, false, false⟩ ∧
    (exChat.SendMessage 9 none (fun _ => some (.msg "redis: connection refused")) 3 50 "hi").2.bus
      = [] ∧
    (exChat.SendMessage 9 (some (.msg "timeout")) noFault 3 50 "hi").1
      = .ok ⟨1, 3, 50, "hi", 9, false, false, false, false⟩ ∧
    (exChat.SendMessage 9 (some (.msg "timeout")) noFault 3 50 "hi").2.bus = [] ∧
    exDialogs.publisher = false ∧
    (exDialogs.SendMessage 9 none noFault 3 50 "hi").1
      = .ok ⟨1, 3, 50, "hi", 9, false, false, false, false⟩ ∧
    (exDialogs.SendMessage 9 none noFault 3 50 "hi").2.bus = [] := by
  decide

/-- C14 (amended): `SendMessage` by a member `sender` of a dialog whose members are the list
`M` of distinct 128-bit users, on a service with a publisher, when the member query succeeds
and no publish call to a member fails: the message is returned, and what is published is one
`message.new` event carrying the message for each member other than the sender, so exactly one
event is on the channel `user:<m>` of each such member `m`, none is on `user:<sender>`, and
every event is on the channel of a member. -/
theorem message_new_fanout (s : Service) (now : Time) (publishErr : String → Option Error)
    (sender dialogID : UUID) (text : String) (M : List UUID)
    (hmem : CheckMember s.repo dialogID sender = true) (hpub : s.publisher = true)
    (hM : Members s.repo none dialogID = .ok M) (hnodup : M.Nodup)
    (h128 : sender < 2 ^ 128 ∧ ∀ m ∈ M, m < 2 ^ 128)
    (hnofail : ∀ m ∈ M, publishErr (realtime.channelForUser m) = none) :
    ∃ (msg : Message) (published : realtime.Bus),
      (s.SendMessage now none publishErr sender dialogID text).1 = .ok msg ∧
      (s.SendMessage now none publishErr sender dialogID text).2.bus = s.bus ++ published ∧
      published = (M.filter (fun m => decide (m ≠ sender))).map (fun m =>
        (realtime.channelForUser m,
          { Type_ := "message.new", DialogID := auth.uuidString dialogID, MessageID := msg.ID,
            SenderID := auth.uuidString sender, Text := text, CreatedAt := some msg.CreatedAt,
            UserID := "" })) ∧
      (∀ m ∈ M, m ≠ sender →
        (published.map (fun e => e.1)).count (realtime.channelForUser m) = 1) ∧
      (published.map (fun e => e.1)).count (realtime.channelForUser sender) = 0 ∧
      (∀ e ∈ published, ∃ m ∈ M, m ≠ sender ∧ e.1 = realtime.channelForUser m) := by
  have hM1 : Members (SaveMessage s.repo now dialogID sender text).2 none dialogID = .ok M := hM
  have hfilter : ∀ m ∈ M.filter (fun m => decide (m ≠ sender)), m < 2 ^ 128 :=
    fun m hm => h128.2 m (List.mem_of_mem_filter hm)
  refine ⟨⟨s.repo.message_seq + 1, sender, dialogID, text, now, false, false, false, false⟩,
    _, ?_, ?_, rfl, ?_, ?_, ?_⟩
  · unfold Service.SendMessage
    simp only [hmem, hpub, hM1, Bool.not_true, Bool.false_eq_true, if_false, if_true]
    rfl
  · unfold Service.SendMessage
    simp only [hmem, hpub, hM1, Bool.not_true, Bool.false_eq_true, if_false, if_true]
    simp only [realtime.PublishMessage]
    rw [realtime.publishToOthers_ok publishErr _ sender M _ hnofail]
    rfl
  · intro m hm hne
    rw [realtime.count_channel _ m (h128.2 m hm) _ hfilter]
    exact List.count_eq_one_of_mem (hnodup.filter _) (List.mem_filter.2 ⟨hm, by simpa using hne⟩)
  · rw [realtime.count_channel _ sender h128.1 _ hfilter]
    exact List.count_eq_zero_of_not_mem (by simp)
  · intro e he
    obtain ⟨m, hm, rfl⟩ := List.mem_map.1 he
    have := List.mem_filter.1 hm
    exact ⟨m, this.1, by simpa using this.2, rfl⟩

/-- C14 (amended) on the example state: user 3 sends `"hi"` in dialog 50. -/
theorem message_new_fanout_witness :
    CheckMember exChat.repo 50 3 = true ∧ exChat.publisher = true ∧
    Members exChat.repo none 50 = .ok [3, 4] ∧
    ∃ (msg : Message) (published : realtime.Bus),
      (exChat.SendMessage 9 none noFault 3 50 "hi").1 = .ok msg ∧
      (exChat.SendMessage 9 none noFault 3 50 "hi").2.bus = exChat.bus ++ published ∧
      published = ([3, 4].filter (fun m => decide (m ≠ 3))).map (fun m =>
        (realtime.channelForUser m,
          { Type_ := "message.new", DialogID := auth.uuidString 50, MessageID := msg.ID,
            SenderID := auth.uuidString 3, Text := "hi", CreatedAt := some msg.CreatedAt,
            UserID := "" })) ∧
      (∀ m ∈ [3, 4], m ≠ 3 →
        (published.map (fun e => e.1)).count (realtime.channelForUser m) = 1) ∧
      (published.map (fun e => e.1)).count (realtime.channelForUser 3) = 0 ∧
      (∀ e ∈ published, ∃ m ∈ [3, 4], m ≠ 3 ∧ e.1 = realtime.channelForUser m) :=
  ⟨by decide, rfl, by decide,
    message_new_fanout exChat 9 noFault 3 50 "hi" [3, 4] (by decide) rfl (by decide)
      (by decide) (by decide) (fun _ _ => rfl)⟩

/-- The users of the member rows of a dialog, as `Members` lists them. -/
theorem Members_ok (st : Store) (d : UUID) :
    Members st none d = .ok ((st.dialog_members.filter
      (fun m => decide (m.dialog_id = d))).map (fun m => m.user_id)) := rfl

/-- A creation with a fresh identifier keeps the members of every dialog distinct. -/
theorem members_nodup_CreateDirect (st : Store) (now : Time) (newID a b : UUID)
    (hown : ∀ m ∈ st.dialog_members, ∃ d ∈ st.dialogs, d.id = m.dialog_id)
    (hfresh : ∀ d ∈ st.dialogs, d.id ≠ newID) (hab : a ≠ b)
    (h : ∀ d, ((st.dialog_members.filter (fun m => decide (m.dialog_id = d))).map
      (fun m => m.user_id)).Nodup) (d : UUID) :
    (((CreateDirect st now newID a b).2.dialog_members.filter
      (fun m => decide (m.dialog_id = d))).map (fun m => m.user_id)).Nodup := by
  simp only [CreateDirect, List.filter_append, List.map_append]
  by_cases hd : newID = d
  · have hnil : st.dialog_members.filter (fun m => decide (m.dialog_id = d)) = [] := by
      rw [List.filter_eq_nil_iff]
      intro m hm
      obtain ⟨x, hx, hxm⟩ := hown m hm
      have := hfresh x hx
      simp only [decide_eq_true_eq]
      intro hmd
      exact this (by rw [hxm, hmd, hd])
    rw [hnil]
    simp [List.filter, hd, hab]
  · simp [List.filter, hd]
    exact h d

/-- In every reachable database the members of a dialog are distinct users. -/
theorem Reachable.members_nodup {st : Store} (hr : Reachable st) :
    ∀ d, ((st.dialog_members.filter (fun m => decide (m.dialog_id = d))).map
      (fun m => m.user_id)).Nodup := by
  induction hr with
  | empty => intro d; simp [Store.empty]
  | createDirect Parse s now newID cur target hreach hfresh ih =>
    have hinv := Reachable.invariant hreach
    cases hp : resolvePeer Parse s.userFetcher target with
    | error e => simpa [Service.CreateDirect, hp] using ih
    | ok peer =>
      by_cases hbad : peer = 0 ∨ peer = cur
      · simpa [Service.CreateDirect, hp, hbad] using ih
      · have h0 : peer ≠ 0 := fun e => hbad (Or.inl e)
        have hne : peer ≠ cur := fun e => hbad (Or.inr e)
        rw [Service.CreateDirect_eq Parse s now newID cur peer target hp h0 hne]
        cases hf : s.repo.dialogs.find? (isDirectOf s.repo cur peer) with
        | some d => exact ih
        | none =>
          exact members_nodup_CreateDirect s.repo now newID cur peer hinv.owned hfresh
            (Ne.symm hne) ih
  | sendMessage s now membersErr publishErr cur dialogID text _ ih =>
    rw [(Service.SendMessage_tables s now membersErr publishErr cur dialogID text).2]
    exact ih
  | markDelivered s now membersErr publishErr cur dialogID messageID _ ih =>
    rw [(Service.MarkDelivered_tables s now membersErr publishErr cur dialogID messageID).2]
    exact ih
  | markRead s now membersErr publishErr cur dialogID messageID _ ih =>
    rw [(Service.MarkRead_tables s now membersErr publishErr cur dialogID messageID).2]
    exact ih

end dialogs

/-! ## What `SendMessage` returns (C15) -/

namespace dialogs

/-- C15: for a member of the dialog, whatever the outcome of the member query and of the
publish calls and whether or not a publisher is set, `SendMessage` returns no error and the
message with the identifier and the creation time the store assigned in `SaveMessage` and
with the given dialog, sender and text; the tables are those `SaveMessage` left. -/
theorem send_returns_the_saved_message (s : Service) (now : Time) (membersErr : Option Error)
    (publishErr : String → Option Error) (sender dialogID : UUID) (text : String)
    (hmem : CheckMember s.repo dialogID sender = true) :
    (s.SendMessage now membersErr publishErr sender dialogID text).1
      = .ok { ID := (SaveMessage s.repo now dialogID sender text).1.fst,
              SenderID := sender, DialogID := dialogID, Text := text,
              CreatedAt := (SaveMessage s.repo now dialogID sender text).1.snd,
              DeliveredToMe := false, ReadByMe := false, DeliveredPeer := false,
              ReadPeer := false } ∧
    (s.SendMessage now membersErr publishErr sender dialogID text).2.repo
      = (SaveMessage s.repo now dialogID sender text).2 ∧
    (⟨(SaveMessage s.repo now dialogID sender text).1.fst, dialogID, sender, bytesOf text,
        (SaveMessage s.repo now dialogID sender text).1.snd⟩ : MessageRow)
      ∈ (s.SendMessage now membersErr publishErr sender dialogID text).2.repo.messages := by
  have key : (s.SendMessage now membersErr publishErr sender dialogID text).1
      = .ok { ID := (SaveMessage s.repo now dialogID sender text).1.fst,
              SenderID := sender, DialogID := dialogID, Text := text,
              CreatedAt := (SaveMessage s.repo now dialogID sender text).1.snd,
              DeliveredToMe := false, ReadByMe := false, DeliveredPeer := false,
              ReadPeer := false } ∧
    (s.SendMessage now membersErr publishErr sender dialogID text).2.repo
      = (SaveMessage s.repo now dialogID sender text).2 := by
    unfold Service.SendMessage
    simp only [hmem, Bool.not_true, Bool.false_eq_true, if_false]
    split
    · split <;> exact ⟨rfl, rfl⟩
    · exact ⟨rfl, rfl⟩
  refine ⟨key.1, key.2, ?_⟩
  rw [key.2]
  simp [SaveMessage]

/-- C15 on the example state: user 3 sends `"hi"` in dialog 50 while the member query
fails. -/
theorem send_returns_the_saved_message_witness :
    CheckMember exChat.repo 50 3 = true ∧
    (exChat.SendMessage 9 (some (.msg "timeout")) noFault 3 50 "hi").1
      = .ok ⟨1, 3, 50, "hi", 9, false, false, false, false⟩ :=
  have h : CheckMember exChat.repo 50 3 = true := by decide
  ⟨h, (send_returns_the_saved_message exChat 9 (some (.msg "timeout")) noFault 3 50 "hi" h).1⟩

end dialogs

/-! ## The admin flow (C16, C17, C18) -/

namespace adminauth

/-- C16: for the admin-auth session `sess` that the token resolves to.  Unexpired with
`totp_verified = false`: `VerifyEmail` fails with `ErrInvalidStep` for every code, the state
unchanged.  Unexpired with a user that has no TOTP secret: `VerifyTOTP` fails with
`ErrInvalidStep` for every code, the database unchanged.  With `expires_at` passed: `InitTOTP`,
`VerifyTOTP` and `VerifyEmail` all fail with `ErrSessionExpired`, the state unchanged.  So none
of these failing calls changes the session or issues tokens. -/
theorem admin_step_out_of_order_fails (Validate : String → String → Bool)
    (mailer : Option (String → String → Option Error)) (s : auth.Service) (now : Time)
    (d : auth.Draws) (raw : Option Bytes) (rawCode : Bytes)
    (token code deviceName platform userAgent ip : String) (sess : Session)
    (hs : GetByToken s.repo token = .ok sess) :
    (¬ sess.ExpiresAt < now → sess.TotpVerified = false →
      VerifyEmail s now d token code deviceName platform userAgent ip
        = (.error .ErrInvalidStep, s)) ∧
    (¬ sess.ExpiresAt < now → ∀ user : auth.User,
      auth.GetUserByID s.repo sess.UserID = .ok user →
      (user.AdminTOTPSecret = none ∨ user.AdminTOTPSecret = some "") →
      (VerifyTOTP Validate mailer s now rawCode token code).1 = .error .ErrInvalidStep ∧
      (VerifyTOTP Validate mailer s now rawCode token code).2.repo = s.repo) ∧
    (sess.ExpiresAt < now →
      InitTOTP s now raw token = (.error .ErrSessionExpired, s) ∧
      VerifyTOTP Validate mailer s now rawCode token code = (.error .ErrSessionExpired, s) ∧
      VerifyEmail s now d token code deviceName platform userAgent ip
        = (.error .ErrSessionExpired, s)) := by
  refine ⟨?_, ?_, ?_⟩
  · intro hexp hv
    unfold VerifyEmail
    simp only [hs, if_neg hexp, hv, Bool.not_false, if_true]
  · intro hexp user hu hno
    constructor <;> (unfold VerifyTOTP; simp only [hs, if_neg hexp, hu, if_pos hno])
  · intro hexp
    refine ⟨?_, ?_, ?_⟩
    · unfold InitTOTP
      simp only [hs, if_pos hexp]
    · unfold VerifyTOTP
      simp only [hs, if_pos hexp]
    · unfold VerifyEmail
      simp only [hs, if_pos hexp]

set_option maxRecDepth 100000 in
/-- C16 on the example state after `Login`: the session is not TOTP-verified and the
administrator has no secret; `exLate` is after the end of the session. -/
theorem admin_step_out_of_order_fails_witness :
    (∃ sess, GetByToken exAdminLoggedIn.repo (auth.exToken 5) = .ok sess ∧
      sess.TotpVerified = false ∧ ¬ sess.ExpiresAt < 300 ∧ sess.ExpiresAt < exLate) ∧
    VerifyEmail exAdminLoggedIn 300 auth.exDraws (auth.exToken 5) "233560" "" "" "ua" "ip"
      = (.error .ErrInvalidStep, exAdminLoggedIn) ∧
    (VerifyTOTP exValidate none exAdminLoggedIn 300 [1, 2, 3] (auth.exToken 5) "111111").1
      = .error .ErrInvalidStep ∧
    InitTOTP exAdminLoggedIn exLate (some [1, 2, 3, 4, 5, 6, 7, 8, 9, 10]) (auth.exToken 5)
      = (.error .ErrSessionExpired, exAdminLoggedIn) :=
  have hs : GetByToken exAdminLoggedIn.repo (auth.exToken 5)
      = .ok ⟨21, 5, auth.exToken 5, "password_ok", false, "", none, 900000000100⟩ := by decide
  have hu : auth.GetUserByID exAdminLoggedIn.repo 5 = .ok exAdmin.toUser := by decide
  ⟨⟨_, hs, rfl, by decide, by decide⟩,
   (admin_step_out_of_order_fails exValidate none exAdminLoggedIn 300 auth.exDraws
      (some [1, 2, 3, 4, 5, 6, 7, 8, 9, 10]) [1, 2, 3] (auth.exToken 5) "233560" "" "" "ua" "ip"
      _ hs).1 (by decide) rfl,
   ((admin_step_out_of_order_fails exValidate none exAdminLoggedIn 300 auth.exDraws
      (some [1, 2, 3, 4, 5, 6, 7, 8, 9, 10]) [1, 2, 3] (auth.exToken 5) "111111" "" "" "ua" "ip"
      _ hs).2.1 (by decide) exAdmin.toUser hu (Or.inl rfl)).1,
   ((admin_step_out_of_order_fails exValidate none exAdminLoggedIn exLate auth.exDraws
      (some [1, 2, 3, 4, 5, 6, 7, 8, 9, 10]) [1, 2, 3] (auth.exToken 5) "111111" "" "" "ua" "ip"
      _ hs).2.2 (by decide)).1⟩

/-- The admin `Login` writes the admin-auth table only: at most one new row, not yet
TOTP-verified. -/
theorem Login_tables (CheckPassword : Bytes → String → Bool) (s : auth.Service) (now : Time)
    (newID : UUID) (raw : Option Bytes)
    (email password deviceName platform userAgent ip : String) :
    (Login CheckPassword s now newID raw email password deviceName platform userAgent
      ip).2.repo.sessions = s.repo.sessions ∧
    ∀ r ∈ (Login CheckPassword s now newID raw email password deviceName platform userAgent
      ip).2.repo.admin_auth_sessions, r.totp_verified = true → r ∈ s.repo.admin_auth_sessions := by
  unfold Login
  cases hu : auth.GetUserByEmail s.repo email with
  | error err => exact ⟨rfl, fun r hr _ => hr⟩
  | ok user =>
    simp only
    by_cases h1 : (!user.IsAdmin) = true
    · rw [if_pos h1]; exact ⟨rfl, fun r hr _ => hr⟩
    · rw [if_neg h1]
      by_cases h2 : user.BannedAt ≠ none
      · rw [if_pos h2]; exact ⟨rfl, fun r hr _ => hr⟩
      · rw [if_neg h2]
        by_cases h3 : (!CheckPassword user.PasswordHash password) = true
        · rw [if_pos h3]; exact ⟨rfl, fun r hr _ => hr⟩
        · rw [if_neg h3]
          have hc : ∀ (db : DB) (ttl : Duration),
              (CreateSession db now newID raw user.ID ttl).2.sessions = db.sessions ∧
              ∀ r ∈ (CreateSession db now newID raw user.ID ttl).2.admin_auth_sessions,
                r.totp_verified = true → r ∈ db.admin_auth_sessions := by
            intro db ttl
            unfold CreateSession
            cases security.GenerateOpaqueToken raw with
            | error err => exact ⟨rfl, fun r hr _ => hr⟩
            | ok p =>
              refine ⟨rfl, fun r hr ht => ?_⟩
              simp only [List.mem_append, List.mem_singleton] at hr
              rcases hr with hr | hr
              · exact hr
              · rw [hr] at ht; cases ht
          have hc1 := hc s.repo (15 * 60 * 1000000000)
          split <;> exact hc1

/-- `InitTOTP` writes the user table only. -/
theorem InitTOTP_tables (s : auth.Service) (now : Time) (raw : Option Bytes) (token : String) :
    (InitTOTP s now raw token).2.repo.sessions = s.repo.sessions ∧
    (InitTOTP s now raw token).2.repo.admin_auth_sessions = s.repo.admin_auth_sessions := by
  unfold InitTOTP
  cases GetByToken s.repo token with
  | error err => exact ⟨rfl, rfl⟩
  | ok sess =>
    simp only
    split
    · exact ⟨rfl, rfl⟩
    · cases auth.GetUserByID s.repo sess.UserID with
      | error err => exact ⟨rfl, rfl⟩
      | ok user =>
        simp only
        split
        · exact ⟨rfl, rfl⟩
        · cases raw <;> exact ⟨rfl, rfl⟩

/-- `VerifyTOTP` writes the admin-auth table only; it either fails and leaves the database as
it was, or the code passed `totp.Validate` against the secret of the user of the unexpired
session, the rows of the token are marked and hold the new e-mail code. -/
theorem VerifyTOTP_tables (Validate : String → String → Bool)
    (mailer : Option (String → String → Option Error)) (s : auth.Service) (now : Time)
    (rawCode : Bytes) (token code : String) :
    (VerifyTOTP Validate mailer s now rawCode token code).2.repo.sessions = s.repo.sessions ∧
    ((VerifyTOTP Validate mailer s now rawCode token code).2.repo = s.repo ∨
     ∃ sess user, GetByToken s.repo token = .ok sess ∧ ¬ sess.ExpiresAt < now ∧
       auth.GetUserByID s.repo sess.UserID = .ok user ∧
       Validate code (user.AdminTOTPSecret.getD "") = true ∧
       (VerifyTOTP Validate mailer s now rawCode token code).1 = .ok "email_code_sent" ∧
       (VerifyTOTP Validate mailer s now rawCode token code).2.repo
         = SetEmailCode (MarkTotpVerified s.repo token) token (generateCode rawCode)
             (now + 10 * 60 * 1000000000)) := by
  unfold VerifyTOTP
  cases hg : GetByToken s.repo token with
  | error err => exact ⟨rfl, Or.inl rfl⟩
  | ok sess =>
    simp only
    by_cases h1 : sess.ExpiresAt < now
    · rw [if_pos h1]; exact ⟨rfl, Or.inl rfl⟩
    · rw [if_neg h1]
      cases hu : auth.GetUserByID s.repo sess.UserID with
      | error err => exact ⟨rfl, Or.inl rfl⟩
      | ok user =>
        simp only
        by_cases h2 : user.AdminTOTPSecret = none ∨ user.AdminTOTPSecret = some ""
        · rw [if_pos h2]; exact ⟨rfl, Or.inl rfl⟩
        · rw [if_neg h2]
          by_cases h3 : (!Validate code (user.AdminTOTPSecret.getD "")) = true
          · rw [if_pos h3]; exact ⟨rfl, Or.inl rfl⟩
          · rw [if_neg h3]
            refine ⟨rfl, Or.inr ⟨sess, user, rfl, h1, hu, ?_, rfl, rfl⟩⟩
            simpa using h3

/-- Issuing a session leaves the admin-auth table alone. -/
theorem issueSession_admin_table (s : auth.Service) (now : Time) (d : auth.Draws)
    (user : auth.User) (deviceName platform userAgent ip : String) :
    (s.issueSession now d user deviceName platform userAgent ip).2.repo.admin_auth_sessions
      = s.repo.admin_auth_sessions := by
  unfold auth.Service.issueSession
  simp only
  cases security.GenerateOpaqueToken d.rawAccess with
  | error err => rfl
  | ok p =>
    cases security.GenerateOpaqueToken d.rawRefresh with
    | error err => rfl
    | ok q => rfl

/-- `VerifyEmail` adds no row to the admin-auth table and changes none. -/
theorem VerifyEmail_admin_table (s : auth.Service) (now : Time) (d : auth.Draws)
    (token code deviceName platform userAgent ip : String) :
    ∀ r ∈ (VerifyEmail s now d token code deviceName platform userAgent
      ip).2.repo.admin_auth_sessions, r ∈ s.repo.admin_auth_sessions := by
  unfold VerifyEmail
  cases hg : GetByToken s.repo token with
  | error err => exact fun r hr => hr
  | ok sess =>
    simp only
    split
    · exact fun r hr => hr
    · split
      · exact fun r hr => hr
      · split
        · exact fun r hr => hr
        · split
          · exact fun r hr => hr
          · cases hu : auth.GetUserByID s.repo sess.UserID with
            | error err => exact fun r hr => hr
            | ok user =>
              simp only
              split
              · exact fun r hr => hr
              · rename_i hnb
                have hI : ∀ s1 : auth.Service,
                    (s1.IssueSessionForUser now d user deviceName platform userAgent
                      ip).2.repo.admin_auth_sessions = s1.repo.admin_auth_sessions := by
                  intro s1
                  unfold auth.Service.IssueSessionForUser
                  rw [if_neg hnb]
                  exact issueSession_admin_table s1 now d user deviceName platform userAgent ip
                split
                · intro r hr
                  rw [hI] at hr
                  exact hr
                · intro r hr
                  simp only [DeleteSession] at hr
                  have := (List.mem_filter.1 hr).1
                  rw [hI] at this
                  exact this

/-- The conditions under which `VerifyEmail` returns tokens. -/
theorem VerifyEmail_ok_conditions (s : auth.Service) (now : Time) (d : auth.Draws)
    (token code deviceName platform userAgent ip : String) (tokens : authTokens)
    (hok : (VerifyEmail s now d token code deviceName platform userAgent ip).1 = .ok tokens) :
    ∃ sess user e, GetByToken s.repo token = .ok sess ∧ ¬ sess.ExpiresAt < now ∧
      sess.TotpVerified = true ∧ sess.EmailCode = code ∧ sess.EmailCode ≠ "" ∧
      sess.EmailExpires = some e ∧ ¬ e < now ∧
      auth.GetUserByID s.repo sess.UserID = .ok user ∧ user.BannedAt = none := by
  unfold VerifyEmail at hok
  cases hg : GetByToken s.repo token with
  | error err => rw [hg] at hok; cases hok
  | ok sess =>
    rw [hg] at hok
    simp only at hok
    by_cases h1 : sess.ExpiresAt < now
    · rw [if_pos h1] at hok; cases hok
    · rw [if_neg h1] at hok
      by_cases h2 : (!sess.TotpVerified) = true
      · rw [if_pos h2] at hok; cases hok
      · rw [if_neg h2] at hok
        cases he : sess.EmailExpires with
        | none => rw [he] at hok; simp at hok
        | some e =>
          rw [he] at hok
          simp only at hok
          by_cases h3 : (decide (sess.EmailCode = "") || decide (e < now)) = true
          · rw [if_pos h3] at hok; cases hok
          · rw [if_neg h3] at hok
            by_cases h4 : sess.EmailCode ≠ code
            · rw [if_pos h4] at hok; cases hok
            · rw [if_neg h4] at hok
              cases hu : auth.GetUserByID s.repo sess.UserID with
              | error err => rw [hu] at hok; cases hok
              | ok user =>
                rw [hu] at hok
                simp only at hok
                by_cases h5 : user.BannedAt ≠ none
                · rw [if_pos h5] at hok; cases hok
                · simp only [Bool.or_eq_true, decide_eq_true_eq, not_or] at h3
                  exact ⟨sess, user, e, rfl, h1, by simpa using h2, not_not.1 h4, h3.1, he,
                    h3.2, hu, not_not.1 h5⟩

/-- The admin `Logout` adds no session: the identifiers of the session rows are unchanged. -/
theorem Logout_session_ids (s : auth.Service) (now : Time) (refresh : String) :
    (Logout s now refresh).2.repo.sessions.map (fun x => x.ID)
      = s.repo.sessions.map (fun x => x.ID) := by
  unfold Logout auth.Service.Logout
  simp only
  cases auth.GetSessionByRefresh s.repo (sha256.Sum256 (bytesOf refresh)) with
  | error err => rfl
  | ok p =>
    obtain ⟨session, matchedPrev⟩ := p
    simp only
    split
    · rfl
    · simp only [auth.RevokeSession, List.map_map]
      apply List.map_congr_left
      intro x _
      simp only [Function.comp]
      split <;> rfl

/-- C17: of the admin operations, `Login`, `InitTOTP` and `VerifyTOTP` leave the session table
as it was and `Logout` adds no row to it, so only `VerifyEmail` issues a session; and
`VerifyEmail` returns tokens only when the admin-auth session of the token is unexpired, has
`totp_verified = true`, holds a non-empty, unexpired e-mail code equal to the supplied code, and
its user is not banned.  The flag `totp_verified` is set only by a `VerifyTOTP` whose code
passed `totp.Validate`: `Login` adds at most a row with the flag unset, `InitTOTP` leaves
the admin-auth table as it was, `VerifyEmail` adds and changes no row, and `VerifyTOTP` either
leaves the database as it was or passed the validation. -/
theorem only_VerifyEmail_issues_a_session (CheckPassword : Bytes → String → Bool)
    (Validate : String → String → Bool) (mailer : Option (String → String → Option Error))
    (s : auth.Service) (now : Time) (d : auth.Draws) (newID : UUID)
    (raw rawSecret : Option Bytes) (rawCode : Bytes)
    (email password token code refresh deviceName platform userAgent ip : String) :
    (∀ tokens, (VerifyEmail s now d token code deviceName platform userAgent ip).1 = .ok tokens →
      ∃ sess user e, GetByToken s.repo token = .ok sess ∧ ¬ sess.ExpiresAt < now ∧
        sess.TotpVerified = true ∧ sess.EmailCode = code ∧ sess.EmailCode ≠ "" ∧
        sess.EmailExpires = some e ∧ ¬ e < now ∧
        auth.GetUserByID s.repo sess.UserID = .ok user ∧ user.BannedAt = none) ∧
    ((Login CheckPassword s now newID raw email password deviceName platform userAgent
        ip).2.repo.sessions = s.repo.sessions ∧
     (InitTOTP s now rawSecret token).2.repo.sessions = s.repo.sessions ∧
     (VerifyTOTP Validate mailer s now rawCode token code).2.repo.sessions = s.repo.sessions ∧
     (Logout s now refresh).2.repo.sessions.map (fun x => x.ID)
       = s.repo.sessions.map (fun x => x.ID)) ∧
    ((∀ r ∈ (Login CheckPassword s now newID raw email password deviceName platform userAgent
        ip).2.repo.admin_auth_sessions, r.totp_verified = true → r ∈ s.repo.admin_auth_sessions) ∧
     (InitTOTP s now rawSecret token).2.repo.admin_auth_sessions = s.repo.admin_auth_sessions ∧
     (∀ r ∈ (VerifyEmail s now d token code deviceName platform userAgent
        ip).2.repo.admin_auth_sessions, r ∈ s.repo.admin_auth_sessions) ∧
     ((VerifyTOTP Validate mailer s now rawCode token code).2.repo = s.repo ∨
      ∃ sess user, GetByToken s.repo token = .ok sess ∧ ¬ sess.ExpiresAt < now ∧
        auth.GetUserByID s.repo sess.UserID = .ok user ∧
        Validate code (user.AdminTOTPSecret.getD "") = true ∧
        (VerifyTOTP Validate mailer s now rawCode token code).1 = .ok "email_code_sent" ∧
        (VerifyTOTP Validate mailer s now rawCode token code).2.repo
          = SetEmailCode (MarkTotpVerified s.repo token) token (generateCode rawCode)
              (now + 10 * 60 * 1000000000))) :=
  ⟨fun tokens hok =>
      VerifyEmail_ok_conditions s now d token code deviceName platform userAgent ip tokens hok,
   ⟨(Login_tables CheckPassword s now newID raw email password deviceName platform userAgent
      ip).1,
    (InitTOTP_tables s now rawSecret token).1,
    (VerifyTOTP_tables Validate mailer s now rawCode token code).1,
    Logout_session_ids s now refresh⟩,
   ⟨(Login_tables CheckPassword s now newID raw email password deviceName platform userAgent
      ip).2,
    (InitTOTP_tables s now rawSecret token).2,
    VerifyEmail_admin_table s now d token code deviceName platform userAgent ip,
    (VerifyTOTP_tables Validate mailer s now rawCode token code).2⟩⟩

set_option maxRecDepth 100000 in
/-- C17 on the example flow: after `Login`, `InitTOTP` and a `VerifyTOTP` that passed,
`VerifyEmail` with the stored code `"233560"` at instant 400 returns tokens; the session it
used was TOTP-verified and its e-mail code unexpired. -/
theorem only_VerifyEmail_issues_a_session_witness :
    (VerifyEmail exAdminTotpOk 400 auth.exDraws (auth.exToken 5) "233560" "" "" "ua" "ip").1
      = .ok ⟨5, 11, auth.exToken 7, auth.exToken 8⟩ ∧
    ∃ sess user e, GetByToken exAdminTotpOk.repo (auth.exToken 5) = .ok sess ∧
      ¬ sess.ExpiresAt < 400 ∧ sess.TotpVerified = true ∧ sess.EmailCode = "233560" ∧
      sess.EmailCode ≠ "" ∧ sess.EmailExpires = some e ∧ ¬ e < 400 ∧
      auth.GetUserByID exAdminTotpOk.repo sess.UserID = .ok user ∧ user.BannedAt = none :=
  have hok : (VerifyEmail exAdminTotpOk 400 auth.exDraws (auth.exToken 5) "233560" "" "" "ua"
      "ip").1 = .ok ⟨5, 11, auth.exToken 7, auth.exToken 8⟩ := by decide
  ⟨hok, (only_VerifyEmail_issues_a_session auth.exCheckPassword exValidate none exAdminTotpOk
    400 auth.exDraws 22 (auth.exRaw 6) none [1, 2, 3] "carol@x.test" "pw" (auth.exToken 5)
    "233560" "R" "" "" "ua" "ip").1 _ hok⟩

/-- The user that `GetUserByID` returns carries the requested identifier. -/
theorem GetUserByID_ID (db : DB) (id : UUID) (user : auth.User)
    (h : auth.GetUserByID db id = .ok user) : user.ID = id := by
  unfold auth.GetUserByID at h
  cases hf : db.users.find? (fun r => decide (r.ID = id ∧ r.is_deleted = false)) with
  | none => rw [hf] at h; cases h
  | some r =>
    rw [hf] at h
    have hp := List.find?_some hf
    simp only [decide_eq_true_eq] at hp
    cases h
    exact hp.1

/-- The user read after `SetTOTPSecret` on that user: the same user with the new secret. -/
theorem GetUserByID_SetTOTPSecret (db : DB) (id : UUID) (user : auth.User) (secret : String)
    (h : auth.GetUserByID db id = .ok user) :
    auth.GetUserByID (SetTOTPSecret db id secret) id
      = .ok { user with AdminTOTPSecret := some secret } := by
  unfold auth.GetUserByID at h ⊢
  unfold SetTOTPSecret
  simp only [List.find?_map]
  have hcomp : ((fun r : auth.UserRow => decide (r.ID = id ∧ r.is_deleted = false)) ∘
      fun r : auth.UserRow => if r.ID = id then { r with AdminTOTPSecret := some secret } else r)
      = fun r : auth.UserRow => decide (r.ID = id ∧ r.is_deleted = false) := by
    funext r
    simp only [Function.comp]
    split <;> rfl
  rw [hcomp]
  cases hf : db.users.find? (fun r => decide (r.ID = id ∧ r.is_deleted = false)) with
  | none => rw [hf] at h; cases h
  | some r =>
    rw [hf] at h
    have hp := List.find?_some hf
    simp only [decide_eq_true_eq] at hp
    cases h
    simp [hp.1]

/-- The secret made of ten bytes is not empty. -/
theorem NoPadding_ne_empty (b : Bytes) (h : b.length = 10) : base32.NoPadding b ≠ "" := by
  match b, h with
  | [b0, b1, b2, b3, b4, b5, b6, b7, b8, b9], _ =>
    intro hc
    have := congrArg String.length hc
    simp [base32.NoPadding, base32.encodeRaw, String.length] at this

/-- `InitTOTP` on an unexpired session whose user has a secret: the secret is returned and
nothing is written. -/
theorem InitTOTP_of_secret (s : auth.Service) (now : Time) (raw : Option Bytes)
    (token : String) (sess : Session) (user : auth.User) (sec : String)
    (hs : GetByToken s.repo token = .ok sess) (hexp : ¬ sess.ExpiresAt < now)
    (hu : auth.GetUserByID s.repo sess.UserID = .ok user)
    (hsec : user.AdminTOTPSecret = some sec) (hne : sec ≠ "") :
    (InitTOTP s now raw token).1 = .ok sec ∧ (InitTOTP s now raw token).2.repo = s.repo := by
  have hc : user.AdminTOTPSecret ≠ none ∧ user.AdminTOTPSecret ≠ some "" := by
    rw [hsec]
    exact ⟨by simp, by simpa using hne⟩
  constructor
  · unfold InitTOTP
    simp only [hs, if_neg hexp, hu]
    rw [if_pos hc]
    simp only [hsec, Option.getD_some]
  · unfold InitTOTP
    simp only [hs, if_neg hexp, hu]
    rw [if_pos hc]

/-- `InitTOTP` on an unexpired session whose user has no secret, the random read giving `b`:
the encoding of `b` is stored on the user and returned. -/
theorem InitTOTP_of_no_secret (s : auth.Service) (now : Time) (b : Bytes)
    (token : String) (sess : Session) (user : auth.User)
    (hs : GetByToken s.repo token = .ok sess) (hexp : ¬ sess.ExpiresAt < now)
    (hu : auth.GetUserByID s.repo sess.UserID = .ok user)
    (hno : user.AdminTOTPSecret = none ∨ user.AdminTOTPSecret = some "") :
    (InitTOTP s now (some b) token).1 = .ok (base32.NoPadding b) ∧
    (InitTOTP s now (some b) token).2.repo
      = SetTOTPSecret s.repo user.ID (base32.NoPadding b) := by
  have hc : ¬ (user.AdminTOTPSecret ≠ none ∧ user.AdminTOTPSecret ≠ some "") := by
    rcases hno with h | h <;> simp [h]
  constructor <;> (unfold InitTOTP; simp only [hs, if_neg hexp, hu]; rw [if_neg hc])

/-- `GetByToken` reads the admin-auth table only. -/
theorem GetByToken_congr (db1 db2 : DB) (token : String)
    (h : db1.admin_auth_sessions = db2.admin_auth_sessions) :
    GetByToken db1 token = GetByToken db2 token := by
  unfold GetByToken
  rw [h]

/-- C18: for an unexpired admin-auth session whose user exists.  If the user already has a
non-empty TOTP secret, `InitTOTP` returns it and leaves the database as it was.  Otherwise,
the random read giving the ten bytes `b`, it stores the encoding of `b` on the user and returns
it.  Hence a following `InitTOTP`, through any unexpired admin-auth session of the same user,
at any instant and whatever its random read, returns the secret the first call returned and
writes nothing. -/
theorem InitTOTP_secret_is_stable (s : auth.Service) (now now2 : Time)
    (raw raw2 : Option Bytes) (token token2 : String) (sess sess2 : Session) (user : auth.User)
    (hs : GetByToken s.repo token = .ok sess) (hexp : ¬ sess.ExpiresAt < now)
    (hu : auth.GetUserByID s.repo sess.UserID = .ok user)
    (hlen : ∀ b, raw = some b → b.length = 10)
    (hs2 : GetByToken s.repo token2 = .ok sess2) (hexp2 : ¬ sess2.ExpiresAt < now2)
    (hsame : sess2.UserID = sess.UserID) :
    (∀ sec, user.AdminTOTPSecret = some sec → sec ≠ "" →
      (InitTOTP s now raw token).1 = .ok sec ∧ (InitTOTP s now raw token).2.repo = s.repo) ∧
    ((user.AdminTOTPSecret = none ∨ user.AdminTOTPSecret = some "") → ∀ b, raw = some b →
      (InitTOTP s now raw token).1 = .ok (base32.NoPadding b) ∧
      (InitTOTP s now raw token).2.repo = SetTOTPSecret s.repo user.ID (base32.NoPadding b) ∧
      auth.GetUserByID (InitTOTP s now raw token).2.repo sess.UserID
        = .ok { user with AdminTOTPSecret := some (base32.NoPadding b) }) ∧
    (∀ secret, (InitTOTP s now raw token).1 = .ok secret →
      (InitTOTP (InitTOTP s now raw token).2 now2 raw2 token2).1 = .ok secret ∧
      (InitTOTP (InitTOTP s now raw token).2 now2 raw2 token2).2.repo
        = (InitTOTP s now raw token).2.repo) := by
  have hid := GetUserByID_ID s.repo sess.UserID user hu
  have hs2a : ∀ r, GetByToken (InitTOTP s now r token).2.repo token2 = .ok sess2 := by
    intro r
    rw [GetByToken_congr _ s.repo token2 (InitTOTP_tables s now r token).2]
    exact hs2
  have part2 : (user.AdminTOTPSecret = none ∨ user.AdminTOTPSecret = some "") →
      ∀ b, raw = some b →
      (InitTOTP s now raw token).1 = .ok (base32.NoPadding b) ∧
      (InitTOTP s now raw token).2.repo = SetTOTPSecret s.repo user.ID (base32.NoPadding b) ∧
      auth.GetUserByID (InitTOTP s now raw token).2.repo sess.UserID
        = .ok { user with AdminTOTPSecret := some (base32.NoPadding b) } := by
    intro hno b hb
    subst hb
    obtain ⟨h1, h2⟩ := InitTOTP_of_no_secret s now b token sess user hs hexp hu hno
    refine ⟨h1, h2, ?_⟩
    have e := GetUserByID_SetTOTPSecret s.repo sess.UserID user (base32.NoPadding b) hu
    rw [h2]
    rw [← hid] at e ⊢
    exact e
  refine ⟨fun sec hsec hne => InitTOTP_of_secret s now raw token sess user sec hs hexp hu hsec hne,
    part2, ?_⟩
  intro secret h1
  by_cases hno : user.AdminTOTPSecret = none ∨ user.AdminTOTPSecret = some ""
  · cases raw with
    | none =>
      exfalso
      have hc : ¬ (user.AdminTOTPSecret ≠ none ∧ user.AdminTOTPSecret ≠ some "") := by
        rcases hno with h | h <;> simp [h]
      unfold InitTOTP at h1
      simp only [hs, if_neg hexp, hu] at h1
      rw [if_neg hc] at h1
      cases h1
    | some b =>
      obtain ⟨h3, _, h5⟩ := part2 hno b rfl
      rw [h3] at h1
      cases h1
      rw [← hsame] at h5
      exact InitTOTP_of_secret _ now2 raw2 token2 sess2 _ (base32.NoPadding b) (hs2a _) hexp2 h5
        rfl (NoPadding_ne_empty b (hlen b rfl))
  · have hsec : ∃ sec, user.AdminTOTPSecret = some sec ∧ sec ≠ "" := by
      cases hx : user.AdminTOTPSecret with
      | none => exact absurd (Or.inl hx) hno
      | some val =>
        refine ⟨val, rfl, fun he => hno (Or.inr ?_)⟩
        rw [hx, he]
    obtain ⟨sec, hsec, hne⟩ := hsec
    obtain ⟨h3, h4⟩ := InitTOTP_of_secret s now raw token sess user sec hs hexp hu hsec hne
    rw [h3] at h1
    cases h1
    have hu2 : auth.GetUserByID (InitTOTP s now raw token).2.repo sess2.UserID = .ok user := by
      rw [h4, hsame]
      exact hu
    exact InitTOTP_of_secret _ now2 raw2 token2 sess2 user secret (hs2a _) hexp2 hu2 hsec hne

set_option maxRecDepth 100000 in
/-- C18 on the example state after `Login`: the first `InitTOTP` stores and returns the
secret `"AEBAGBAFAYDQQCIK"`, and so does a second one with another random read. -/
theorem InitTOTP_secret_is_stable_witness :
    (InitTOTP exAdminLoggedIn 200 (some [1, 2, 3, 4, 5, 6, 7, 8, 9, 10]) (auth.exToken 5)).1
      = .ok "AEBAGBAFAYDQQCIK" ∧
    (InitTOTP exAdminWithSecret 250 (some [9, 9, 9, 9, 9, 9, 9, 9, 9, 9]) (auth.exToken 5)).1
      = .ok "AEBAGBAFAYDQQCIK" :=
  have hs : GetByToken exAdminLoggedIn.repo (auth.exToken 5)
      = .ok ⟨21, 5, auth.exToken 5, "password_ok", false, "", none, 900000000100⟩ := by decide
  have hu : auth.GetUserByID exAdminLoggedIn.repo 5 = .ok exAdmin.toUser := by decide
  have h1 : (InitTOTP exAdminLoggedIn 200 (some [1, 2, 3, 4, 5, 6, 7, 8, 9, 10])
      (auth.exToken 5)).1 = .ok "AEBAGBAFAYDQQCIK" := by decide
  ⟨h1, ((InitTOTP_secret_is_stable exAdminLoggedIn 200 250
    (some [1, 2, 3, 4, 5, 6, 7, 8, 9, 10]) (some [9, 9, 9, 9, 9, 9, 9, 9, 9, 9])
    (auth.exToken 5) (auth.exToken 5) _ _ exAdmin.toUser hs (by decide) hu
    (fun b hb => by cases hb; rfl) hs (by decide) rfl).2.2 _ h1).1⟩

end adminauth

/-! ## Logout (C19) -/

namespace auth

/-- `Logout` when the first lookup of the store finds the session. -/
theorem Service.Logout_of_current (s : Service) (now : Time) (refreshToken : String)
    (sess : Session)
    (hf : s.repo.sessions.find? (fun x =>
        decide (x.RefreshTokenHash = sha256.Sum256 (bytesOf refreshToken))) = some sess) :
    s.Logout now refreshToken =
      (none, { s with
        repo := RevokeSession s.repo now sess.ID "logout"
        calls := s.calls ++ [.GetSessionByRefresh (sha256.Sum256 (bytesOf refreshToken)),
          .RevokeSession sess.ID "logout"] }) := by
  unfold Service.Logout GetSessionByRefresh
  simp only [hf]
  simp

/-- `Logout` when only the second lookup of the store finds a session. -/
theorem Service.Logout_of_previous (s : Service) (now : Time) (refreshToken : String)
    (sess : Session)
    (hf : s.repo.sessions.find? (fun x =>
        decide (x.RefreshTokenHash = sha256.Sum256 (bytesOf refreshToken))) = none)
    (hl : s.repo.sessions.find? (fun x =>
        decide (x.LastRefreshTokenHash = some (sha256.Sum256 (bytesOf refreshToken))))
        = some sess) :
    s.Logout now refreshToken =
      (some .ErrRefreshReuse, { s with calls := s.calls ++
        [.GetSessionByRefresh (sha256.Sum256 (bytesOf refreshToken))] }) := by
  unfold Service.Logout GetSessionByRefresh
  simp only [hf, hl]
  simp

/-- `Logout` when neither lookup finds a session. -/
theorem Service.Logout_of_unknown (s : Service) (now : Time) (refreshToken : String)
    (hf : s.repo.sessions.find? (fun x =>
        decide (x.RefreshTokenHash = sha256.Sum256 (bytesOf refreshToken))) = none)
    (hl : s.repo.sessions.find? (fun x =>
        decide (x.LastRefreshTokenHash = some (sha256.Sum256 (bytesOf refreshToken))))
        = none) :
    s.Logout now refreshToken =
      (some .ErrSessionNotFound, { s with calls := s.calls ++
        [.GetSessionByRefresh (sha256.Sum256 (bytesOf refreshToken))] }) := by
  unfold Service.Logout GetSessionByRefresh
  simp only [hf, hl]

/-- The first lookup finds the session that holds the hash as its current one, refresh hashes
being distinct. -/
theorem find_current_of_mem {db : DB} (hu : RefreshHashesUnique db) {x : Session}
    (hx : x ∈ db.sessions) :
    db.sessions.find? (fun y => decide (y.RefreshTokenHash = x.RefreshTokenHash)) = some x :=
  find?_unique _ db.sessions x hx (by simp) (fun y hy hp =>
    eq_of_refreshHash hu hy hx
      (by simp only [decide_eq_true_eq] at hp; rw [← hp]; exact mem_refreshHashes_self y)
      (mem_refreshHashes_self x))

/-- C19: `Logout` by case on the hash of the presented token, in a store where session
identifiers and refresh hashes are distinct.  When the hash is the current refresh hash of the
session `x`, `Logout` succeeds and the session table is the old one with `x` revoked at the
instant of the call with reason `"logout"`, every other row and every other table unchanged.
When no session holds it as current hash and one holds it as previous hash, `Logout` fails
with `ErrRefreshReuse`; when no session holds it at all, with `ErrSessionNotFound`; in both
cases the database is unchanged. -/
theorem Logout_by_token (s : Service) (now : Time) (refreshToken : String)
    (hid : IDsUnique s.repo) (hu : RefreshHashesUnique s.repo) :
    (∀ x ∈ s.repo.sessions, x.RefreshTokenHash = sha256.Sum256 (bytesOf refreshToken) →
      (s.Logout now refreshToken).1 = none ∧
      (s.Logout now refreshToken).2.repo = { s.repo with
        sessions := s.repo.sessions.map (fun y =>
          if y = x then revoked x now "logout" else y) }) ∧
    ((∀ x ∈ s.repo.sessions, x.RefreshTokenHash ≠ sha256.Sum256 (bytesOf refreshToken)) →
      (∃ x ∈ s.repo.sessions,
        x.LastRefreshTokenHash = some (sha256.Sum256 (bytesOf refreshToken))) →
      (s.Logout now refreshToken).1 = some .ErrRefreshReuse ∧
      (s.Logout now refreshToken).2.repo = s.repo) ∧
    ((∀ x ∈ s.repo.sessions, sha256.Sum256 (bytesOf refreshToken) ∉ refreshHashes x) →
      (s.Logout now refreshToken).1 = some .ErrSessionNotFound ∧
      (s.Logout now refreshToken).2.repo = s.repo) := by
  refine ⟨?_, ?_, ?_⟩
  · intro x hx hh
    have hf := find_current_of_mem hu hx
    rw [hh] at hf
    rw [Service.Logout_of_current s now refreshToken x hf]
    refine ⟨rfl, ?_⟩
    simp only [RevokeSession]
    rw [map_update_by_ID s.repo.sessions hid x hx
      (fun y => { y with RevokedAt := some now, RevokedReason := "logout" })]
    rfl
  · intro hnone hsome
    have hf : s.repo.sessions.find? (fun x =>
        decide (x.RefreshTokenHash = sha256.Sum256 (bytesOf refreshToken))) = none := by
      rw [List.find?_eq_none]
      intro x hx
      simpa using hnone x hx
    cases hl : s.repo.sessions.find? (fun x =>
        decide (x.LastRefreshTokenHash = some (sha256.Sum256 (bytesOf refreshToken)))) with
    | none =>
      exfalso
      rw [List.find?_eq_none] at hl
      obtain ⟨x, hx, hxl⟩ := hsome
      exact hl x hx (by simpa using hxl)
    | some sess =>
      rw [Service.Logout_of_previous s now refreshToken sess hf hl]
      exact ⟨rfl, rfl⟩
  · intro hnone
    have hn : sha256.Sum256 (bytesOf refreshToken) ∉ s.repo.sessions.flatMap refreshHashes := by
      intro hm
      obtain ⟨x, hx, hxm⟩ := List.mem_flatMap.1 hm
      exact hnone x hx hxm
    obtain ⟨hf, hl⟩ := lookups_of_unknown hn
    rw [Service.Logout_of_unknown s now refreshToken hf hl]
    exact ⟨rfl, rfl⟩

set_option maxRecDepth 1000000 in
/-- C19 on the example state after one rotation: the current token `exToken 2` logs the
session out, the rotated-away token `"R0"` is refused as a reuse, an unknown token is not
found. -/
theorem Logout_by_token_witness :
    IDsUnique exService1.repo ∧ RefreshHashesUnique exService1.repo ∧
    (exService1.Logout 30 (exToken 2)).1 = none ∧
    (exService1.Logout 30 (exToken 2)).2.repo.sessions
      = exService1.repo.sessions.map (fun y => revoked y 30 "logout") ∧
    (exService1.Logout 30 "R0").1 = some .ErrRefreshReuse ∧
    (exService1.Logout 30 "nobody").1 = some .ErrSessionNotFound :=
  have hid : IDsUnique exService1.repo := by decide
  have hu : RefreshHashesUnique exService1.repo := by decide
  have t1 := (Logout_by_token exService1 30 (exToken 2) hid hu).1
    (rotated exSession 10 (sha256.Sum256 (bytesOf (exToken 1)))
      (sha256.Sum256 (bytesOf (exToken 2))) 3610) (by decide) (by decide)
  ⟨hid, hu, t1.1, by rw [t1.2]; decide,
   ((Logout_by_token exService1 30 "R0" hid hu).2.1 (by decide) (by decide)).1,
   ((Logout_by_token exService1 30 "nobody" hid hu).2.2 (by decide)).1⟩

end auth

/-! ## LogoutAll (C20) -/

namespace auth

/-- A revocation keeps the refresh hashes of a row. -/
theorem refreshHashes_revoked (x : Session) (now : Time) (reason : String) :
    refreshHashes (revoked x now reason) = refreshHashes x := rfl

/-- `RevokeUserSessions` keeps the refresh hashes of the table. -/
theorem RevokeUserSessions_hashes (db : DB) (now : Time) (userID : UUID) (reason : String) :
    (RevokeUserSessions db now userID reason).sessions.flatMap refreshHashes
      = db.sessions.flatMap refreshHashes := by
  simp only [RevokeUserSessions]
  induction db.sessions with
  | nil => rfl
  | cons x l ih =>
    simp only [List.map_cons, List.flatMap_cons, ih]
    split <;> rfl

/-- After `RevokeUserSessions` every session of the user is revoked. -/
theorem RevokeUserSessions_revoked (db : DB) (now : Time) (userID : UUID) (reason : String) :
    ∀ x ∈ (RevokeUserSessions db now userID reason).sessions,
      x.UserID = userID → x.RevokedAt ≠ none := by
  intro x hx hU
  simp only [RevokeUserSessions, List.mem_map] at hx
  obtain ⟨y, hy, rfl⟩ := hx
  by_cases hc : y.UserID = userID ∧ y.RevokedAt = none
  · rw [if_pos hc]; simp
  · rw [if_neg hc] at hU ⊢
    exact fun hn => hc ⟨hU, hn⟩

/-- `LogoutAll` when the store resolves the token to a session. -/
theorem Service.LogoutAll_of_found (s : Service) (now : Time) (refreshToken : String)
    (sess : Session) (matchedPrev : Bool)
    (hg : GetSessionByRefresh s.repo (sha256.Sum256 (bytesOf refreshToken))
      = .ok (sess, matchedPrev)) :
    s.LogoutAll now refreshToken =
      (none, { s with
        repo := RevokeUserSessions s.repo now sess.UserID "logout_all"
        calls := s.calls ++ [.GetSessionByRefresh (sha256.Sum256 (bytesOf refreshToken)),
          .RevokeUserSessions sess.UserID "logout_all"] }) := by
  unfold Service.LogoutAll
  simp only [hg]
  simp

/-- `Refresh` with a token whose hash a revoked session holds, as current or previous hash,
fails with `ErrSessionRevoked`, refresh hashes being distinct. -/
theorem Service.Refresh_of_revoked (s : Service) (now : Time) (rawAccess rawRefresh : Option Bytes)
    (refreshToken userAgent ip : String) (hu : RefreshHashesUnique s.repo) (x : Session)
    (hx : x ∈ s.repo.sessions) (hrev : x.RevokedAt ≠ none)
    (hh : sha256.Sum256 (bytesOf refreshToken) ∈ refreshHashes x) :
    (s.Refresh now rawAccess rawRefresh refreshToken userAgent ip).1
      = .error .ErrSessionRevoked := by
  cases hf : s.repo.sessions.find? (fun y =>
      decide (y.RefreshTokenHash = sha256.Sum256 (bytesOf refreshToken))) with
  | some y =>
    obtain ⟨hy, hp⟩ := mem_of_find? hf
    simp only [decide_eq_true_eq] at hp
    have hyx : y = x := eq_of_refreshHash hu hy hx
      (by rw [← hp]; exact mem_refreshHashes_self y) hh
    subst hyx
    rw [Service.Refresh_of_current hf, if_pos hrev]
  | none =>
    cases hl : s.repo.sessions.find? (fun y =>
        decide (y.LastRefreshTokenHash = some (sha256.Sum256 (bytesOf refreshToken)))) with
    | some y =>
      obtain ⟨hy, hp⟩ := mem_of_find? hl
      simp only [decide_eq_true_eq] at hp
      have hyx : y = x := eq_of_refreshHash hu hy hx (mem_refreshHashes_last hp) hh
      subst hyx
      rw [Service.Refresh_of_previous hf hl, if_pos hrev]
    | none =>
      exfalso
      rw [List.find?_eq_none] at hf hl
      simp only [refreshHashes, List.mem_cons, Option.mem_toList] at hh
      rcases hh with hh | hh
      · exact hf x hx (by simpa using hh.symm)
      · exact hl x hx (by simpa using hh)

/-- C20: `LogoutAll` with a token the store resolves to a session `sess`, of user `U`, refresh
hashes being distinct.  The call succeeds; the session table is the old one in which exactly
the rows of `U` that were unrevoked are revoked at the instant of the call with reason
`"logout_all"`, so the rows of `U` revoked before, the rows of every other user and every
other table are unchanged; every session of `U` is revoked afterwards; and afterwards `Refresh`
with any token whose hash is the current or the previous refresh hash of a session of `U`
fails, with `ErrSessionRevoked`. -/
theorem LogoutAll_revokes_the_user (s : Service) (now : Time) (refreshToken : String)
    (sess : Session) (matchedPrev : Bool) (hu : RefreshHashesUnique s.repo)
    (hg : GetSessionByRefresh s.repo (sha256.Sum256 (bytesOf refreshToken))
      = .ok (sess, matchedPrev)) :
    (s.LogoutAll now refreshToken).1 = none ∧
    (s.LogoutAll now refreshToken).2.repo = { s.repo with
      sessions := s.repo.sessions.map (fun x =>
        if x.UserID = sess.UserID ∧ x.RevokedAt = none then revoked x now "logout_all"
        else x) } ∧
    (∀ x ∈ (s.LogoutAll now refreshToken).2.repo.sessions,
      x.UserID = sess.UserID → x.RevokedAt ≠ none) ∧
    (∀ (now2 : Time) (rawAccess rawRefresh : Option Bytes) (token2 userAgent ip : String),
      (∃ x ∈ (s.LogoutAll now refreshToken).2.repo.sessions,
        x.UserID = sess.UserID ∧ sha256.Sum256 (bytesOf token2) ∈ refreshHashes x) →
      ((s.LogoutAll now refreshToken).2.Refresh now2 rawAccess rawRefresh token2 userAgent
        ip).1 = .error .ErrSessionRevoked) := by
  rw [Service.LogoutAll_of_found s now refreshToken sess matchedPrev hg]
  refine ⟨rfl, rfl, RevokeUserSessions_revoked s.repo now sess.UserID "logout_all", ?_⟩
  intro now2 rawAccess rawRefresh token2 userAgent ip hx
  obtain ⟨x, hx, hU, hh⟩ := hx
  have hu1 : RefreshHashesUnique (RevokeUserSessions s.repo now sess.UserID "logout_all") := by
    unfold RefreshHashesUnique
    rw [RevokeUserSessions_hashes]
    exact hu
  exact Service.Refresh_of_revoked _ now2 rawAccess rawRefresh token2 userAgent ip hu1 x hx
    (RevokeUserSessions_revoked s.repo now sess.UserID "logout_all" x hx hU) hh

set_option maxRecDepth 1000000 in
/-- C20 on the example state with four sessions: `LogoutAll("R0")` at instant 50 revokes the
two unrevoked sessions of user 7, leaves the session of user 7 logged out at instant 4 and the
session of user 9 as they were, and `Refresh` with the rotated-away token `"R2old"` of user 7
then fails. -/
theorem LogoutAll_revokes_the_user_witness :
    RefreshHashesUnique exManySessions.repo ∧
    (exManySessions.LogoutAll 50 "R0").1 = none ∧
    (exManySessions.LogoutAll 50 "R0").2.repo.sessions
      = [revoked exSession 50 "logout_all", exRevokedSession, exBannedSession,
         revoked exRotatedSession 50 "logout_all"] ∧
    ((exManySessions.LogoutAll 50 "R0").2.Refresh 60 (exRaw 1) (exRaw 2) "R2old" "ua" "ip").1
      = .error .ErrSessionRevoked :=
  have hu : RefreshHashesUnique exManySessions.repo := by decide
  have hg : GetSessionByRefresh exManySessions.repo (sha256.Sum256 (bytesOf "R0"))
      = .ok (exSession, false) := by decide
  have t := LogoutAll_revokes_the_user exManySessions 50 "R0" exSession false hu hg
  ⟨hu, t.1, by rw [t.2.1]; decide,
   t.2.2.2 60 (exRaw 1) (exRaw 2) "R2old" "ua" "ip"
     ⟨revoked exRotatedSession 50 "logout_all", by rw [t.2.1]; decide, rfl, by decide⟩⟩

end auth

/-! ## Registration with a failing code sender (C21) -/

namespace auth

/-- C21: `Register` with an e-mail no user row holds, the password hashed and the code
generated, when the code sender returns an error: `Register` returns an error (the sender's,
wrapped) and no user identifier, yet the database keeps the new user row, with
`is_active = false`, and the row of its verification code, unconsumed; so a following
`Register` with the same e-mail fails with `ErrUserExists` and writes nothing. -/
theorem Register_with_failing_sender (HashPassword : String → Except Error Bytes)
    (SendVerification SendVerification2 : String → String → Option Error) (s : Service)
    (now now2 : Time) (newID codeID newID2 codeID2 : UUID) (raw raw2 : Option Bytes)
    (email password password2 : String) (passHash passHash2 : Bytes) (code : String)
    (codeHash : Bytes) (err : Error)
    (hfree : emailTaken s.repo email = false)
    (hhash : HashPassword password = .ok passHash)
    (hcode : generateCode raw = .ok (code, codeHash))
    (hsend : SendVerification email code = some err)
    (hhash2 : HashPassword password2 = .ok passHash2) :
    (s.Register HashPassword SendVerification now newID codeID raw email password).1
      = .error (Errorf "send code" err) ∧
    (s.Register HashPassword SendVerification now newID codeID raw email password).2.repo
      = { s.repo with
          users := s.repo.users ++
            [{ toUser := ⟨newID, email, passHash, false, false, none, none, none, now⟩,
               is_deleted := false }]
          verification_codes := s.repo.verification_codes ++
            [⟨codeID, newID, codeHash, now + s.config.VerificationCodeTTL, none, now⟩] } ∧
    ((s.Register HashPassword SendVerification now newID codeID raw email password).2.Register
        HashPassword SendVerification2 now2 newID2 codeID2 raw2 email password2).1
      = .error .ErrUserExists ∧
    ((s.Register HashPassword SendVerification now newID codeID raw email password).2.Register
        HashPassword SendVerification2 now2 newID2 codeID2 raw2 email password2).2.repo
      = (s.Register HashPassword SendVerification now newID codeID raw email password).2.repo := by
  have h1 : s.Register HashPassword SendVerification now newID codeID raw email password
      = (.error (Errorf "send code" err),
         { s with
           repo := { s.repo with
             users := s.repo.users ++
               [{ toUser := ⟨newID, email, passHash, false, false, none, none, none, now⟩,
                  is_deleted := false }]
             verification_codes := s.repo.verification_codes ++
               [⟨codeID, newID, codeHash, now + s.config.VerificationCodeTTL, none, now⟩] }
           calls := s.calls ++ [.CreateUser email passHash,
             .SaveVerificationCode newID codeHash (now + s.config.VerificationCodeTTL)] }) := by
    unfold Service.Register
    simp only [hhash, CreateUser, hfree, Bool.false_eq_true, if_false, hcode, hsend,
      SaveVerificationCode, User.zero, List.append_assoc, List.singleton_append]
  rw [h1]
  refine ⟨rfl, rfl, ?_, ?_⟩ <;>
  · unfold Service.Register
    simp [hhash2, CreateUser, emailTaken]

set_option maxRecDepth 100000 in
/-- C21 on the example state: `dave@x.test` registers while the mail backend is down, then
registers again. -/
theorem Register_with_failing_sender_witness :
    emailTaken exService.repo "dave@x.test" = false ∧
    (exService.Register exHashPassword exSenderDown 100 30 31 (some [1, 2, 3]) "dave@x.test"
      "pw").1 = .error (.msg "send code: smtp: connection refused") ∧
    (exRegistered.Register exHashPassword exSenderUp 200 32 33 (some [1, 2, 4]) "dave@x.test"
      "pw2").1 = .error .ErrUserExists :=
  have hfree : emailTaken exService.repo "dave@x.test" = false := by decide
  have t := Register_with_failing_sender exHashPassword exSenderDown exSenderUp exService 100 200
    30 31 32 33 (some [1, 2, 3]) (some [1, 2, 4]) "dave@x.test" "pw" "pw2" (bytesOf "pw")
    (bytesOf "pw2") "066051" (hashCode "066051") (.msg "smtp: connection refused") hfree rfl
    (by decide) rfl rfl
  ⟨hfree, t.1, t.2.2.1⟩

end auth

/-! ## Verification codes (C22) -/

namespace auth

/-- Issuing a session writes the device and session tables only. -/
theorem Service.issueSession_frame (s : Service) (now : Time) (d : Draws) (user : User)
    (deviceName platform userAgent ip : String) :
    (s.issueSession now d user deviceName platform userAgent ip).2.repo.users = s.repo.users ∧
    (s.issueSession now d user deviceName platform userAgent ip).2.repo.verification_codes
      = s.repo.verification_codes := by
  unfold Service.issueSession
  simp only
  cases security.GenerateOpaqueToken d.rawAccess with
  | error err => exact ⟨rfl, rfl⟩
  | ok p =>
    cases security.GenerateOpaqueToken d.rawRefresh with
    | error err => exact ⟨rfl, rfl⟩
    | ok q => exact ⟨rfl, rfl⟩

/-- The lookup of `ValidateVerificationCode` finds nothing when no code row of a user with
the e-mail has the hash, is unconsumed and is unexpired: the answer is `ErrInvalidCode` and
nothing is written. -/
theorem ValidateVerificationCode_none (db : DB) (now : Time) (email : String) (codeHash : Bytes)
    (h : ∀ vc ∈ db.verification_codes, ∀ u ∈ db.users, u.ID = vc.UserID → u.Email = email →
      ¬ (vc.CodeHash = codeHash ∧ vc.ConsumedAt = none ∧ now < vc.ExpiresAt)) :
    ValidateVerificationCode db now email codeHash = (.error .ErrInvalidCode, db) := by
  unfold ValidateVerificationCode
  have hrows : (db.verification_codes.flatMap (fun vc =>
      (db.users.filter (fun u => decide (u.ID = vc.UserID))).map (fun u => (vc, u)))).filter
      (fun p => decide (p.2.Email = email ∧ p.1.CodeHash = codeHash ∧ p.1.ConsumedAt = none
        ∧ now < p.1.ExpiresAt)) = [] := by
    rw [List.filter_eq_nil_iff]
    intro p hp
    obtain ⟨vc, hvc, hp2⟩ := List.mem_flatMap.1 hp
    obtain ⟨u, hu, rfl⟩ := List.mem_map.1 hp2
    obtain ⟨hu1, hu2⟩ := List.mem_filter.1 hu
    simp only [decide_eq_true_eq] at hu2
    simp only [decide_eq_true_eq]
    intro hc
    exact h vc hvc u hu1 hu2 hc.1 hc.2
  simp only [hrows, newestCode]

/-- `Verify` when the lookup finds nothing: `ErrInvalidCode`, the database unchanged. -/
theorem Service.Verify_of_none (s : Service) (now : Time) (d : Draws)
    (email code deviceName platform userAgent ip : String)
    (h : ∀ vc ∈ s.repo.verification_codes, ∀ u ∈ s.repo.users, u.ID = vc.UserID →
      u.Email = email →
      ¬ (vc.CodeHash = hashCode code ∧ vc.ConsumedAt = none ∧ now < vc.ExpiresAt)) :
    (s.Verify now d email code deviceName platform userAgent ip).1 = .error .ErrInvalidCode ∧
    (s.Verify now d email code deviceName platform userAgent ip).2.repo = s.repo := by
  constructor <;>
    (unfold Service.Verify
     simp only [ValidateVerificationCode_none s.repo now email (hashCode code) h])

/-- The tables `Verify` leaves: the code table is the one `ValidateVerificationCode` left,
and every user row keeps its identifier and its e-mail. -/
theorem Service.Verify_tables (s : Service) (now : Time) (d : Draws)
    (email code deviceName platform userAgent ip : String) :
    (s.Verify now d email code deviceName platform userAgent ip).2.repo.verification_codes
      = (ValidateVerificationCode s.repo now email (hashCode code)).2.verification_codes ∧
    ∀ u1 ∈ (s.Verify now d email code deviceName platform userAgent ip).2.repo.users,
      ∃ u ∈ s.repo.users, u1.ID = u.ID ∧ u1.Email = u.Email := by
  have husers : (ValidateVerificationCode s.repo now email (hashCode code)).2.users
      = s.repo.users := by
    unfold ValidateVerificationCode
    simp only
    split <;> rfl
  unfold Service.Verify
  simp only
  cases hr : (ValidateVerificationCode s.repo now email (hashCode code)).1 with
  | error err =>
    refine ⟨rfl, fun u1 h1 => ⟨u1, ?_, rfl, rfl⟩⟩
    simpa [husers] using h1
  | ok user =>
    simp only
    split
    · refine ⟨rfl, fun u1 h1 => ⟨u1, ?_, rfl, rfl⟩⟩
      simpa [husers] using h1
    · constructor
      · rw [(Service.issueSession_frame _ now d user deviceName platform userAgent ip).2]
        rfl
      · intro u1 h1
        rw [(Service.issueSession_frame _ now d user deviceName platform userAgent ip).1] at h1
        simp only [ActivateUser, husers, List.mem_map] at h1
        obtain ⟨u, hu, rfl⟩ := h1
        refine ⟨u, hu, ?_⟩
        split <;> exact ⟨rfl, rfl⟩

/-- The row `newestCode` keeps is one of the rows. -/
theorem newestCode_mem : ∀ (rows : List (VerificationCode × UserRow))
    (p : VerificationCode × UserRow), newestCode rows = some p → p ∈ rows
  | [], p, h => by simp [newestCode] at h
  | q :: rest, p, h => by
    unfold newestCode at h
    cases hn : newestCode rest with
    | none =>
      rw [hn] at h
      simp only [Option.some.injEq] at h
      rw [← h]
      exact List.mem_cons_self _ _
    | some r =>
      rw [hn] at h
      simp only at h
      split at h
      · simp only [Option.some.injEq] at h
        rw [← h]
        exact List.mem_cons_of_mem _ (newestCode_mem rest r hn)
      · simp only [Option.some.injEq] at h
        rw [← h]
        exact List.mem_cons_self _ _

/-- What `ValidateVerificationCode` did when it accepted: the code row it consumed belongs to
a user with the e-mail, has the hash, was unconsumed and unexpired. -/
theorem ValidateVerificationCode_ok (db : DB) (now : Time) (email : String) (codeHash : Bytes)
    (user : User) (hok : (ValidateVerificationCode db now email codeHash).1 = .ok user) :
    ∃ vc ∈ db.verification_codes, ∃ u ∈ db.users, u.ID = vc.UserID ∧ u.Email = email ∧
      vc.CodeHash = codeHash ∧ vc.ConsumedAt = none ∧ now < vc.ExpiresAt ∧
      (ValidateVerificationCode db now email codeHash).2.verification_codes
        = db.verification_codes.map (fun r =>
            if r.ID = vc.ID then { r with ConsumedAt := some now } else r) := by
  unfold ValidateVerificationCode at hok ⊢
  simp only at hok ⊢
  cases hn : newestCode ((db.verification_codes.flatMap (fun vc =>
      (db.users.filter (fun u => decide (u.ID = vc.UserID))).map (fun u => (vc, u)))).filter
      (fun p => decide (p.2.Email = email ∧ p.1.CodeHash = codeHash ∧ p.1.ConsumedAt = none
        ∧ now < p.1.ExpiresAt))) with
  | none => rw [hn] at hok; cases hok
  | some p =>
    obtain ⟨vc, u⟩ := p
    have hmem := newestCode_mem _ _ hn
    obtain ⟨hp, hcond⟩ := List.mem_filter.1 hmem
    obtain ⟨vc1, hvc1, hp2⟩ := List.mem_flatMap.1 hp
    obtain ⟨u1, hu1, hpair⟩ := List.mem_map.1 hp2
    obtain ⟨hu1m, hu1c⟩ := List.mem_filter.1 hu1
    simp only [decide_eq_true_eq] at hu1c hcond
    simp only [Prod.mk.injEq] at hpair
    obtain ⟨rfl, rfl⟩ := hpair
    exact ⟨vc1, hvc1, u1, hu1m, hu1c, hcond.1, hcond.2.1, hcond.2.2.1, hcond.2.2.2, rfl⟩

/-- C22: for the user of an e-mail who holds the single code row `c`.  `Verify` with a code
whose hash is not the one of the row, or at an instant at which the row is no longer unexpired
(`expires_at > now` fails), or when the row is already consumed, fails with `ErrInvalidCode`
and leaves the database, so the user's `is_active`, as it was; and after a `Verify` whose
lookup accepted the code, a second `Verify` with the same e-mail and code, at whatever
instant, fails with `ErrInvalidCode` and writes nothing. -/
theorem code_row_accepted_at_most_once (s : Service) (now now2 : Time) (d d2 : Draws)
    (email code deviceName platform userAgent ip : String) (uid : UUID) (c : VerificationCode)
    (hmail : ∀ u ∈ s.repo.users, u.Email = email → u.ID = uid)
    (hsingle : ∀ vc ∈ s.repo.verification_codes, vc.UserID = uid → vc = c) :
    (hashCode code ≠ c.CodeHash →
      (s.Verify now d email code deviceName platform userAgent ip).1 = .error .ErrInvalidCode ∧
      (s.Verify now d email code deviceName platform userAgent ip).2.repo = s.repo) ∧
    (¬ now < c.ExpiresAt →
      (s.Verify now d email code deviceName platform userAgent ip).1 = .error .ErrInvalidCode ∧
      (s.Verify now d email code deviceName platform userAgent ip).2.repo = s.repo) ∧
    (c.ConsumedAt ≠ none →
      (s.Verify now d email code deviceName platform userAgent ip).1 = .error .ErrInvalidCode ∧
      (s.Verify now d email code deviceName platform userAgent ip).2.repo = s.repo) ∧
    (∀ user, (ValidateVerificationCode s.repo now email (hashCode code)).1 = .ok user →
      ((s.Verify now d email code deviceName platform userAgent ip).2.Verify now2 d2 email code
        deviceName platform userAgent ip).1 = .error .ErrInvalidCode ∧
      ((s.Verify now d email code deviceName platform userAgent ip).2.Verify now2 d2 email code
        deviceName platform userAgent ip).2.repo
        = (s.Verify now d email code deviceName platform userAgent ip).2.repo) := by
  have hrow : ∀ vc ∈ s.repo.verification_codes, ∀ u ∈ s.repo.users, u.ID = vc.UserID →
      u.Email = email → vc = c := fun vc hvc u hu hid hm =>
    hsingle vc hvc (by rw [← hid]; exact hmail u hu hm)
  refine ⟨fun hw => ?_, fun he => ?_, fun hc => ?_, fun user hok => ?_⟩
  · apply Service.Verify_of_none
    intro vc hvc u hu hid hm hcond
    rw [hrow vc hvc u hu hid hm] at hcond
    exact hw hcond.1.symm
  · apply Service.Verify_of_none
    intro vc hvc u hu hid hm hcond
    rw [hrow vc hvc u hu hid hm] at hcond
    exact he hcond.2.2
  · apply Service.Verify_of_none
    intro vc hvc u hu hid hm hcond
    rw [hrow vc hvc u hu hid hm] at hcond
    exact hc hcond.2.1
  · obtain ⟨vc0, hvc0, u0, hu0, hid0, hm0, _, _, _, htab⟩ :=
      ValidateVerificationCode_ok s.repo now email (hashCode code) user hok
    have hvc0c : vc0 = c := hrow vc0 hvc0 u0 hu0 hid0 hm0
    obtain ⟨hcodes, husers⟩ := Service.Verify_tables s now d email code deviceName platform
      userAgent ip
    apply Service.Verify_of_none
    intro vc hvc u hu hid hm hcond
    rw [hcodes, htab] at hvc
    obtain ⟨r, hr, rfl⟩ := List.mem_map.1 hvc
    obtain ⟨u1, hu1, hid1, hm1⟩ := husers u hu
    have huid : u1.ID = uid := hmail u1 hu1 (by rw [← hm1]; exact hm)
    have hrc : r = c := by
      apply hsingle r hr
      have : (if r.ID = vc0.ID then { r with ConsumedAt := some now } else r).UserID
          = r.UserID := by split <;> rfl
      rw [← this, ← hid, hid1, huid]
    rw [hrc, hvc0c, if_pos rfl] at hcond
    exact absurd hcond.2.1 (by simp)

set_option maxRecDepth 100000 in
/-- C22 on the example state after the registration of `dave@x.test` (code `"066051"`,
expiring at instant 1000): a wrong code and a late `Verify` are refused, the right code is
accepted at instant 150 and refused at instant 160. -/
theorem code_row_accepted_at_most_once_witness :
    (exRegistered.Verify 150 exDraws "dave@x.test" "000000" "" "" "ua" "ip").1
      = .error .ErrInvalidCode ∧
    (exRegistered.Verify 1000 exDraws "dave@x.test" "066051" "" "" "ua" "ip").1
      = .error .ErrInvalidCode ∧
    (exRegistered.Verify 150 exDraws "dave@x.test" "066051" "" "" "ua" "ip").1
      = .ok (30, 11, exToken 7, exToken 8) ∧
    ((exRegistered.Verify 150 exDraws "dave@x.test" "066051" "" "" "ua" "ip").2.Verify 160
      ⟨13, 14, exRaw 9, exRaw 10⟩ "dave@x.test" "066051" "" "" "ua" "ip").1
      = .error .ErrInvalidCode :=
  have hmail : ∀ u ∈ exRegistered.repo.users, u.Email = "dave@x.test" → u.ID = 30 := by decide
  have hsingle : ∀ vc ∈ exRegistered.repo.verification_codes, vc.UserID = 30 →
      vc = ⟨31, 30, hashCode "066051", 1000, none, 100⟩ := by decide
  ⟨((code_row_accepted_at_most_once exRegistered 150 160 exDraws ⟨13, 14, exRaw 9, exRaw 10⟩
      "dave@x.test" "000000" "" "" "ua" "ip" 30 _ hmail hsingle).1 (by decide)).1,
   ((code_row_accepted_at_most_once exRegistered 1000 160 exDraws ⟨13, 14, exRaw 9, exRaw 10⟩
      "dave@x.test" "066051" "" "" "ua" "ip" 30 _ hmail hsingle).2.1 (by decide)).1,
   by decide,
   ((code_row_accepted_at_most_once exRegistered 150 160 exDraws ⟨13, 14, exRaw 9, exRaw 10⟩
      "dave@x.test" "066051" "" "" "ua" "ip" 30 _ hmail hsingle).2.2.2
      ⟨30, "dave@x.test", bytesOf "pw", false, false, none, none, none, 100⟩ (by decide)).1⟩

end auth

/-! ## Login (C23) -/

namespace auth

/-- `issueSession` when both random reads succeed: one new device row and one new session
row, the tokens being the encodings of the reads. -/
theorem Service.issueSession_of_draws (s : Service) (now : Time) (d : Draws) (user : User)
    (deviceName platform userAgent ip : String) (a r : Bytes)
    (ha : d.rawAccess = some a) (hr : d.rawRefresh = some r) :
    (s.issueSession now d user deviceName platform userAgent ip).1
      = .ok (user.ID, d.deviceID, base64.RawURLEncoding a, base64.RawURLEncoding r) ∧
    (s.issueSession now d user deviceName platform userAgent ip).2.repo
      = { s.repo with
          devices := s.repo.devices ++
            [⟨d.deviceID, user.ID, deviceNameOrDefault deviceName, platform, now⟩]
          sessions := s.repo.sessions ++
            [{ ID := d.sessionID, UserID := user.ID, DeviceID := d.deviceID,
               RefreshTokenHash := sha256.Sum256 (bytesOf (base64.RawURLEncoding r)),
               LastRefreshTokenHash := none,
               ExpiresAt := now + s.config.RefreshTokenTTL, RevokedAt := none,
               RevokedReason := "",
               AccessTokenHash := sha256.Sum256 (bytesOf (base64.RawURLEncoding a)),
               UserAgent := userAgent, IP := ip, RotatedAt := none }] } := by
  constructor <;>
    (unfold Service.issueSession
     simp only [ha, hr, security.GenerateOpaqueToken, CreateDevice, CreateSession])

/-- C23: `Login` by case on the user row of the e-mail.  No undeleted row: `ErrUserNotFound`.
A row that is not active: `ErrInactive`, whatever the password and whether or not it is the
right one.  An active banned row: `ErrBanned`.  An active unbanned row and a password
`CheckPassword` refuses: `ErrInvalidCredentials`.  In these four cases the database is
unchanged, so no device and no session is created.  An active unbanned row and a password
`CheckPassword` accepts, the two random reads succeeding: the tokens are returned, and the
database gains one device row and one session row of the user, unrevoked. -/
theorem Login_outcomes (CheckPassword : Bytes → String → Bool) (s : Service) (now : Time)
    (d : Draws) (email password deviceName platform userAgent ip : String) :
    ((∀ u ∈ s.repo.users, ¬ (u.Email = email ∧ u.is_deleted = false)) →
      (s.Login CheckPassword now d email password deviceName platform userAgent ip).1
        = .error .ErrUserNotFound ∧
      (s.Login CheckPassword now d email password deviceName platform userAgent ip).2.repo
        = s.repo) ∧
    (∀ user, GetUserByEmail s.repo email = .ok user →
      (user.IsActive = false →
        (s.Login CheckPassword now d email password deviceName platform userAgent ip).1
          = .error .ErrInactive ∧
        (s.Login CheckPassword now d email password deviceName platform userAgent ip).2.repo
          = s.repo) ∧
      (user.IsActive = true → user.BannedAt ≠ none →
        (s.Login CheckPassword now d email password deviceName platform userAgent ip).1
          = .error .ErrBanned ∧
        (s.Login CheckPassword now d email password deviceName platform userAgent ip).2.repo
          = s.repo) ∧
      (user.IsActive = true → user.BannedAt = none →
        CheckPassword user.PasswordHash password = false →
        (s.Login CheckPassword now d email password deviceName platform userAgent ip).1
          = .error .ErrInvalidCredentials ∧
        (s.Login CheckPassword now d email password deviceName platform userAgent ip).2.repo
          = s.repo) ∧
      (user.IsActive = true → user.BannedAt = none →
        CheckPassword user.PasswordHash password = true →
        ∀ a r, d.rawAccess = some a → d.rawRefresh = some r →
        (s.Login CheckPassword now d email password deviceName platform userAgent ip).1
          = .ok (user.ID, d.deviceID, base64.RawURLEncoding a, base64.RawURLEncoding r) ∧
        (s.Login CheckPassword now d email password deviceName platform userAgent ip).2.repo
          = { s.repo with
              devices := s.repo.devices ++
                [⟨d.deviceID, user.ID, deviceNameOrDefault deviceName, platform, now⟩]
              sessions := s.repo.sessions ++
                [{ ID := d.sessionID, UserID := user.ID, DeviceID := d.deviceID,
                   RefreshTokenHash := sha256.Sum256 (bytesOf (base64.RawURLEncoding r)),
                   LastRefreshTokenHash := none,
                   ExpiresAt := now + s.config.RefreshTokenTTL, RevokedAt := none,
                   RevokedReason := "",
                   AccessTokenHash := sha256.Sum256 (bytesOf (base64.RawURLEncoding a)),
                   UserAgent := userAgent, IP := ip, RotatedAt := none }] })) := by
  constructor
  · intro hnone
    have hf : s.repo.users.find? (fun r => decide (r.Email = email ∧ r.is_deleted = false))
        = none := by
      rw [List.find?_eq_none]
      intro u hu
      simpa using hnone u hu
    constructor <;> (unfold Service.Login GetUserByEmail; simp only [hf])
  · intro user hE
    refine ⟨fun hA => ?_, fun hA hB => ?_, fun hA hB hP => ?_, fun hA hB hP a r ha hr => ?_⟩
    · constructor <;> (unfold Service.Login; simp only [hE, hA]; rfl)
    · constructor <;> (unfold Service.Login; simp only [hE, hA]; simp [hB])
    · constructor <;> (unfold Service.Login; simp only [hE, hA, hP]; simp [hB])
    · have hL : s.Login CheckPassword now d email password deviceName platform userAgent ip
          = ({ s with calls := s.calls ++ [.GetUserByEmail email] } : Service).issueSession now d
              user deviceName platform userAgent ip := by
        unfold Service.Login
        simp only [hE, hA, hP]
        simp [hB]
      rw [hL]
      exact Service.issueSession_of_draws _ now d user deviceName platform userAgent ip a r ha hr

set_option maxRecDepth 100000 in
/-- C23 on example states: an unknown e-mail, the unverified `dave@x.test` with the right
password, the banned administrator, and `alice@x.test` with a wrong and with the right
password. -/
theorem Login_outcomes_witness :
    (exService.Login exCheckPassword 10 exDraws "nobody@x.test" "pw" "" "" "ua" "ip").1
      = .error .ErrUserNotFound ∧
    (exRegistered.Login exCheckPassword 10 exDraws "dave@x.test" "pw" "" "" "ua" "ip").1
      = .error .ErrInactive ∧
    (exBannedService.Login exCheckPassword 10 exDraws "root@x.test" "pw" "" "" "ua" "ip").1
      = .error .ErrBanned ∧
    (exService.Login exCheckPassword 10 exDraws "alice@x.test" "bad" "" "" "ua" "ip").1
      = .error .ErrInvalidCredentials ∧
    (exService.Login exCheckPassword 10 exDraws "alice@x.test" "pw" "" "" "ua" "ip").1
      = .ok (7, 11, exToken 7, exToken 8) :=
  have hA : GetUserByEmail exService.repo "alice@x.test" = .ok exUser.toUser := by decide
  ⟨((Login_outcomes exCheckPassword exService 10 exDraws "nobody@x.test" "pw" "" "" "ua"
      "ip").1 (by decide)).1,
   (((Login_outcomes exCheckPassword exRegistered 10 exDraws "dave@x.test" "pw" "" "" "ua"
      "ip").2 ⟨30, "dave@x.test", bytesOf "pw", false, false, none, none, none, 100⟩
      (by decide)).1 rfl).1,
   (((Login_outcomes exCheckPassword exBannedService 10 exDraws "root@x.test" "pw" "" "" "ua"
      "ip").2 exBannedAdmin.toUser (by decide)).2.1 rfl (by decide)).1,
   (((Login_outcomes exCheckPassword exService 10 exDraws "alice@x.test" "bad" "" "" "ua"
      "ip").2 exUser.toUser hA).2.2.1 rfl rfl (by decide)).1,
   (((Login_outcomes exCheckPassword exService 10 exDraws "alice@x.test" "pw" "" "" "ua"
      "ip").2 exUser.toUser hA).2.2.2 rfl rfl (by decide) (List.replicate 32 7)
      (List.replicate 32 8) rfl rfl).1⟩

end auth

/-! ## LogoutAll makes no check of the presented token (C30) -/

namespace auth

/-- The two lookups for a hash a session holds as its previous one, refresh hashes being
distinct: no session holds it as current hash, and the second lookup finds that session. -/
theorem find_previous_of_mem {db : DB} (hu : RefreshHashesUnique db) {x : Session}
    (hx : x ∈ db.sessions) {h : Bytes} (hl : x.LastRefreshTokenHash = some h) :
    db.sessions.find? (fun y => decide (y.RefreshTokenHash = h)) = none ∧
    db.sessions.find? (fun y => decide (y.LastRefreshTokenHash = some h)) = some x := by
  have hxx : (refreshHashes x).Nodup := by
    have := (List.nodup_flatMap.mp hu).1 x hx
    exact this
  constructor
  · rw [List.find?_eq_none]
    intro y hy hp
    simp only [decide_eq_true_eq] at hp
    have hyx : y = x := eq_of_refreshHash hu hy hx
      (by rw [← hp]; exact mem_refreshHashes_self y) (mem_refreshHashes_last hl)
    subst hyx
    simp [refreshHashes, hl, hp] at hxx
  · exact find?_unique _ db.sessions x hx (by simp [hl]) (fun y hy hp =>
      eq_of_refreshHash hu hy hx
        (mem_refreshHashes_last (by simpa using hp)) (mem_refreshHashes_last hl))

/-- The store resolves a hash that a session holds, as current or previous hash, to that
session, refresh hashes being distinct. -/
theorem GetSessionByRefresh_of_mem {db : DB} (hu : RefreshHashesUnique db) {x : Session}
    (hx : x ∈ db.sessions) {h : Bytes} (hh : h ∈ refreshHashes x) :
    ∃ matchedPrev, GetSessionByRefresh db h = .ok (x, matchedPrev) := by
  simp only [refreshHashes, List.mem_cons, Option.mem_toList] at hh
  rcases hh with hh | hh
  · refine ⟨false, ?_⟩
    unfold GetSessionByRefresh
    rw [hh, find_current_of_mem hu hx]
  · refine ⟨true, ?_⟩
    obtain ⟨h1, h2⟩ := find_previous_of_mem hu hx (by simpa using hh)
    unfold GetSessionByRefresh
    rw [h1, h2]

set_option maxRecDepth 1000000 in
/-- C30 (as stated it fails): in the example state after one rotation and one detected reuse
the session is revoked and holds the hash of `"R0"` as its previous hash only.  `LogoutAll`
with `"R0"` succeeds and `Logout` rejects it with `ErrRefreshReuse`, but `Refresh` rejects it
with `ErrSessionRevoked`: its revocation check comes before its reuse check. -/
theorem refresh_of_rotated_token_of_revoked_session :
    (∃ x ∈ (exService1.Refresh 20 (exRaw 3) (exRaw 4) "R0" "ua" "ip").2.repo.sessions,
      x.LastRefreshTokenHash = some (sha256.Sum256 (bytesOf "R0")) ∧
      x.RefreshTokenHash ≠ sha256.Sum256 (bytesOf "R0") ∧ x.RevokedAt = some 20) ∧
    ((exService1.Refresh 20 (exRaw 3) (exRaw 4) "R0" "ua" "ip").2.LogoutAll 30 "R0").1 = none ∧
    ((exService1.Refresh 20 (exRaw 3) (exRaw 4) "R0" "ua" "ip").2.Logout 30 "R0").1
      = some .ErrRefreshReuse ∧
    ((exService1.Refresh 20 (exRaw 3) (exRaw 4) "R0" "ua" "ip").2.Refresh 30 (exRaw 5)
      (exRaw 6) "R0" "ua" "ip").1 = .error .ErrSessionRevoked := by
  decide

/-- C30 (amended): `LogoutAll` with a token whose hash a session `x` of user `U` holds, as
current or as previous hash, refresh hashes being distinct: whether or not `x` is revoked or
expired, `LogoutAll` succeeds and the session table is the old one with the unrevoked rows of
`U` revoked with reason `"logout_all"`.  When the hash is the previous hash of `x` (a token
already rotated away), `Logout` rejects the token with `ErrRefreshReuse`, and `Refresh`
rejects it with `ErrRefreshReuse` when `x` is unrevoked and with `ErrSessionRevoked` when `x`
is revoked. -/
theorem LogoutAll_makes_no_check (s : Service) (now : Time) (rawAccess rawRefresh : Option Bytes)
    (refreshToken userAgent ip : String) (x : Session) (hu : RefreshHashesUnique s.repo)
    (hx : x ∈ s.repo.sessions)
    (hh : sha256.Sum256 (bytesOf refreshToken) ∈ refreshHashes x) :
    ((s.LogoutAll now refreshToken).1 = none ∧
     (s.LogoutAll now refreshToken).2.repo = { s.repo with
       sessions := s.repo.sessions.map (fun y =>
         if y.UserID = x.UserID ∧ y.RevokedAt = none then revoked y now "logout_all"
         else y) }) ∧
    (x.LastRefreshTokenHash = some (sha256.Sum256 (bytesOf refreshToken)) →
      (∀ y ∈ s.repo.sessions, y.RefreshTokenHash ≠ sha256.Sum256 (bytesOf refreshToken)) ∧
      (s.Logout now refreshToken).1 = some .ErrRefreshReuse ∧
      (x.RevokedAt = none →
        (s.Refresh now rawAccess rawRefresh refreshToken userAgent ip).1
          = .error .ErrRefreshReuse) ∧
      (x.RevokedAt ≠ none →
        (s.Refresh now rawAccess rawRefresh refreshToken userAgent ip).1
          = .error .ErrSessionRevoked)) := by
  constructor
  · obtain ⟨mp, hg⟩ := GetSessionByRefresh_of_mem hu hx hh
    rw [Service.LogoutAll_of_found s now refreshToken x mp hg]
    exact ⟨rfl, rfl⟩
  · intro hl
    obtain ⟨h1, h2⟩ := find_previous_of_mem hu hx hl
    refine ⟨?_, ?_, ?_, ?_⟩
    · intro y hy
      have := (List.find?_eq_none.1 h1) y hy
      simpa using this
    · rw [Service.Logout_of_previous s now refreshToken x h1 h2]
    · intro hr
      rw [Service.Refresh_of_previous h1 h2]
      simp [hr]
    · intro hr
      rw [Service.Refresh_of_previous h1 h2, if_pos hr]

set_option maxRecDepth 1000000 in
/-- C30 (amended) on the example state after one rotation: the rotated-away token `"R0"`
logs user 7 out everywhere, while `Logout` and `Refresh` reject it as a reuse. -/
theorem LogoutAll_makes_no_check_witness :
    RefreshHashesUnique exService1.repo ∧
    (exService1.LogoutAll 30 "R0").1 = none ∧
    (exService1.LogoutAll 30 "R0").2.repo.sessions
      = exService1.repo.sessions.map (fun y => revoked y 30 "logout_all") ∧
    (exService1.Logout 30 "R0").1 = some .ErrRefreshReuse ∧
    (exService1.Refresh 30 (exRaw 5) (exRaw 6) "R0" "ua" "ip").1 = .error .ErrRefreshReuse :=
  have hu : RefreshHashesUnique exService1.repo := by decide
  have t := LogoutAll_makes_no_check exService1 30 (exRaw 5) (exRaw 6) "R0" "ua" "ip"
    (rotated exSession 10 (sha256.Sum256 (bytesOf (exToken 1)))
      (sha256.Sum256 (bytesOf (exToken 2))) 3610) hu (by decide) (by decide)
  ⟨hu, t.1.1, by rw [t.1.2]; decide, (t.2 (by decide)).2.1, (t.2 (by decide)).2.2.1 rfl⟩

end auth

/-! ## Two concurrent rotations of one session (C26) -/

namespace auth

/-- `Refresh` is its lookup followed, when the lookup gives a rotation, by its write at the
same instant. -/
theorem Service.Refresh_eq_lookup_then_write (s : Service) (now : Time)
    (rawAccess rawRefresh : Option Bytes) (refreshToken userAgent ip : String) :
    s.Refresh now rawAccess rawRefresh refreshToken userAgent ip =
      match (s.RefreshLookup now rawAccess rawRefresh refreshToken userAgent ip).1 with
      | .error err =>
        (.error err, (s.RefreshLookup now rawAccess rawRefresh refreshToken userAgent ip).2)
      | .ok p =>
        (s.RefreshLookup now rawAccess rawRefresh refreshToken userAgent ip).2.RefreshWrite
          now p := by
  unfold Service.Refresh Service.RefreshLookup Service.RefreshWrite
  simp only
  cases GetSessionByRefresh s.repo (sha256.Sum256 (bytesOf refreshToken)) with
  | error err => rfl
  | ok p =>
    obtain ⟨session, matchedPrev⟩ := p
    simp only
    split
    · rfl
    · split
      · rfl
      · split
        · rfl
        · cases security.GenerateOpaqueToken rawAccess with
          | error err => rfl
          | ok a =>
            cases security.GenerateOpaqueToken rawRefresh with
            | error err => rfl
            | ok r => rfl

/-- The lookup of `Refresh` for a token whose hash is the current hash of the unrevoked,
unexpired session the first lookup of the store finds, the random reads succeeding: the
rotation it prepares, the database untouched. -/
theorem Service.RefreshLookup_of_current (s : Service) (now : Time) (a r : Bytes)
    (refreshToken userAgent ip : String) (x : Session)
    (hf : s.repo.sessions.find? (fun y =>
        decide (y.RefreshTokenHash = sha256.Sum256 (bytesOf refreshToken))) = some x)
    (hrev : x.RevokedAt = none) (hexp : ¬ x.ExpiresAt < now) :
    s.RefreshLookup now (some a) (some r) refreshToken userAgent ip =
      (.ok ⟨x.ID, base64.RawURLEncoding a, sha256.Sum256 (bytesOf (base64.RawURLEncoding a)),
          base64.RawURLEncoding r, sha256.Sum256 (bytesOf (base64.RawURLEncoding r)),
          now + s.config.RefreshTokenTTL⟩,
       { s with calls := s.calls ++
          [.GetSessionByRefresh (sha256.Sum256 (bytesOf refreshToken))] }) := by
  unfold Service.RefreshLookup GetSessionByRefresh
  simp only [hf, security.GenerateOpaqueToken]
  simp [hrev, hexp]

/-- Two updates of the tokens of one session, one after the other. -/
theorem UpdateSessionTokens_twice (db : DB) (hid : IDsUnique db) (x : Session)
    (hx : x ∈ db.sessions) (w1 w2 : Time) (a1 r1 a2 r2 : Bytes) (e1 e2 : Time) :
    (UpdateSessionTokens (UpdateSessionTokens db w1 x.ID a1 r1 e1) w2 x.ID a2 r2 e2).sessions
      = db.sessions.map (fun y =>
          if y = x then rotated (rotated x w1 a1 r1 e1) w2 a2 r2 e2 else y) := by
  simp only [UpdateSessionTokens, List.map_map]
  apply List.map_congr_left
  intro y hy
  simp only [Function.comp]
  by_cases h : y.ID = x.ID
  · have := eq_of_ID_eq hid hy hx h
    subst this
    simp [rotated]
  · have hne : y ≠ x := fun e => h (e ▸ rfl)
    simp [h, hne]

set_option maxRecDepth 1000000 in
/-- C26 (as stated it fails): on the example session two `Refresh` calls look the session up
by the current token `"R0"`, at instants 10 and 11, before either writes; the first writes at
instant 12 and the second at instant 13.  Both return tokens, and the second update takes
effect although the current hash is by then the one the first call wrote, not the hash of
`"R0"` the second call looked up: the row ends with the second caller's refresh hash as
current and the first caller's as previous hash, so the refresh token the first caller was
handed is refused as a reuse. -/
theorem both_concurrent_rotations_commit :
    ∃ pA pB sA sB,
      exService.RefreshLookup 10 (exRaw 1) (exRaw 2) "R0" "ua" "ip" = (.ok pA, sA) ∧
      sA.RefreshLookup 11 (exRaw 3) (exRaw 4) "R0" "ua" "ip" = (.ok pB, sB) ∧
      (sB.RefreshWrite 12 pA).1 = .ok (exToken 1, exToken 2) ∧
      ((sB.RefreshWrite 12 pA).2.repo.sessions.map (fun x => x.RefreshTokenHash))
        = [sha256.Sum256 (bytesOf (exToken 2))] ∧
      sha256.Sum256 (bytesOf (exToken 2)) ≠ sha256.Sum256 (bytesOf "R0") ∧
      ((sB.RefreshWrite 12 pA).2.RefreshWrite 13 pB).1 = .ok (exToken 3, exToken 4) ∧
      ((sB.RefreshWrite 12 pA).2.RefreshWrite 13 pB).2.repo.sessions
        = [rotated (rotated exSession 12 (sha256.Sum256 (bytesOf (exToken 1)))
            (sha256.Sum256 (bytesOf (exToken 2))) 3610) 13
            (sha256.Sum256 (bytesOf (exToken 3))) (sha256.Sum256 (bytesOf (exToken 4))) 3611] ∧
      (((sB.RefreshWrite 12 pA).2.RefreshWrite 13 pB).2.Refresh 20 (exRaw 5) (exRaw 6)
        (exToken 2) "ua" "ip").1 = .error .ErrRefreshReuse :=
  ⟨_, _, _, _, rfl, rfl, by decide, by decide, by decide, by decide, by decide, by decide⟩

/-- C26 (amended): for a session `x` with unique identifier, unrevoked and unexpired, that
the store finds by the current hash of the presented token.  Two `Refresh` calls look it up
with that token, at instants `tA` and `tB`, before either writes; then the first writes at
instant `wA` and the second at `wB`.  Both calls return their new tokens and both updates
take effect: `UpdateSessionTokens` is keyed by the session identifier alone, so the row ends
as the row `x` rotated by the first call and then rotated again by the second, with the
second caller's refresh hash current and the first caller's refresh hash as previous hash;
every other row is unchanged. -/
theorem concurrent_rotations_both_commit (s : Service) (tA tB wA wB : Time)
    (a1 r1 a2 r2 : Bytes) (refreshToken userAgent ip : String) (x : Session)
    (hid : IDsUnique s.repo) (hx : x ∈ s.repo.sessions)
    (hf : s.repo.sessions.find? (fun y =>
        decide (y.RefreshTokenHash = sha256.Sum256 (bytesOf refreshToken))) = some x)
    (hrev : x.RevokedAt = none) (hA : ¬ x.ExpiresAt < tA) (hB : ¬ x.ExpiresAt < tB) :
    ∃ pA pB sA sB,
      s.RefreshLookup tA (some a1) (some r1) refreshToken userAgent ip = (.ok pA, sA) ∧
      sA.RefreshLookup tB (some a2) (some r2) refreshToken userAgent ip = (.ok pB, sB) ∧
      sB.repo = s.repo ∧
      (sB.RefreshWrite wA pA).1
        = .ok (base64.RawURLEncoding a1, base64.RawURLEncoding r1) ∧
      ((sB.RefreshWrite wA pA).2.RefreshWrite wB pB).1
        = .ok (base64.RawURLEncoding a2, base64.RawURLEncoding r2) ∧
      ((sB.RefreshWrite wA pA).2.RefreshWrite wB pB).2.repo.sessions
        = s.repo.sessions.map (fun y =>
            if y = x then
              rotated (rotated x wA (sha256.Sum256 (bytesOf (base64.RawURLEncoding a1)))
                (sha256.Sum256 (bytesOf (base64.RawURLEncoding r1)))
                (tA + s.config.RefreshTokenTTL)) wB
                (sha256.Sum256 (bytesOf (base64.RawURLEncoding a2)))
                (sha256.Sum256 (bytesOf (base64.RawURLEncoding r2)))
                (tB + s.config.RefreshTokenTTL)
            else y) := by
  have h1 := Service.RefreshLookup_of_current s tA a1 r1 refreshToken userAgent ip x hf hrev hA
  have h2 := Service.RefreshLookup_of_current
    { s with calls := s.calls ++ [.GetSessionByRefresh (sha256.Sum256 (bytesOf refreshToken))] }
    tB a2 r2 refreshToken userAgent ip x hf hrev hB
  refine ⟨_, _, _, _, h1, h2, rfl, rfl, rfl, ?_⟩
  exact UpdateSessionTokens_twice s.repo hid x hx wA wB _ _ _ _ _ _

set_option maxRecDepth 1000000 in
/-- C26 (amended) on the example session: the two interleaved calls of the counterexample. -/
theorem concurrent_rotations_both_commit_witness :
    IDsUnique exService.repo ∧
    ∃ pA pB sA sB,
      exService.RefreshLookup 10 (exRaw 1) (exRaw 2) "R0" "ua" "ip" = (.ok pA, sA) ∧
      sA.RefreshLookup 11 (exRaw 3) (exRaw 4) "R0" "ua" "ip" = (.ok pB, sB) ∧
      sB.repo = exService.repo ∧
      (sB.RefreshWrite 12 pA).1 = .ok (exToken 1, exToken 2) ∧
      ((sB.RefreshWrite 12 pA).2.RefreshWrite 13 pB).1 = .ok (exToken 3, exToken 4) ∧
      ((sB.RefreshWrite 12 pA).2.RefreshWrite 13 pB).2.repo.sessions
        = exService.repo.sessions.map (fun y =>
            if y = exSession then
              rotated (rotated exSession 12 (sha256.Sum256 (bytesOf (exToken 1)))
                (sha256.Sum256 (bytesOf (exToken 2))) (10 + exService.config.RefreshTokenTTL))
                13 (sha256.Sum256 (bytesOf (exToken 3))) (sha256.Sum256 (bytesOf (exToken 4)))
                (11 + exService.config.RefreshTokenTTL)
            else y) :=
  have hid : IDsUnique exService.repo := by decide
  ⟨hid, concurrent_rotations_both_commit exService 10 11 12 13 (List.replicate 32 1)
    (List.replicate 32 2) (List.replicate 32 3) (List.replicate 32 4) "R0" "ua" "ip" exSession
    hid (by decide) (by decide) rfl (by decide) (by decide)⟩

end auth

/-! ## The page of messages `ListMessages` returns (C24) -/

namespace dialogs

/-- The `k` first rows of the rows sorted by descending identifier, identifiers being
distinct: they are already sorted, strictly descending, `min k n` in number, rows of the
list, and every row left out is older than each of them. -/
theorem newest_take (rows : List MessageRow) (k : Nat)
    (hnd : (rows.map (fun m => m.id)).Nodup) :
    ((rows.insertionSort (fun a b => b.id ≤ a.id)).take k).insertionSort
        (fun a b => b.id ≤ a.id)
      = (rows.insertionSort (fun a b => b.id ≤ a.id)).take k ∧
    ((rows.insertionSort (fun a b => b.id ≤ a.id)).take k).Pairwise
      (fun a b => b.id < a.id) ∧
    ((rows.insertionSort (fun a b => b.id ≤ a.id)).take k).length = min k rows.length ∧
    (∀ m ∈ (rows.insertionSort (fun a b => b.id ≤ a.id)).take k, m ∈ rows) ∧
    (∀ m ∈ rows, m ∉ (rows.insertionSort (fun a b => b.id ≤ a.id)).take k →
      ∀ t ∈ (rows.insertionSort (fun a b => b.id ≤ a.id)).take k, m.id < t.id) := by
  haveI : IsTotal MessageRow (fun a b => b.id ≤ a.id) := ⟨fun a b => le_total b.id a.id⟩
  haveI : IsTrans MessageRow (fun a b => b.id ≤ a.id) :=
    ⟨fun a b c hab hbc => le_trans hbc hab⟩
  have hperm := List.perm_insertionSort (fun a b : MessageRow => b.id ≤ a.id) rows
  have hsorted : (rows.insertionSort (fun a b => b.id ≤ a.id)).Pairwise
      (fun a b => b.id ≤ a.id) :=
    List.sorted_insertionSort (fun a b : MessageRow => b.id ≤ a.id) rows
  have hndS : ((rows.insertionSort (fun a b => b.id ≤ a.id)).map (fun m => m.id)).Nodup :=
    ((hperm.map (fun m => m.id)).nodup_iff).2 hnd
  have hne : (rows.insertionSort (fun a b => b.id ≤ a.id)).Pairwise
      (fun a b => a.id ≠ b.id) := List.pairwise_map.1 hndS
  have hstrict : (rows.insertionSort (fun a b => b.id ≤ a.id)).Pairwise
      (fun a b => b.id < a.id) :=
    (hsorted.and hne).imp (fun h => lt_of_le_of_ne h.1 (Ne.symm h.2))
  refine ⟨?_, ?_, ?_, ?_, ?_⟩
  · exact List.Sorted.insertionSort_eq (hsorted.sublist (List.take_sublist k _))
  · exact hstrict.sublist (List.take_sublist k _)
  · rw [List.length_take, List.length_insertionSort]
  · intro m hm
    exact hperm.subset (List.mem_of_mem_take hm)
  · intro m hm hnot t ht
    have hmS : m ∈ rows.insertionSort (fun a b => b.id ≤ a.id) := hperm.symm.subset hm
    rw [← List.take_append_drop k (rows.insertionSort (fun a b => b.id ≤ a.id))] at hmS hstrict
    rcases List.mem_append.1 hmS with h | h
    · exact absurd h hnot
    · exact (List.pairwise_append.1 hstrict).2.2 t ht m h

/-- The page size `ListMessages` works with. -/
theorem pageSize_eq (limit : Int) :
    (if limit ≤ 0 ∨ limit > 100 then (50 : Int) else limit).toNat
      = if 1 ≤ limit ∧ limit ≤ 100 then limit.toNat else 50 := by
  by_cases h : limit ≤ 0 ∨ limit > 100
  · have h2 : ¬ (1 ≤ limit ∧ limit ≤ 100) := by omega
    rw [if_pos h, if_neg h2]
    rfl
  · have h2 : 1 ≤ limit ∧ limit ≤ 100 := by omega
    rw [if_neg h, if_pos h2]

set_option maxRecDepth 1000000 in
/-- C24 (as stated it fails): in the example state dialog 50 holds 51 messages, and
`ListMessages` by member 3 with `limit = 150` and `before = 0` returns 50 messages, the
newest being 51 and the oldest 2, not `min(150, 100) = 100` of them or all 51: a limit above
100 is replaced by 50. -/
theorem limit_above_100_gives_50 :
    CheckMember exLongChat.repo 50 3 = true ∧
    (exLongChat.repo.messages.filter (fun m => decide (m.dialog_id = 50))).length = 51 ∧
    (exLongChat.ListMessages 3 50 150 0).1.toOption.map
      (fun l => (l.length, (l.map (fun m => m.ID)).head?, (l.map (fun m => m.ID)).getLast?))
      = some (50, some 51, some 2) := by
  decide

/-- C24 (amended): for a member, message identifiers being distinct, `ListMessages` returns
a page of `k` messages at most, where `k` is `limit` when `1 ≤ limit ≤ 100` and `50`
otherwise: the identifiers of the page are strictly descending; the page has `k` messages, or
all the messages of the dialog below `before` (all its messages when `before = 0`) when these
are fewer; each message of the page is such a message, with its sender, text and creation
time; and every such message that is not in the page is older than every message of the
page. -/
theorem ListMessages_page (s : Service) (u dialogID : UUID) (limit before : Int)
    (hmem : CheckMember s.repo dialogID u = true)
    (hnd : (s.repo.messages.map (fun m => m.id)).Nodup) :
    ∃ l : List Message,
      (s.ListMessages u dialogID limit before).1 = .ok l ∧
      (l.map (fun m => m.ID)).Pairwise (fun a b => b < a) ∧
      l.length = min (if 1 ≤ limit ∧ limit ≤ 100 then limit.toNat else 50)
        (s.repo.messages.filter (fun m =>
          decide (m.dialog_id = dialogID ∧ (before = 0 ∨ m.id < before)))).length ∧
      (∀ m ∈ l, ∃ row ∈ s.repo.messages,
        row.dialog_id = dialogID ∧ (before = 0 ∨ row.id < before) ∧ m.ID = row.id ∧
        m.DialogID = row.dialog_id ∧ m.SenderID = row.sender_id ∧
        m.Text = convertFromUTF8 row.cipher_text ∧ m.CreatedAt = row.created_at) ∧
      (∀ row ∈ s.repo.messages, row.dialog_id = dialogID → (before = 0 ∨ row.id < before) →
        row.id ∉ l.map (fun m => m.ID) → ∀ m ∈ l, row.id < m.ID) := by
  have hndR : ((s.repo.messages.filter (fun m =>
      decide (m.dialog_id = dialogID ∧ (before = 0 ∨ m.id < before)))).map
      (fun m => m.id)).Nodup :=
    List.Nodup.sublist ((List.filter_sublist _).map _) hnd
  obtain ⟨h1, h2, h3, h4, h5⟩ := newest_take _
    (if 1 ≤ limit ∧ limit ≤ 100 then limit.toNat else 50) hndR
  refine ⟨dialogs.ListMessages s.repo dialogID u limit before, ?_, ?_⟩
  · unfold Service.ListMessages
    simp only [hmem, Bool.not_true, Bool.false_eq_true, if_false]
  · unfold dialogs.ListMessages
    simp only [pageSize_eq, h1]
    refine ⟨?_, ?_, ?_, ?_⟩
    · rw [List.map_map]
      exact List.pairwise_map.2 h2
    · rw [List.length_map]
      exact h3
    · intro m hm
      obtain ⟨row, hrow, rfl⟩ := List.mem_map.1 hm
      obtain ⟨hr1, hr2⟩ := List.mem_filter.1 (h4 row hrow)
      simp only [decide_eq_true_eq] at hr2
      exact ⟨row, hr1, hr2.1, hr2.2, rfl, rfl, rfl, rfl, rfl⟩
    · intro row hrow hd hb hnot m hm
      obtain ⟨t, ht, rfl⟩ := List.mem_map.1 hm
      apply h5 row (List.mem_filter.2 ⟨hrow, by simpa using ⟨hd, hb⟩⟩) _ t ht
      intro hin
      exact hnot (List.mem_map.2 ⟨_, List.mem_map.2 ⟨row, hin, rfl⟩, rfl⟩)

set_option maxRecDepth 1000000 in
/-- C24 (amended) on the example state with 51 messages: the page of `limit = 3` below
message 10 is the messages 9, 8 and 7. -/
theorem ListMessages_page_witness :
    CheckMember exLongChat.repo 50 4 = true ∧
    (exLongChat.repo.messages.map (fun m => m.id)).Nodup ∧
    (exLongChat.ListMessages 4 50 3 10).1.toOption.map (fun l => l.map (fun m => m.ID))
      = some [9, 8, 7] ∧
    ∃ l : List Message,
      (exLongChat.ListMessages 4 50 3 10).1 = .ok l ∧
      (l.map (fun m => m.ID)).Pairwise (fun a b => b < a) ∧ l.length = 3 :=
  have hmem : CheckMember exLongChat.repo 50 4 = true := by decide
  have hnd : (exLongChat.repo.messages.map (fun m => m.id)).Nodup := by decide
  have hlen : min (if (1 : Int) ≤ 3 ∧ (3 : Int) ≤ 100 then (3 : Int).toNat else 50)
      (exLongChat.repo.messages.filter (fun m =>
        decide (m.dialog_id = 50 ∧ ((10 : Int) = 0 ∨ m.id < 10)))).length = 3 := by decide
  match ListMessages_page exLongChat 4 50 3 10 hmem hnd with
  | ⟨l, h1, h2, h3, _⟩ => ⟨hmem, hnd, by decide, l, h1, h2, h3.trans hlen⟩

/-- `CreateDirect` leaves the messages and their sequence as they were. -/
theorem Service.CreateDirect_messages (Parse : String → Option UUID) (s : Service) (now : Time)
    (newID cur : UUID) (target : String) :
    (s.CreateDirect Parse now newID cur target).2.repo.messages = s.repo.messages ∧
    (s.CreateDirect Parse now newID cur target).2.repo.message_seq = s.repo.message_seq := by
  unfold Service.CreateDirect GetOrCreateDirect dialogs.CreateDirect
  cases resolvePeer Parse s.userFetcher target with
  | error e => exact ⟨rfl, rfl⟩
  | ok peer =>
    simp only
    split
    · exact ⟨rfl, rfl⟩
    · cases s.repo.dialogs.find? (fun d => decide (d.kind = "direct") &&
          CheckMember s.repo d.id cur && CheckMember s.repo d.id peer) with
      | none => exact ⟨rfl, rfl⟩
      | some d => exact ⟨rfl, rfl⟩

/-- The tables `SendMessage` by a member leaves are those `SaveMessage` left. -/
theorem Service.SendMessage_repo (s : Service) (now : Time)
    (membersErr : Option Error) (publishErr : String → Option Error) (sender dialogID : UUID)
    (text : String) (hmem : CheckMember s.repo dialogID sender = true) :
    (s.SendMessage now membersErr publishErr sender dialogID text).2.repo
      = (SaveMessage s.repo now dialogID sender text).2 := by
  unfold Service.SendMessage
  simp only [hmem, Bool.not_true, Bool.false_eq_true, if_false]
  split
  · split <;> rfl
  · rfl

/-- In every reachable database the message identifiers are distinct and none is above the
last value of the sequence. -/
theorem Reachable.message_ids {st : Store} (hr : Reachable st) :
    (st.messages.map (fun m => m.id)).Nodup ∧ ∀ m ∈ st.messages, m.id ≤ st.message_seq := by
  induction hr with
  | empty => exact ⟨List.nodup_nil, fun m hm => by simp [Store.empty] at hm⟩
  | createDirect Parse s now newID cur target _ _ ih =>
    obtain ⟨h1, h2⟩ := Service.CreateDirect_messages Parse s now newID cur target
    rw [h1, h2]
    exact ih
  | sendMessage s now membersErr publishErr cur dialogID text _ ih =>
    by_cases hm : CheckMember s.repo dialogID cur = true
    · have hrepo := (Service.SendMessage_repo s now membersErr publishErr cur
        dialogID text hm)
      rw [hrepo]
      simp only [SaveMessage, List.map_append, List.map_cons, List.map_nil]
      constructor
      · rw [List.nodup_append]
        refine ⟨ih.1, List.nodup_singleton _, ?_⟩
        intro a ha hb
        obtain ⟨m, hm1, rfl⟩ := List.mem_map.1 ha
        have := ih.2 m hm1
        simp only [List.mem_singleton] at hb
        omega
      · intro m hmm
        rcases List.mem_append.1 hmm with h | h
        · have := ih.2 m h
          omega
        · simp only [List.mem_singleton] at h
          rw [h]
    · have : s.SendMessage now membersErr publishErr cur dialogID text
          = (.error .ErrForbidden, s) := by
        unfold Service.SendMessage
        simp [hm]
      rw [this]
      exact ih
  | markDelivered s now membersErr publishErr cur dialogID messageID _ ih =>
    have : (s.MarkDelivered now membersErr publishErr cur dialogID messageID).2.repo.messages
          = s.repo.messages ∧
        (s.MarkDelivered now membersErr publishErr cur dialogID messageID).2.repo.message_seq
          = s.repo.message_seq := by
      unfold Service.MarkDelivered
      simp only
      split
      · exact ⟨rfl, rfl⟩
      · split
        · split <;> exact ⟨rfl, rfl⟩
        · exact ⟨rfl, rfl⟩
    rw [this.1, this.2]
    exact ih
  | markRead s now membersErr publishErr cur dialogID messageID _ ih =>
    have : (s.MarkRead now membersErr publishErr cur dialogID messageID).2.repo.messages
          = s.repo.messages ∧
        (s.MarkRead now membersErr publishErr cur dialogID messageID).2.repo.message_seq
          = s.repo.message_seq := by
      unfold Service.MarkRead
      simp only
      split
      · exact ⟨rfl, rfl⟩
      · split
        · split <;> exact ⟨rfl, rfl⟩
        · exact ⟨rfl, rfl⟩
    rw [this.1, this.2]
    exact ih

end dialogs

/-! ## The gateway precheck of the WebSocket route (C25) -/

namespace realtime

/-- A string that starts with the prefix is not empty, the prefix being `"Bearer "`. -/
theorem ne_empty_of_HasPrefix (s : String) (h : strings.HasPrefix s "Bearer " = true) :
    s ≠ "" := by
  intro hs
  rw [hs] at h
  revert h
  decide

/-- The header made of `"Bearer "` and a token has the prefix `"Bearer "`. -/
theorem HasPrefix_bearer (tok : String) : strings.HasPrefix ("Bearer " ++ tok) "Bearer " = true := by
  unfold strings.HasPrefix
  rw [List.isPrefixOf_iff_prefix]
  exact ⟨tok.toList, by simp [String.toList, String.data_append]⟩

set_option maxRecDepth 1000000 in
/-- C25 (as stated it fails): with the validator of the example database at instant 10, a
request with no token at all is proxied, and so is one whose `Authorization` header is not a
bearer header (the hub then answers the first with 401); and with the validator of the
database that holds the banned administrator, the request with that user's token is answered
403 with the banned body, not 401. -/
theorem gateway_proxies_request_without_token :
    GatewayWSProxy.Handle (auth.AccessValidatorImpl.ValidateAccessToken auth.exService.repo 10)
      ⟨"", ""⟩ = .proxied ⟨"", ""⟩ ∧
    (Hub.HandleWS (auth.AccessValidatorImpl.ValidateAccessToken auth.exService.repo 10) NewHub
      ⟨"", ""⟩ (some 1)).1 = .httpError "unauthorized" 401 ∧
    GatewayWSProxy.Handle (auth.AccessValidatorImpl.ValidateAccessToken auth.exService.repo 10)
      ⟨"Basic abc", ""⟩ = .proxied ⟨"Basic abc", ""⟩ ∧
    GatewayWSProxy.Handle
      (auth.AccessValidatorImpl.ValidateAccessToken auth.exBannedService.repo 10)
      ⟨"Bearer AB", ""⟩ = .httpError "\x7b\"error\":\"banned\"\x7d" 403 := by
  decide

/-- C25 (amended): for a request that carries a bearer token, in an `Authorization` header
that starts with `"Bearer "` or, the header being absent, in a non-empty `token` query
parameter: the gateway hands a token to the validator; the request is proxied, with the query
token promoted into the header, if and only if the validator accepts that token; and when the
validator refuses it the request is answered 403 with the banned body if the refusal is
`ErrBanned` and 401 otherwise, and is not proxied. -/
theorem gateway_precheck (validator : Bytes → auth.SessionInfo × Option Error) (r : Request)
    (hcarry : strings.HasPrefix r.Authorization "Bearer " = true ∨
      (r.Authorization = "" ∧ r.token ≠ "")) :
    ∃ token, GatewayWSProxy.token r = some token ∧
      ((∃ r1, GatewayWSProxy.Handle validator r = .proxied r1) ↔
        (validator (sha256.Sum256 (bytesOf token))).2 = none) ∧
      ((validator (sha256.Sum256 (bytesOf token))).2 = none →
        GatewayWSProxy.Handle validator r = .proxied
          (if r.Authorization = "" then { r with Authorization := "Bearer " ++ r.token }
           else r)) ∧
      ((validator (sha256.Sum256 (bytesOf token))).2 = some .ErrBanned →
        GatewayWSProxy.Handle validator r = .httpError "\x7b\"error\":\"banned\"\x7d" 403) ∧
      (∀ err, (validator (sha256.Sum256 (bytesOf token))).2 = some err → err ≠ .ErrBanned →
        GatewayWSProxy.Handle validator r = .httpError "unauthorized" 401) := by
  have key : ∃ hdr : String, strings.HasPrefix hdr "Bearer " = true ∧
      (if r.Authorization = "" ∧ r.token ≠ "" then
        ({ r with Authorization := "Bearer " ++ r.token } : Request) else r)
        = { r with Authorization := hdr } ∧
      (if r.Authorization = "" then ({ r with Authorization := "Bearer " ++ r.token } : Request)
        else r) = { r with Authorization := hdr } := by
    rcases hcarry with h | h
    · have hne := ne_empty_of_HasPrefix _ h
      refine ⟨r.Authorization, h, ?_, ?_⟩
      · rw [if_neg (fun hc => hne hc.1)]
      · rw [if_neg hne]
    · refine ⟨"Bearer " ++ r.token, HasPrefix_bearer r.token, ?_, ?_⟩
      · rw [if_pos h]
      · rw [if_pos h.1]
  obtain ⟨hdr, hp, h1, h2⟩ := key
  refine ⟨auth.TrimSpace (strings.TrimPrefix hdr "Bearer"), ?_, ?_, ?_, ?_, ?_⟩
  · unfold GatewayWSProxy.token
    simp only [h1, hp, if_true]
  · unfold GatewayWSProxy.Handle
    simp only [h1, hp, if_true]
    cases hv : (validator (sha256.Sum256
        (bytesOf (auth.TrimSpace (strings.TrimPrefix hdr "Bearer"))))).2 with
    | none => simp
    | some err =>
      simp only
      split <;> simp
  · intro hv
    unfold GatewayWSProxy.Handle
    simp only [h1, hp, if_true, hv, h2]
  · intro hv
    unfold GatewayWSProxy.Handle
    simp only [h1, hp, if_true, hv]
  · intro err hv hne
    unfold GatewayWSProxy.Handle
    simp only [h1, hp, if_true, hv, if_neg hne]

set_option maxRecDepth 1000000 in
/-- C25 (amended) on example requests: the query token `"A0"` of a live session is accepted
and the request proxied; the query token `"bad"` is refused with 401. -/
theorem gateway_precheck_witness :
    GatewayWSProxy.Handle (auth.AccessValidatorImpl.ValidateAccessToken auth.exService.repo 10)
      ⟨"", "A0"⟩ = .proxied ⟨"Bearer A0", "A0"⟩ ∧
    GatewayWSProxy.Handle (auth.AccessValidatorImpl.ValidateAccessToken auth.exService.repo 10)
      ⟨"", "bad"⟩ = .httpError "unauthorized" 401 :=
  have hA : GatewayWSProxy.token ⟨"", "A0"⟩ = some "A0" := by decide
  have hB : GatewayWSProxy.token ⟨"", "bad"⟩ = some "bad" := by decide
  match gateway_precheck (auth.AccessValidatorImpl.ValidateAccessToken auth.exService.repo 10)
      ⟨"", "A0"⟩ (Or.inr ⟨rfl, by decide⟩),
    gateway_precheck (auth.AccessValidatorImpl.ValidateAccessToken auth.exService.repo 10)
      ⟨"", "bad"⟩ (Or.inr ⟨rfl, by decide⟩) with
  | ⟨t1, ht1, _, hacc, _, _⟩, ⟨t2, ht2, _, _, _, hrej⟩ =>
    have e1 : t1 = "A0" := Option.some.inj (ht1.symm.trans hA)
    have e2 : t2 = "bad" := Option.some.inj (ht2.symm.trans hB)
    ⟨hacc (by rw [e1]; decide),
     hrej .ErrSessionNotFound (by rw [e2]; decide) (by decide)⟩

end realtime

/-! ## The hub: forwarding of payloads and the connection map (C27, C28) -/

namespace realtime

/-- One turn of the loop of a subscriber of `userID`, which has received a payload.  When
the hub holds a connection for the user, and has not closed it, the subscriber writes one
frame: a text frame with the bytes of the payload, on that connection, after the frames
written before; the map, the closed connections and the subscribers are unchanged.  When the
hub holds no connection for the user the payload is dropped and the hub is unchanged. -/
theorem subscriber_forwards_payload (h : Hub) (userID : String) (payload : Bytes) :
    (∀ c, h.conns userID = some c → c ∉ h.closed →
      (h.subscribeUser userID payload).written = h.written ++ [(c, TextMessage, payload)] ∧
      (h.subscribeUser userID payload).conns = h.conns ∧
      (h.subscribeUser userID payload).closed = h.closed ∧
      (h.subscribeUser userID payload).subscribers = h.subscribers) ∧
    (h.conns userID = none → h.subscribeUser userID payload = h) := by
  constructor
  · intro c hc hopen
    refine ⟨?_, ?_, ?_, ?_⟩ <;>
      (unfold Hub.subscribeUser Hub.sendTo
       simp only [hc, if_neg hopen])
  · intro hnone
    unfold Hub.subscribeUser Hub.sendTo
    simp only [hnone]

/-- Two users with the same channel are the same user. -/
theorem userChannel_inj {u v : String} (h : userChannel u = userChannel v) : u = v := by
  have h1 := congrArg String.data h
  simp only [userChannel, String.data_append] at h1
  exact String.ext (List.append_cancel_left h1)

/-- The subscribers of a list receive one payload published on the channel of `userID`, whose
stored connection is open: each subscriber of `userID` in the list writes one frame. -/
theorem foldl_subscribers_written (userID : String) (payload : Bytes) (c : Nat) :
    ∀ (l : List String) (h : Hub), h.conns userID = some c → c ∉ h.closed →
      (l.foldl (fun h u => if userChannel u = userChannel userID then h.subscribeUser u payload
          else h) h).written
        = h.written ++ List.replicate (l.count userID) (c, TextMessage, payload)
  | [], h, _, _ => by simp
  | u :: l, h, hc, hopen => by
    rw [List.foldl_cons]
    by_cases hu : u = userID
    · subst hu
      have hstep : h.subscribeUser u payload
          = { h with written := h.written ++ [(c, TextMessage, payload)] } := by
        unfold Hub.subscribeUser Hub.sendTo
        simp only [hc, if_neg hopen]
      rw [if_pos rfl, hstep,
        foldl_subscribers_written u payload c l
          { h with written := h.written ++ [(c, TextMessage, payload)] } hc hopen]
      simp [List.replicate_succ]
    · have hch : ¬ userChannel u = userChannel userID := fun e => hu (userChannel_inj e)
      rw [if_neg hch, foldl_subscribers_written userID payload c l h hc hopen]
      have hcount : (u :: l).count userID = l.count userID := by
        rw [List.count_cons]
        simp [hu]
      rw [hcount]

/-- One payload published on the channel of a user whose stored connection is open: the hub
writes as many frames on that connection as subscribers of the user are running, each a text
frame with the bytes of the payload. -/
theorem publish_written (h : Hub) (userID : String) (payload : Bytes) (c : Nat)
    (hc : h.conns userID = some c) (hopen : c ∉ h.closed) :
    (h.publish (userChannel userID) payload).written
      = h.written ++ List.replicate (h.subscribers.count userID) (c, TextMessage, payload) := by
  unfold Hub.publish
  exact foldl_subscribers_written userID payload c h.subscribers h hc hopen

/-- Every upgrade starts one subscriber of the user, and the end of a read loop stops none. -/
theorem subscribers_grow (validator : Bytes → auth.SessionInfo × Option Error) (h : Hub)
    (r : Request) (conn : Option Nat) (userID : String) :
    (∀ u c, (h.HandleWS validator r conn).1 = .upgraded u c →
      (h.HandleWS validator r conn).2.subscribers = h.subscribers ++ [u]) ∧
    (h.HandleWS_exit userID).subscribers = h.subscribers := by
  refine ⟨?_, rfl⟩
  intro u c hup
  unfold Hub.HandleWS at hup ⊢
  simp only at hup ⊢
  generalize (if (if strings.HasPrefix r.Authorization "Bearer " = true then
      auth.TrimSpace (strings.TrimPrefix r.Authorization "Bearer") else "") = "" then r.token
    else if strings.HasPrefix r.Authorization "Bearer " = true then
      auth.TrimSpace (strings.TrimPrefix r.Authorization "Bearer") else "") = tok at hup ⊢
  by_cases htok : tok = ""
  · rw [if_pos htok] at hup
    cases hup
  · rw [if_neg htok] at hup ⊢
    cases hv : (validator (sha256.Sum256 (bytesOf tok))).2 with
    | some err =>
      rw [hv] at hup
      by_cases hb : err = .ErrBanned
      · simp only [hb, if_true] at hup
        cases hup
      · simp only [hb, if_false] at hup
        cases hup
    | none =>
      rw [hv] at hup
      cases conn with
      | none => cases hup
      | some c1 =>
        simp only [WSOutcome.upgraded.injEq] at hup
        rw [← hup.1]
        rfl

set_option maxRecDepth 100000 in
/-- C27 (the code at the failing input): user `"u"` upgrades with connection 1, the read loop
of that handler ends, and the user upgrades again with connection 2.  The hub then holds
connection 2 for `"u"`, open, and two subscribers of `"u"`: the one of the first upgrade was
never stopped.  One payload published on the channel of `"u"` is written as two text frames on
connection 2, not one.  The same holds when the second upgrade replaces the first connection;
after a single upgrade the payload is written once. -/
theorem reconnected_user_gets_payload_twice :
    exHub4.conns "u" = some 2 ∧ 2 ∉ exHub4.closed ∧ exHub4.written = [] ∧
    exHub4.subscribers = ["u", "u"] ∧
    (exHub4.publish (userChannel "u") (bytesOf "hi")).written
      = [(2, TextMessage, bytesOf "hi"), (2, TextMessage, bytesOf "hi")] ∧
    (exHub2.publish (userChannel "u") (bytesOf "hi")).written
      = [(2, TextMessage, bytesOf "hi"), (2, TextMessage, bytesOf "hi")] ∧
    (exHub1.publish (userChannel "u") (bytesOf "hi")).written
      = [(1, TextMessage, bytesOf "hi")] := by
  refine ⟨by decide, by decide, by decide, by decide, by decide, by decide, by decide⟩

/-- C28 (the code at the failing input): user `"u"` upgrades with connection 1 and then with
connection 2, which closes connection 1 and stores connection 2; the read loop of the handler
of connection 1 then ends and the handler calls `removeConn("u")`.  The map then holds no
connection for `"u"`, although connection 2 is open and its own read loop has not ended, and
a payload published for `"u"` is dropped: `removeConn` deletes the entry of the user, whatever
connection it holds. -/
theorem replaced_connection_exit_removes_new_connection :
    exHub1.conns "u" = some 1 ∧
    exHub2.conns "u" = some 2 ∧ exHub2.closed = [1] ∧
    exHub3 = exHub2.HandleWS_exit "u" ∧
    exHub3.conns "u" = none ∧ 2 ∉ exHub3.closed ∧
    (exHub3.publish (userChannel "u") (bytesOf "hi")).written = [] := by
  refine ⟨by decide, by decide, by decide, rfl, by decide, by decide, by decide⟩

/-! ## Token extraction in the gateway and in the hub (C29) -/

/-- C29 (the code at failing inputs): the gateway and the hub do not extract the same token.
With the header `"Bearer "` (no token after it) and the query token `"T"` the gateway
validates the empty token and the hub validates `"T"`; with the header `"Basic x"` and the
query token `"T"` the gateway validates nothing and the hub validates `"T"`; with no header
and the query token `" T "` the gateway validates `"T"` and the hub validates `" T "`. -/
theorem gateway_and_hub_tokens_differ :
    GatewayWSProxy.token ⟨"Bearer ", "T"⟩ = some "" ∧ Hub.token ⟨"Bearer ", "T"⟩ = some "T" ∧
    GatewayWSProxy.token ⟨"Basic x", "T"⟩ = none ∧ Hub.token ⟨"Basic x", "T"⟩ = some "T" ∧
    GatewayWSProxy.token ⟨"", " T "⟩ = some "T" ∧ Hub.token ⟨"", " T "⟩ = some " T " := by
  decide

/-- The token of each handler is the one its validator is called with: `Handle` validates
the token of the gateway when there is one and proxies unvalidated otherwise, and `HandleWS`
answers 401 without a token and validates its token otherwise. -/
theorem handlers_validate_their_token (validator : Bytes → auth.SessionInfo × Option Error)
    (h : Hub) (r : Request) (conn : Option Nat) :
    (GatewayWSProxy.token r = none → ∃ r1, GatewayWSProxy.Handle validator r = .proxied r1) ∧
    (∀ t, GatewayWSProxy.token r = some t →
      ((∃ r1, GatewayWSProxy.Handle validator r = .proxied r1) ↔
        (validator (sha256.Sum256 (bytesOf t))).2 = none)) ∧
    (Hub.token r = none → Hub.HandleWS validator h r conn = (.httpError "unauthorized" 401, h)) ∧
    (∀ t c, Hub.token r = some t → conn = some c →
      ((∃ u, (Hub.HandleWS validator h r conn).1 = .upgraded u c) ↔
        (validator (sha256.Sum256 (bytesOf t))).2 = none)) := by
  refine ⟨?_, ?_, ?_, ?_⟩
  · intro hn
    unfold GatewayWSProxy.token at hn
    unfold GatewayWSProxy.Handle
    simp only at hn ⊢
    generalize (if r.Authorization = "" ∧ r.token ≠ "" then
      ({ r with Authorization := "Bearer " ++ r.token } : Request) else r) = r1 at hn ⊢
    by_cases hp : strings.HasPrefix r1.Authorization "Bearer " = true
    · rw [if_pos hp] at hn
      cases hn
    · rw [if_neg hp]
      exact ⟨_, rfl⟩
  · intro t ht
    unfold GatewayWSProxy.token at ht
    unfold GatewayWSProxy.Handle
    simp only at ht ⊢
    generalize (if r.Authorization = "" ∧ r.token ≠ "" then
      ({ r with Authorization := "Bearer " ++ r.token } : Request) else r) = r1 at ht ⊢
    by_cases hp : strings.HasPrefix r1.Authorization "Bearer " = true
    · rw [if_pos hp] at ht ⊢
      simp only [Option.some.injEq] at ht
      rw [ht]
      cases hv : (validator (sha256.Sum256 (bytesOf t))).2 with
      | none => simp
      | some err =>
        simp only
        split <;> simp
    · rw [if_neg hp] at ht
      cases ht
  · intro hn
    unfold Hub.token at hn
    unfold Hub.HandleWS
    simp only at hn ⊢
    generalize (if (if strings.HasPrefix r.Authorization "Bearer " = true then
        auth.TrimSpace (strings.TrimPrefix r.Authorization "Bearer") else "") = "" then r.token
      else (if strings.HasPrefix r.Authorization "Bearer " = true then
        auth.TrimSpace (strings.TrimPrefix r.Authorization "Bearer") else "")) = tk at hn ⊢
    by_cases he : tk = ""
    · rw [if_pos he]
    · rw [if_neg he] at hn
      cases hn
  · intro t c ht hc
    unfold Hub.token at ht
    unfold Hub.HandleWS
    simp only at ht ⊢
    generalize (if (if strings.HasPrefix r.Authorization "Bearer " = true then
        auth.TrimSpace (strings.TrimPrefix r.Authorization "Bearer") else "") = "" then r.token
      else (if strings.HasPrefix r.Authorization "Bearer " = true then
        auth.TrimSpace (strings.TrimPrefix r.Authorization "Bearer") else "")) = tk at ht ⊢
    by_cases he : tk = ""
    · rw [if_pos he] at ht
      cases ht
    · rw [if_neg he] at ht ⊢
      simp only [Option.some.injEq] at ht
      rw [ht, hc]
      cases hv : (validator (sha256.Sum256 (bytesOf t))).2 with
      | none => simp
      | some err =>
        simp only
        split <;> simp

/-- Where the two extractions agree: on a bearer header with a non-empty token after it, and
on an absent header with a query token that holds no white space (or is empty). -/
theorem gateway_and_hub_tokens_agree (r : Request) :
    (strings.HasPrefix r.Authorization "Bearer " = true →
      auth.TrimSpace (strings.TrimPrefix r.Authorization "Bearer") ≠ "" →
      GatewayWSProxy.token r = Hub.token r) ∧
    (r.Authorization = "" → (∀ c ∈ r.token.toList, auth.isSpace c = false) →
      GatewayWSProxy.token r = Hub.token r) := by
  constructor
  · intro hp hne
    have hA := ne_empty_of_HasPrefix _ hp
    unfold GatewayWSProxy.token Hub.token
    simp only [if_neg (fun hc : r.Authorization = "" ∧ r.token ≠ "" => hA hc.1), hp, if_true,
      if_neg hne]
  · intro hA hns
    have hnp : strings.HasPrefix "" "Bearer " = false := by decide
    by_cases ht : r.token = ""
    · unfold GatewayWSProxy.token Hub.token
      simp [hA, ht, hnp]
    · have hp := HasPrefix_bearer r.token
      have htrim : auth.TrimSpace (strings.TrimPrefix ("Bearer " ++ r.token) "Bearer")
          = r.token := by
        unfold strings.TrimPrefix
        have hp6 : strings.HasPrefix ("Bearer " ++ r.token) "Bearer" = true := by
          unfold strings.HasPrefix
          rw [List.isPrefixOf_iff_prefix]
          exact ⟨' ' :: r.token.toList, by simp [String.toList, String.data_append]⟩
        rw [if_pos hp6]
        have hd : ("Bearer " ++ r.token).toList.drop "Bearer".toList.length
            = ' ' :: r.token.toList := by
          simp [String.toList, String.data_append]
        rw [hd, auth.TrimSpace_bearer_rest _ hns]
        rfl
      unfold GatewayWSProxy.token Hub.token
      simp only [hA, true_and, ne_eq, ht, not_false_eq_true, if_true, hp, htrim, hnp,
        Bool.false_eq_true, if_false]

end realtime

end Stu
